import Mathlib

/-!
# MD5 unit (hms-networks/md5): shallow embedding and verification

The definitions below embed `MD5.c` / `MD5.h` with the shipped configuration
`MD5_cfg.h` (`MD5_USE_16BIT_CHAR = 0`, `MD5_USE_BIG_ENDIAN = 0`, all three lookup
tables enabled).

Conventions of the embedding:

* `UINT8`, `UINT16`, `UINT32`, `UINT64` values are natural numbers; every place where
  the C arithmetic can wrap carries an explicit `% 2^w` (written as a numeral).
  `UINT32` is taken to be 32 bits wide, as its name and RFC 1321 require.
* A scalar argument of a public routine reaches the body converted to the parameter
  type, i.e. reduced modulo `2^16` for a `UINT16` parameter and `2^8` for a `UINT8` one.
* `adwDigest[0..3]` / `adwBufferABCD[0..3]` is the record `MD5_Regs` with the fields
  `A B C D` (indices `MD5_A_INDEX .. MD5_D_INDEX`).
* `uBlockBuffer` is the list of its bytes `ab[0..63]`; the aliased view `adw[k]` is the
  little-endian word made of `ab[4k..4k+3]` (the only supported byte order).
* The `while` loops are structurally recursive on a fuel argument that is initialised
  with the loop counter, which strictly decreases in every iteration; any fuel that is
  at least the counter gives the same result (`MD5_Update_while_fuel`).
* A buffer copy is a list operation on the 64 bytes; it is the C copy as long as it
  stays inside the array.
* The branches that the shipped configuration does not compile are embedded in sections
  of their own: the table-free computation of the block index and of the rotation count
  in `MD5_ProcessBlock`, and the octet copy `MD5_PORT_CopyOctetsImpl` of `MD5_port.c`
  for targets with 16-bit characters.
-/

/-! ## Constants -/

def MD5_BLOCK_SIZE : Nat := 64
def MD5_DIGEST_SIZE : Nat := 16
def MD5_NUM_ROUNDS : Nat := 4
def MD5_NUM_OPERATIONS : Nat := 16

/-- Bitwise complement of a `UINT32` (the C operator `~`). -/
def MD5_not32 (x : Nat) : Nat := 4294967295 - x

def MD5_AUX_F (x y z : Nat) : Nat := (x &&& y) ||| (MD5_not32 x &&& z)
def MD5_AUX_G (x y z : Nat) : Nat := (x &&& z) ||| (y &&& MD5_not32 z)
def MD5_AUX_H (x y z : Nat) : Nat := x ^^^ y ^^^ z
def MD5_AUX_I (x y z : Nat) : Nat := y ^^^ (x ||| MD5_not32 z)

/-! ## Types -/

/-- The four 32-bit registers `A`, `B`, `C`, `D` (array indices 0, 1, 2, 3). -/
structure MD5_Regs where
  A : Nat
  B : Nat
  C : Nat
  D : Nat
  deriving DecidableEq, Repr

/-- The instance record `MD5_InstType`. -/
structure MD5_InstType where
  lTotalByteSize : Nat
  adwDigest : MD5_Regs
  iBlockOffset : Nat
  uBlockBuffer : List Nat
  deriving DecidableEq, Repr

/-- The view `uBlockBuffer.adw[k]` of the union on a little-endian target. -/
def MD5_BlockBuf_adw (ab : List Nat) (k : Nat) : Nat :=
  ab.getD (4 * k) 0 + 256 * ab.getD (4 * k + 1) 0 + 65536 * ab.getD (4 * k + 2) 0
    + 16777216 * ab.getD (4 * k + 3) 0

/-- Entry of `MD5_asTestCases`: the message and the expected digest bytes. -/
structure MD5_TestStructType where
  acTestMsg : String
  abExpectedDigest : List Nat

/-! ## Tables -/

def MD5_asTestCases : List MD5_TestStructType :=
  [ { acTestMsg := "",
      abExpectedDigest := [0xd4, 0x1d, 0x8c, 0xd9, 0x8f, 0x00, 0xb2, 0x04,
                           0xe9, 0x80, 0x09, 0x98, 0xec, 0xf8, 0x42, 0x7e] },
    { acTestMsg := "a",
      abExpectedDigest := [0x0c, 0xc1, 0x75, 0xb9, 0xc0, 0xf1, 0xb6, 0xa8,
                           0x31, 0xc3, 0x99, 0xe2, 0x69, 0x77, 0x26, 0x61] },
    { acTestMsg := "abc",
      abExpectedDigest := [0x90, 0x01, 0x50, 0x98, 0x3c, 0xd2, 0x4f, 0xb0,
                           0xd6, 0x96, 0x3f, 0x7d, 0x28, 0xe1, 0x7f, 0x72] },
    { acTestMsg := "message digest",
      abExpectedDigest := [0xf9, 0x6b, 0x69, 0x7d, 0x7c, 0xb7, 0x93, 0x8d,
                           0x52, 0x5a, 0x2f, 0x31, 0xaa, 0xf1, 0x61, 0xd0] },
    { acTestMsg := "abcdefghijklmnopqrstuvwxyz",
      abExpectedDigest := [0xc3, 0xfc, 0xd3, 0xd7, 0x61, 0x92, 0xe4, 0x00,
                           0x7d, 0xfb, 0x49, 0x6c, 0xca, 0x67, 0xe1, 0x3b] },
    { acTestMsg := "The quick brown fox jumps over the lazy dog",
      abExpectedDigest := [0x9E, 0x10, 0x7D, 0x9D, 0x37, 0x2B, 0xB6, 0x82,
                           0x6B, 0xD8, 0x1D, 0x35, 0x42, 0xA4, 0x19, 0xD6] },
    { acTestMsg := "The quick brown fox jumps over the lazy dog.",
      abExpectedDigest := [0xe4, 0xd9, 0x09, 0xc2, 0x90, 0xd0, 0xfb, 0x1c,
                           0xa0, 0x68, 0xff, 0xad, 0xdf, 0x22, 0xcb, 0xd0] },
    { acTestMsg := "ABCDEFGHIJKLMNOPQRSTUVWXYZabcdefghijklmnopqrstuvwxyz0123456789",
      abExpectedDigest := [0xd1, 0x74, 0xab, 0x98, 0xd2, 0x77, 0xd9, 0xf5,
                           0xa5, 0x61, 0x1c, 0x2c, 0x9f, 0x41, 0x9d, 0x9f] },
    { acTestMsg :=
        "12345678901234567890123456789012345678901234567890123456789012345678901234567890",
      abExpectedDigest := [0x57, 0xed, 0xf4, 0xa2, 0x2b, 0xe3, 0xc9, 0x55,
                           0xac, 0x49, 0xda, 0x2e, 0x21, 0x07, 0xb6, 0x7a] } ]

def MD5_adwTableT : List Nat :=
  [ 0xd76aa478, 0xe8c7b756, 0x242070db, 0xc1bdceee,
    0xf57c0faf, 0x4787c62a, 0xa8304613, 0xfd469501,
    0x698098d8, 0x8b44f7af, 0xffff5bb1, 0x895cd7be,
    0x6b901122, 0xfd987193, 0xa679438e, 0x49b40821,
    0xf61e2562, 0xc040b340, 0x265e5a51, 0xe9b6c7aa,
    0xd62f105d, 0x02441453, 0xd8a1e681, 0xe7d3fbc8,
    0x21e1cde6, 0xc33707d6, 0xf4d50d87, 0x455a14ed,
    0xa9e3e905, 0xfcefa3f8, 0x676f02d9, 0x8d2a4c8a,
    0xfffa3942, 0x8771f681, 0x6d9d6122, 0xfde5380c,
    0xa4beea44, 0x4bdecfa9, 0xf6bb4b60, 0xbebfbc70,
    0x289b7ec6, 0xeaa127fa, 0xd4ef3085, 0x04881d05,
    0xd9d4d039, 0xe6db99e5, 0x1fa27cf8, 0xc4ac5665,
    0xf4292244, 0x432aff97, 0xab9423a7, 0xfc93a039,
    0x655b59c3, 0x8f0ccc92, 0xffeff47d, 0x85845dd1,
    0x6fa87e4f, 0xfe2ce6e0, 0xa3014314, 0x4e0811a1,
    0xf7537e82, 0xbd3af235, 0x2ad7d2bb, 0xeb86d391 ]

def MD5_abTableS : List Nat :=
  [ 7, 12, 17, 22,
    7, 12, 17, 22,
    7, 12, 17, 22,
    7, 12, 17, 22,
    5, 9,  14, 20,
    5, 9,  14, 20,
    5, 9,  14, 20,
    5, 9,  14, 20,
    4, 11, 16, 23,
    4, 11, 16, 23,
    4, 11, 16, 23,
    4, 11, 16, 23,
    6, 10, 15, 21,
    6, 10, 15, 21,
    6, 10, 15, 21,
    6, 10, 15, 21 ]

def MD5_abTableK : List Nat :=
  [ 0,  1,  2,  3,
    4,  5,  6,  7,
    8,  9,  10, 11,
    12, 13, 14, 15,
    1,  6,  11, 0,
    5,  10, 15, 4,
    9,  14, 3,  8,
    13, 2,  7,  12,
    5,  8,  11, 14,
    1,  4,  7,  10,
    13, 0,  3,  6,
    9,  12, 15, 2,
    0,  7,  14, 5,
    12, 3,  10, 1,
    8,  15, 6,  13,
    4,  11, 2,  9 ]

/-! ## Static routines -/

def MD5_AUXILIARY_F (adwBufferABCD : MD5_Regs) : Nat :=
  MD5_AUX_F adwBufferABCD.B adwBufferABCD.C adwBufferABCD.D

def MD5_AUXILIARY_G (adwBufferABCD : MD5_Regs) : Nat :=
  MD5_AUX_G adwBufferABCD.B adwBufferABCD.C adwBufferABCD.D

def MD5_AUXILIARY_H (adwBufferABCD : MD5_Regs) : Nat :=
  MD5_AUX_H adwBufferABCD.B adwBufferABCD.C adwBufferABCD.D

def MD5_AUXILIARY_I (adwBufferABCD : MD5_Regs) : Nat :=
  MD5_AUX_I adwBufferABCD.B adwBufferABCD.C adwBufferABCD.D

/-- The function table `pnAuxFuncs[ bRound ]` of `MD5_ProcessBlock`. -/
def MD5_pnAuxFuncs (bRound : Nat) : MD5_Regs → Nat :=
  match bRound with
  | 0 => MD5_AUXILIARY_F
  | 1 => MD5_AUXILIARY_G
  | 2 => MD5_AUXILIARY_H
  | _ => MD5_AUXILIARY_I

/-- Rotation of a 32-bit register as `MD5_RotateLeft` computes it:
`dwMask = (1UL << n) - 1`, result
`((x >> (32 - n)) & dwMask) | ((x << n) & ~dwMask)`. -/
def MD5_RotateLeft (dwRegister bRotateCount : Nat) : Nat :=
  let bRegisterBitSize := 32
  let dwMask := ((1 <<< bRotateCount) % 4294967296 + 4294967295) % 4294967296
  ((dwRegister >>> (bRegisterBitSize - bRotateCount)) &&& dwMask) |||
    (((dwRegister <<< bRotateCount) % 4294967296) &&& MD5_not32 dwMask)

/-- Table read `MD5_adwTableT[ bIndex ]` (`MD5_USE_T_TABLE = 1`). -/
def MD5_GetValueT (bIndex : Nat) : Nat := MD5_adwTableT.getD bIndex 0

/-- Body of the inner `for` loop of `MD5_ProcessBlock`: one of the 64 calculations,
on the working registers `adwBufferABCD` and the block bytes `ab`. -/
def MD5_Operation (ab : List Nat) (bRound bOperation : Nat) (r : MD5_Regs) : MD5_Regs :=
  let bLutIndex := (bOperation + MD5_NUM_OPERATIONS * bRound) % 256
  let bBlockIndex := MD5_abTableK.getD bLutIndex 0
  let dwRegister := (r.A + MD5_pnAuxFuncs bRound r + MD5_GetValueT bLutIndex
                      + MD5_BlockBuf_adw ab bBlockIndex) % 4294967296
  let bRotateCount := MD5_abTableS.getD bLutIndex 0
  { A := r.D,
    D := r.C,
    C := r.B,
    B := (r.B + MD5_RotateLeft dwRegister bRotateCount) % 4294967296 }

/-- The two nested `for` loops of `MD5_ProcessBlock` (4 rounds of 16 operations). -/
def MD5_Rounds (ab : List Nat) (r : MD5_Regs) : MD5_Regs :=
  (List.range MD5_NUM_ROUNDS).foldl
    (fun r bRound =>
      (List.range MD5_NUM_OPERATIONS).foldl
        (fun r bOperation => MD5_Operation ab bRound bOperation r) r)
    r

/-- Final loop of `MD5_ProcessBlock`: `adwDigest[ i ] += adwBufferABCD[ i ]`. -/
def MD5_AddRegs (d r : MD5_Regs) : MD5_Regs :=
  { A := (d.A + r.A) % 4294967296,
    B := (d.B + r.B) % 4294967296,
    C := (d.C + r.C) % 4294967296,
    D := (d.D + r.D) % 4294967296 }

def MD5_ProcessBlock (psInst : MD5_InstType) : MD5_InstType :=
  if psInst.iBlockOffset = MD5_BLOCK_SIZE then
    let adwBufferABCD := MD5_Rounds psInst.uBlockBuffer psInst.adwDigest
    { psInst with
      adwDigest := MD5_AddRegs psInst.adwDigest adwBufferABCD,
      iBlockOffset := 0 }
  else psInst

/-! ## Public services -/

/-- The copy `memcpy( &dst[ off ], src, size )` on byte lists. It is the C copy whenever
`off + size ≤ dst.length` and `size ≤ src.length` (anything else is out of bounds in C). -/
def MD5_MEMCPY (dst : List Nat) (off : Nat) (src : List Nat) (size : Nat) : List Nat :=
  dst.take off ++ src.take size ++ dst.drop (off + size)

/-- The fill `memset( &dst[ off ], val, size )` on byte lists, in bounds when
`off + size ≤ dst.length`. -/
def MD5_MEMSET (dst : List Nat) (off : Nat) (val : Nat) (size : Nat) : List Nat :=
  dst.take off ++ List.replicate size val ++ dst.drop (off + size)

def MD5_Init (psInst : MD5_InstType) : MD5_InstType :=
  { psInst with
    iBlockOffset := 0,
    lTotalByteSize := 0,
    adwDigest := { A := 0x67452301, B := 0xEFCDAB89, C := 0x98BADCFE, D := 0x10325476 } }

/-- The `while( iDataLen != 0 )` loop of `MD5_Update`. -/
def MD5_Update_while : Nat → MD5_InstType → List Nat → Nat → MD5_InstType
  | 0, psInst, _, _ => psInst
  | fuel + 1, psInst, pbData, iDataLen =>
    if iDataLen ≠ 0 then
      let iCopySize := if iDataLen > MD5_BLOCK_SIZE then MD5_BLOCK_SIZE else iDataLen
      let psInst1 : MD5_InstType :=
        { psInst with
          uBlockBuffer := MD5_MEMCPY psInst.uBlockBuffer psInst.iBlockOffset pbData iCopySize,
          iBlockOffset := (psInst.iBlockOffset + iCopySize) % 65536 }
      MD5_Update_while fuel (MD5_ProcessBlock psInst1) (pbData.drop iCopySize)
        (iDataLen - iCopySize)
    else psInst

def MD5_Update (psInst : MD5_InstType) (pbData : List Nat) (iDataLen : Nat) : MD5_InstType :=
  let iDataLen := iDataLen % 65536
  let bBytesLeftInBlock := (MD5_BLOCK_SIZE + 65536 - psInst.iBlockOffset) % 256
  let psInst0 : MD5_InstType :=
    { psInst with
      lTotalByteSize := (psInst.lTotalByteSize + iDataLen) % 18446744073709551616 }
  if bBytesLeftInBlock = 0 then
    MD5_Update_while iDataLen (MD5_ProcessBlock psInst0) pbData iDataLen
  else if iDataLen ≥ bBytesLeftInBlock then
    let psInst1 : MD5_InstType :=
      { psInst0 with
        uBlockBuffer :=
          MD5_MEMCPY psInst0.uBlockBuffer psInst0.iBlockOffset pbData bBytesLeftInBlock,
        iBlockOffset := MD5_BLOCK_SIZE }
    MD5_Update_while (iDataLen - bBytesLeftInBlock) (MD5_ProcessBlock psInst1)
      (pbData.drop bBytesLeftInBlock) (iDataLen - bBytesLeftInBlock)
  else
    MD5_Update_while iDataLen psInst0 pbData iDataLen

/-- The `while( iCount != 0 )` loop of `MD5_UpdateByte`. -/
def MD5_UpdateByte_while : Nat → MD5_InstType → Nat → Nat → MD5_InstType
  | 0, psInst, _, _ => psInst
  | fuel + 1, psInst, bValue, iCount =>
    if iCount ≠ 0 then
      let iCopySize := if iCount > MD5_BLOCK_SIZE then MD5_BLOCK_SIZE else iCount
      let psInst1 : MD5_InstType :=
        { psInst with
          uBlockBuffer := MD5_MEMSET psInst.uBlockBuffer psInst.iBlockOffset bValue iCopySize,
          iBlockOffset := (psInst.iBlockOffset + iCopySize) % 65536 }
      MD5_UpdateByte_while fuel (MD5_ProcessBlock psInst1) bValue (iCount - iCopySize)
    else psInst

def MD5_UpdateByte (psInst : MD5_InstType) (bValue : Nat) (iCount : Nat) : MD5_InstType :=
  let bValue := bValue % 256
  let iCount := iCount % 65536
  let bBytesLeftInBlock := (MD5_BLOCK_SIZE + 65536 - psInst.iBlockOffset) % 256
  let psInst0 : MD5_InstType :=
    { psInst with
      lTotalByteSize := (psInst.lTotalByteSize + iCount) % 18446744073709551616 }
  if bBytesLeftInBlock = 0 then
    MD5_UpdateByte_while iCount (MD5_ProcessBlock psInst0) bValue iCount
  else if iCount ≥ bBytesLeftInBlock then
    let psInst1 : MD5_InstType :=
      { psInst0 with
        uBlockBuffer :=
          MD5_MEMSET psInst0.uBlockBuffer psInst0.iBlockOffset bValue bBytesLeftInBlock,
        iBlockOffset := MD5_BLOCK_SIZE }
    MD5_UpdateByte_while (iCount - bBytesLeftInBlock) (MD5_ProcessBlock psInst1) bValue
      (iCount - bBytesLeftInBlock)
  else
    MD5_UpdateByte_while iCount psInst0 bValue iCount

/-- The object representation `(UINT8*)&lTotalBitSize` of a `UINT64` on a
little-endian target. -/
def MD5_bytesOfUINT64 (l : Nat) : List Nat :=
  (List.range 8).map (fun i => (l >>> (8 * i)) % 256)

def MD5_Final (psInst : MD5_InstType) : MD5_InstType :=
  let bPadLeadingOne := 0x80
  let lTotalBitSize := (psInst.lTotalByteSize * 8) % 18446744073709551616
  let psInst1 := MD5_UpdateByte psInst bPadLeadingOne 1
  let bBytesLeftInBlock1 := (MD5_BLOCK_SIZE - psInst1.iBlockOffset % MD5_BLOCK_SIZE) % 256
  let psInst2 :=
    if bBytesLeftInBlock1 < 8 then MD5_UpdateByte psInst1 0 bBytesLeftInBlock1 else psInst1
  let bBytesLeftInBlock2 := (MD5_BLOCK_SIZE - psInst2.iBlockOffset % MD5_BLOCK_SIZE) % 256
  let bZeroPadLength := (bBytesLeftInBlock2 + 256 - 8) % 256
  let psInst3 := if bZeroPadLength > 0 then MD5_UpdateByte psInst2 0 bZeroPadLength else psInst2
  MD5_Update psInst3 (MD5_bytesOfUINT64 lTotalBitSize) 8

def MD5_Compute (psInst : MD5_InstType) (pbMsg : List Nat) (iMsgLen : Nat) : MD5_InstType :=
  MD5_Update (MD5_Init psInst) pbMsg iMsgLen |> MD5_Final

/-- The bytes `( (UINT8*)psInst->adwDigest )[ 0..15 ]` that `MD5_MEMCMP`, `MD5_Print` and
the example application read: the four registers in little-endian byte order. -/
def MD5_digestBytes (r : MD5_Regs) : List Nat :=
  [r.A, r.B, r.C, r.D].flatMap
    (fun w => [w % 256, (w / 256) % 256, (w / 65536) % 256, (w / 16777216) % 256])

/-- The bytes of a C string literal (without the terminating NUL). -/
def MD5_strBytes (ac : String) : List Nat := ac.toList.map Char.toNat

/-- The test loop of `MD5_RunTests`, threading the instance through the entries. -/
def MD5_RunTests_loop : List MD5_TestStructType → MD5_InstType → Bool → Bool × MD5_InstType
  | [], psInst, fAllPassed => (fAllPassed, psInst)
  | t :: rest, psInst, fAllPassed =>
    let acTestMsg := MD5_strBytes t.acTestMsg
    let psInst1 := MD5_Compute psInst acTestMsg acTestMsg.length
    let fMismatch := decide (MD5_digestBytes psInst1.adwDigest ≠ t.abExpectedDigest)
    MD5_RunTests_loop rest psInst1 (if fMismatch then false else fAllPassed)

def MD5_RunTests (psInst : MD5_InstType) : Bool :=
  (MD5_RunTests_loop MD5_asTestCases psInst true).1


/-! ## Derived notions used to state and prove the properties -/

/-- The block compression as `MD5_ProcessBlock` performs it: the registers left by
`MD5_ProcessBlock` on an instance whose buffer is full and holds `ab`. -/
def MD5_compress (adwDigest : MD5_Regs) (ab : List Nat) : MD5_Regs :=
  (MD5_ProcessBlock { lTotalByteSize := 0, adwDigest := adwDigest,
                      iBlockOffset := MD5_BLOCK_SIZE, uBlockBuffer := ab }).adwDigest

/-- Buffering of a single byte: store it at the buffer offset, advance the offset and
let `MD5_ProcessBlock` compress the buffer if that filled it. The byte counter is
left alone. -/
def MD5_pushByte (s : MD5_InstType) (x : Nat) : MD5_InstType :=
  MD5_ProcessBlock
    { s with
      uBlockBuffer := MD5_MEMCPY s.uBlockBuffer s.iBlockOffset [x] 1,
      iBlockOffset := s.iBlockOffset + 1 }

/-- The successive complete 64-byte blocks of a byte sequence. -/
def MD5_blocks (l : List Nat) : List (List Nat) :=
  (List.range (l.length / 64)).map (fun i => (l.drop (64 * i)).take 64)

/-- The bytes of a sequence that follow its last complete 64-byte block. -/
def MD5_tail (l : List Nat) : List Nat := l.drop (64 * (l.length / 64))

/-- The not yet compressed bytes held by an instance. -/
def MD5_pending (s : MD5_InstType) : List Nat := s.uBlockBuffer.take s.iBlockOffset

/-- Feeding a byte sequence of any length: the bytes are buffered one after the other
and the byte counter advances by their number (modulo `2^64`). -/
def MD5_feed (s : MD5_InstType) (data : List Nat) : MD5_InstType :=
  { data.foldl MD5_pushByte s with
    lTotalByteSize := (s.lTotalByteSize + data.length) % 18446744073709551616 }

/-- The 8-byte little-endian encoding of a 64-bit value. -/
def RFC1321_LE64 (v : Nat) : List Nat :=
  (List.range 8).map (fun i => (v / 256 ^ i) % 256)

/-- The number of zero bytes of the padding after `n` message bytes: `(55 - n) mod 64`. -/
def RFC1321_zeroCount (n : Nat) : Nat := ((55 - (n : Int)) % 64).toNat

/-- The padding string for a byte counter `c` and a buffer offset `o`: the byte `0x80`,
`(55 - o) mod 64` zero bytes, and the little-endian encoding of `8 * c mod 2^64`. -/
def RFC1321_padding (c o : Nat) : List Nat :=
  [0x80] ++ List.replicate (RFC1321_zeroCount o) 0
    ++ RFC1321_LE64 ((8 * c) % 18446744073709551616)

/-! ## RFC 1321, section 3.4, as the reference the code is compared with -/

/-- The function `F(X,Y,Z) = XY v not(X) Z` on 32-bit words. -/
def RFC1321_F (x y z : Nat) : Nat := (x &&& y) ||| ((4294967295 - x) &&& z)
/-- The function `G(X,Y,Z) = XZ v Y not(Z)`. -/
def RFC1321_G (x y z : Nat) : Nat := (x &&& z) ||| (y &&& (4294967295 - z))
/-- The function `H(X,Y,Z) = X xor Y xor Z`. -/
def RFC1321_H (x y z : Nat) : Nat := x ^^^ y ^^^ z
/-- The function `I(X,Y,Z) = Y xor (X v not(Z))`. -/
def RFC1321_I (x y z : Nat) : Nat := y ^^^ (x ||| (4294967295 - z))

/-- The rotation `X <<< s`: the 32-bit value obtained by circularly shifting `x` left by
`s` bits. -/
def RFC1321_rotl (x s : Nat) : Nat := (x * 2 ^ s) % 4294967296 + x / 2 ^ (32 - s)

/-- The entry `T[i]`, `i = 1 .. 64`, of the 64-element table of RFC 1321 (the literal
values, which are those of `MD5_adwTableT`). -/
def RFC1321_T (i : Nat) : Nat := MD5_adwTableT.getD (i - 1) 0

/-- The word `X[j]`: the `j`-th little-endian 32-bit word of a block. -/
def RFC1321_X (blk : List Nat) (j : Nat) : Nat :=
  blk.getD (4 * j) 0 + 2 ^ 8 * blk.getD (4 * j + 1) 0 + 2 ^ 16 * blk.getD (4 * j + 2) 0
    + 2 ^ 24 * blk.getD (4 * j + 3) 0

/-- The operation `[abcd k s i]`: the new value of `a`, which is
`b + ((a + f(b,c,d) + X[k] + T[i]) <<< s)`, additions modulo `2^32`. -/
def RFC1321_op (f : Nat → Nat → Nat → Nat) (X : Nat → Nat) (a b c d : Nat)
    (ksi : Nat × Nat × Nat) : Nat :=
  (b + RFC1321_rotl ((a + f b c d + X ksi.1 + RFC1321_T ksi.2.2) % 4294967296) ksi.2.1)
    % 4294967296

/-- One line of the table of operations of the RFC:
`[ABCD k s i] [DABC k s i] [CDAB k s i] [BCDA k s i]`. -/
def RFC1321_row (f : Nat → Nat → Nat → Nat) (X : Nat → Nat) (r : MD5_Regs) :
    List (Nat × Nat × Nat) → MD5_Regs
  | [o0, o1, o2, o3] =>
    let a := RFC1321_op f X r.A r.B r.C r.D o0
    let d := RFC1321_op f X r.D a r.B r.C o1
    let c := RFC1321_op f X r.C d a r.B o2
    let b := RFC1321_op f X r.B c d a o3
    { A := a, B := b, C := c, D := d }
  | _ => r

def RFC1321_round1 : List (List (Nat × Nat × Nat)) :=
  [ [(0, 7, 1), (1, 12, 2), (2, 17, 3), (3, 22, 4)],
    [(4, 7, 5), (5, 12, 6), (6, 17, 7), (7, 22, 8)],
    [(8, 7, 9), (9, 12, 10), (10, 17, 11), (11, 22, 12)],
    [(12, 7, 13), (13, 12, 14), (14, 17, 15), (15, 22, 16)] ]

def RFC1321_round2 : List (List (Nat × Nat × Nat)) :=
  [ [(1, 5, 17), (6, 9, 18), (11, 14, 19), (0, 20, 20)],
    [(5, 5, 21), (10, 9, 22), (15, 14, 23), (4, 20, 24)],
    [(9, 5, 25), (14, 9, 26), (3, 14, 27), (8, 20, 28)],
    [(13, 5, 29), (2, 9, 30), (7, 14, 31), (12, 20, 32)] ]

def RFC1321_round3 : List (List (Nat × Nat × Nat)) :=
  [ [(5, 4, 33), (8, 11, 34), (11, 16, 35), (14, 23, 36)],
    [(1, 4, 37), (4, 11, 38), (7, 16, 39), (10, 23, 40)],
    [(13, 4, 41), (0, 11, 42), (3, 16, 43), (6, 23, 44)],
    [(9, 4, 45), (12, 11, 46), (15, 16, 47), (2, 23, 48)] ]

def RFC1321_round4 : List (List (Nat × Nat × Nat)) :=
  [ [(0, 6, 49), (7, 10, 50), (14, 15, 51), (5, 21, 52)],
    [(12, 6, 53), (3, 10, 54), (10, 15, 55), (1, 21, 56)],
    [(8, 6, 57), (15, 10, 58), (6, 15, 59), (13, 21, 60)],
    [(4, 6, 61), (11, 10, 62), (2, 15, 63), (9, 21, 64)] ]

/-- The transform of one 16-word block: rounds 1 to 4, then
`A = A + AA`, `B = B + BB`, `C = C + CC`, `D = D + DD`. -/
def RFC1321_transform (st : MD5_Regs) (blk : List Nat) : MD5_Regs :=
  let X := RFC1321_X blk
  let r1 := RFC1321_round1.foldl (RFC1321_row RFC1321_F X) st
  let r2 := RFC1321_round2.foldl (RFC1321_row RFC1321_G X) r1
  let r3 := RFC1321_round3.foldl (RFC1321_row RFC1321_H X) r2
  let r4 := RFC1321_round4.foldl (RFC1321_row RFC1321_I X) r3
  { A := (st.A + r4.A) % 4294967296,
    B := (st.B + r4.B) % 4294967296,
    C := (st.C + r4.C) % 4294967296,
    D := (st.D + r4.D) % 4294967296 }

/-- The initial register values of RFC 1321, section 3.3. -/
def RFC1321_IV : MD5_Regs :=
  { A := 0x67452301, B := 0xefcdab89, C := 0x98badcfe, D := 0x10325476 }

/-- The padded message of RFC 1321, sections 3.1 and 3.2, as bytes (only the low-order
64 bits of the bit length are used). -/
def RFC1321_pad (M : List Nat) : List Nat :=
  M ++ [0x80] ++ List.replicate (RFC1321_zeroCount M.length) 0
    ++ RFC1321_LE64 ((8 * M.length) % 18446744073709551616)

/-- The registers after the RFC 1321 transform has been folded over the padded message. -/
def RFC1321_MD5 (M : List Nat) : MD5_Regs :=
  (MD5_blocks (RFC1321_pad M)).foldl RFC1321_transform RFC1321_IV

/-- A single operation with the register roles rotated afterwards. -/
def RFC1321_step (f : Nat → Nat → Nat → Nat) (X : Nat → Nat) (r : MD5_Regs)
    (ksi : Nat × Nat × Nat) : MD5_Regs :=
  { A := r.D, B := RFC1321_op f X r.A r.B r.C r.D ksi, C := r.B, D := r.C }

/-- The auxiliary function of a round, by round index. -/
def RFC1321_aux (bRound : Nat) : Nat → Nat → Nat → Nat :=
  match bRound with
  | 0 => RFC1321_F
  | 1 => RFC1321_G
  | 2 => RFC1321_H
  | _ => RFC1321_I

/-- The operands `(k, s, i)` that the tables of the code give to operation `bOperation` of
round `bRound`. -/
def MD5_ksi (bRound bOperation : Nat) : Nat × Nat × Nat :=
  (MD5_abTableK.getD (bOperation + 16 * bRound) 0,
   MD5_abTableS.getD (bOperation + 16 * bRound) 0,
   bOperation + 16 * bRound + 1)

/-- Streaming use of the unit, as `ComputeMd5` of the example application does it:
`MD5_Init`, one `MD5_Update` per chunk, `MD5_Final`. -/
def MD5_stream (psInst : MD5_InstType) (chunks : List (List Nat)) : MD5_InstType :=
  MD5_Final (chunks.foldl (fun s chunk => MD5_Update s chunk chunk.length) (MD5_Init psInst))

/-- An instance with stale contents, as a finished earlier computation may leave it. -/
def MD5_exampleInst : MD5_InstType :=
  { lTotalByteSize := 77,
    adwDigest := { A := 1, B := 2, C := 3, D := 4 },
    iBlockOffset := 13,
    uBlockBuffer := List.replicate 64 0xAB }

/-! ## Sequences of calls -/

/-- The states an instance can be in between calls: whatever `MD5_Init` or `MD5_Compute`
leave (from any prior contents), and what `MD5_Update`, `MD5_UpdateByte` and `MD5_Final`
make of such a state, with any arguments. -/
inductive MD5_Reachable : MD5_InstType → Prop
  | init (psInst : MD5_InstType) : MD5_Reachable (MD5_Init psInst)
  | update (psInst : MD5_InstType) (pbData : List Nat) (iDataLen : Nat) :
      MD5_Reachable psInst → MD5_Reachable (MD5_Update psInst pbData iDataLen)
  | updateByte (psInst : MD5_InstType) (bValue iCount : Nat) :
      MD5_Reachable psInst → MD5_Reachable (MD5_UpdateByte psInst bValue iCount)
  | final (psInst : MD5_InstType) :
      MD5_Reachable psInst → MD5_Reachable (MD5_Final psInst)
  | compute (psInst : MD5_InstType) (pbMsg : List Nat) (iMsgLen : Nat) :
      MD5_Reachable (MD5_Compute psInst pbMsg iMsgLen)

/-- An instance whose buffer is marked full, as `MD5_ProcessBlock` expects it. -/
def MD5_exampleFullInst : MD5_InstType :=
  { lTotalByteSize := 64,
    adwDigest := { A := 0x67452301, B := 0xEFCDAB89, C := 0x98BADCFE, D := 0x10325476 },
    iBlockOffset := 64,
    uBlockBuffer := List.replicate 64 0x61 }

/-! ## Counting the block compressions

The routines below are the public services once more, run on an instance paired with
the number of block compressions performed so far. The number goes up in one place
only: in `MD5_ProcessBlock_counted`, when the buffer is full and is compressed. -/

def MD5_ProcessBlock_counted (p : MD5_InstType × Nat) : MD5_InstType × Nat :=
  if p.1.iBlockOffset = MD5_BLOCK_SIZE then
    let adwBufferABCD := MD5_Rounds p.1.uBlockBuffer p.1.adwDigest
    ({ p.1 with
        adwDigest := MD5_AddRegs p.1.adwDigest adwBufferABCD,
        iBlockOffset := 0 },
      p.2 + 1)
  else p

def MD5_Update_while_counted :
    Nat → MD5_InstType × Nat → List Nat → Nat → MD5_InstType × Nat
  | 0, p, _, _ => p
  | fuel + 1, p, pbData, iDataLen =>
    if iDataLen ≠ 0 then
      let iCopySize := if iDataLen > MD5_BLOCK_SIZE then MD5_BLOCK_SIZE else iDataLen
      let psInst1 : MD5_InstType :=
        { p.1 with
          uBlockBuffer := MD5_MEMCPY p.1.uBlockBuffer p.1.iBlockOffset pbData iCopySize,
          iBlockOffset := (p.1.iBlockOffset + iCopySize) % 65536 }
      MD5_Update_while_counted fuel (MD5_ProcessBlock_counted (psInst1, p.2))
        (pbData.drop iCopySize) (iDataLen - iCopySize)
    else p

def MD5_Update_counted (p : MD5_InstType × Nat) (pbData : List Nat) (iDataLen : Nat) :
    MD5_InstType × Nat :=
  let iDataLen := iDataLen % 65536
  let bBytesLeftInBlock := (MD5_BLOCK_SIZE + 65536 - p.1.iBlockOffset) % 256
  let psInst0 : MD5_InstType :=
    { p.1 with
      lTotalByteSize := (p.1.lTotalByteSize + iDataLen) % 18446744073709551616 }
  if bBytesLeftInBlock = 0 then
    MD5_Update_while_counted iDataLen (MD5_ProcessBlock_counted (psInst0, p.2)) pbData iDataLen
  else if iDataLen ≥ bBytesLeftInBlock then
    let psInst1 : MD5_InstType :=
      { psInst0 with
        uBlockBuffer :=
          MD5_MEMCPY psInst0.uBlockBuffer psInst0.iBlockOffset pbData bBytesLeftInBlock,
        iBlockOffset := MD5_BLOCK_SIZE }
    MD5_Update_while_counted (iDataLen - bBytesLeftInBlock)
      (MD5_ProcessBlock_counted (psInst1, p.2))
      (pbData.drop bBytesLeftInBlock) (iDataLen - bBytesLeftInBlock)
  else
    MD5_Update_while_counted iDataLen (psInst0, p.2) pbData iDataLen

def MD5_UpdateByte_while_counted :
    Nat → MD5_InstType × Nat → Nat → Nat → MD5_InstType × Nat
  | 0, p, _, _ => p
  | fuel + 1, p, bValue, iCount =>
    if iCount ≠ 0 then
      let iCopySize := if iCount > MD5_BLOCK_SIZE then MD5_BLOCK_SIZE else iCount
      let psInst1 : MD5_InstType :=
        { p.1 with
          uBlockBuffer := MD5_MEMSET p.1.uBlockBuffer p.1.iBlockOffset bValue iCopySize,
          iBlockOffset := (p.1.iBlockOffset + iCopySize) % 65536 }
      MD5_UpdateByte_while_counted fuel (MD5_ProcessBlock_counted (psInst1, p.2)) bValue
        (iCount - iCopySize)
    else p

def MD5_UpdateByte_counted (p : MD5_InstType × Nat) (bValue : Nat) (iCount : Nat) :
    MD5_InstType × Nat :=
  let bValue := bValue % 256
  let iCount := iCount % 65536
  let bBytesLeftInBlock := (MD5_BLOCK_SIZE + 65536 - p.1.iBlockOffset) % 256
  let psInst0 : MD5_InstType :=
    { p.1 with
      lTotalByteSize := (p.1.lTotalByteSize + iCount) % 18446744073709551616 }
  if bBytesLeftInBlock = 0 then
    MD5_UpdateByte_while_counted iCount (MD5_ProcessBlock_counted (psInst0, p.2)) bValue iCount
  else if iCount ≥ bBytesLeftInBlock then
    let psInst1 : MD5_InstType :=
      { psInst0 with
        uBlockBuffer :=
          MD5_MEMSET psInst0.uBlockBuffer psInst0.iBlockOffset bValue bBytesLeftInBlock,
        iBlockOffset := MD5_BLOCK_SIZE }
    MD5_UpdateByte_while_counted (iCount - bBytesLeftInBlock)
      (MD5_ProcessBlock_counted (psInst1, p.2)) bValue (iCount - bBytesLeftInBlock)
  else
    MD5_UpdateByte_while_counted iCount (psInst0, p.2) bValue iCount

def MD5_Final_counted (p : MD5_InstType × Nat) : MD5_InstType × Nat :=
  let bPadLeadingOne := 0x80
  let lTotalBitSize := (p.1.lTotalByteSize * 8) % 18446744073709551616
  let p1 := MD5_UpdateByte_counted p bPadLeadingOne 1
  let bBytesLeftInBlock1 := (MD5_BLOCK_SIZE - p1.1.iBlockOffset % MD5_BLOCK_SIZE) % 256
  let p2 :=
    if bBytesLeftInBlock1 < 8 then MD5_UpdateByte_counted p1 0 bBytesLeftInBlock1 else p1
  let bBytesLeftInBlock2 := (MD5_BLOCK_SIZE - p2.1.iBlockOffset % MD5_BLOCK_SIZE) % 256
  let bZeroPadLength := (bBytesLeftInBlock2 + 256 - 8) % 256
  let p3 := if bZeroPadLength > 0 then MD5_UpdateByte_counted p2 0 bZeroPadLength else p2
  MD5_Update_counted p3 (MD5_bytesOfUINT64 lTotalBitSize) 8

/-! ## The table-free variants of `MD5_ProcessBlock`

With `MD5_USE_K_TABLE = 0` and `MD5_USE_S_TABLE = 0` the block index and the rotation
count are computed instead of being read from `MD5_abTableK` and `MD5_abTableS`. -/

def MD5_abMultiplerK : List Nat := [1, 5, 3, 7]
def MD5_abOffsetK : List Nat := [0, 1, 5, 0]

/-- The block index `bBlockIndex` as the variant computes it, in `UINT8` arithmetic:
`bOperation * abMultiplerK[ bRound ]`, `+= abOffsetK[ bRound ]`,
`%= MD5_NUM_OPERATIONS`. -/
def MD5_BlockIndex_computed (bRound bOperation : Nat) : Nat :=
  let bBlockIndex := (bOperation * MD5_abMultiplerK.getD bRound 0) % 256
  let bBlockIndex := (bBlockIndex + MD5_abOffsetK.getD bRound 0) % 256
  bBlockIndex % MD5_NUM_OPERATIONS

def MD5_abRotationRound0 : List Nat := [7, 12, 17, 22]
def MD5_abRotationRound1 : List Nat := [5, 9, 14, 20]
def MD5_abRotationRound2 : List Nat := [4, 11, 16, 23]
def MD5_abRotationRound3 : List Nat := [6, 10, 15, 21]
def MD5_apbRotationSets : List (List Nat) :=
  [MD5_abRotationRound0, MD5_abRotationRound1, MD5_abRotationRound2, MD5_abRotationRound3]

/-- The rotation count `bRotateCount` as the variant selects it:
`pbRotationSet[ bOperation % MD5_NUM_ROUNDS ]` with
`pbRotationSet = apbRotationSets[ bRound ]`. -/
def MD5_RotateCount_computed (bRound bOperation : Nat) : Nat :=
  let pbRotationSet := MD5_apbRotationSets.getD bRound []
  pbRotationSet.getD (bOperation % MD5_NUM_ROUNDS) 0

/-! ## Enclosures of the sine and cosine of whole numbers

The round constants are defined from the real sine function. To compare the literal
table with that definition, the sine and cosine of `1, 2, ..., 64` are enclosed in
intervals with end points of the form `n / 2^96`, computed in integer arithmetic from an
enclosure of `sin 1` and `cos 1` by the addition formulas. -/

/-- The scale `2^96` of the end points of the enclosures. -/
def Sine_Q : Int := 79228162514264337593543950336

/-- An enclosure `sl / 2^96 ≤ sin k ≤ sh / 2^96`, `cl / 2^96 ≤ cos k ≤ ch / 2^96`. -/
structure Sine_Enc where
  sl : Int
  sh : Int
  cl : Int
  ch : Int

/-- The enclosure of `sin 1` and `cos 1` obtained from 26 terms of the exponential
series. -/
def Sine_Enc_one : Sine_Enc :=
  { sl := 66668199935398081914718513221,
    sh := 66668199935398081914718513630,
    cl := 42807158896152731596418870671,
    ch := 42807158896152731596418871080 }

/-- An upper end point for `x * c` from an upper end point of `x` and an enclosure
`lo ≤ c ≤ hi` of a nonnegative `c`. -/
def Sine_mulUp (x lo hi : Int) : Int := x * (if 0 ≤ x then hi else lo)

/-- A lower end point for `x * c` from a lower end point of `x` and an enclosure
`lo ≤ c ≤ hi` of a nonnegative `c`. -/
def Sine_mulDown (x lo hi : Int) : Int := x * (if 0 ≤ x then lo else hi)

/-- From an enclosure of `sin k`, `cos k` to one of `sin (k + 1)`, `cos (k + 1)`, by
`sin (k + 1) = sin k cos 1 + cos k sin 1` and `cos (k + 1) = cos k cos 1 - sin k sin 1`. -/
def Sine_Enc_next (e : Sine_Enc) : Sine_Enc :=
  { sl := (Sine_mulDown e.sl Sine_Enc_one.cl Sine_Enc_one.ch
            + Sine_mulDown e.cl Sine_Enc_one.sl Sine_Enc_one.sh) / Sine_Q,
    sh := (Sine_mulUp e.sh Sine_Enc_one.cl Sine_Enc_one.ch
            + Sine_mulUp e.ch Sine_Enc_one.sl Sine_Enc_one.sh) / Sine_Q + 1,
    cl := (Sine_mulDown e.cl Sine_Enc_one.cl Sine_Enc_one.ch
            - Sine_mulUp e.sh Sine_Enc_one.sl Sine_Enc_one.sh) / Sine_Q,
    ch := (Sine_mulUp e.ch Sine_Enc_one.cl Sine_Enc_one.ch
            - Sine_mulDown e.sl Sine_Enc_one.sl Sine_Enc_one.sh) / Sine_Q + 1 }

/-- The computed enclosure of `sin (k + 1)` and `cos (k + 1)`. -/
def Sine_Enc_at : Nat → Sine_Enc
  | 0 => Sine_Enc_one
  | k + 1 => Sine_Enc_next (Sine_Enc_at k)

/-- The enclosure `e` encloses the sine `x` and the cosine `y`. -/
def Sine_Enc_valid (e : Sine_Enc) (x y : ℝ) : Prop :=
  (e.sl : ℝ) ≤ x * (Sine_Q : ℝ) ∧ x * (Sine_Q : ℝ) ≤ (e.sh : ℝ) ∧
  (e.cl : ℝ) ≤ y * (Sine_Q : ℝ) ∧ y * (Sine_Q : ℝ) ≤ (e.ch : ℝ)

/-- The enclosure `e` of a sine `x` shows that `2^32 * |x|` lies in `[t, t + 1)`. -/
def Sine_Enc_floor (e : Sine_Enc) (t : Nat) : Bool :=
  (decide (0 ≤ e.sl) && decide ((t : Int) * Sine_Q ≤ 4294967296 * e.sl)
      && decide (4294967296 * e.sh < ((t : Int) + 1) * Sine_Q))
  || (decide (e.sh ≤ 0) && decide ((t : Int) * Sine_Q ≤ 4294967296 * (-e.sh))
      && decide (4294967296 * (-e.sl) < ((t : Int) + 1) * Sine_Q))

/-- Every entry of the table `MD5_adwTableT` passes `Sine_Enc_floor` on the computed
enclosure of its sine. -/
def MD5_adwTableT_check : Bool :=
  (List.range 64).all (fun i => Sine_Enc_floor (Sine_Enc_at i) (MD5_adwTableT.getD i 0))

/-! ## The indices used by the block compression -/

/-- The table index `bLutIndex`, the message-word index `bBlockIndex` and the rotation
count `bRotateCount` that `MD5_ProcessBlock` uses in operation `bOperation` of round
`bRound`. -/
def MD5_Operation_indices (bRound bOperation : Nat) : Nat × Nat × Nat :=
  let bLutIndex := (bOperation + MD5_NUM_OPERATIONS * bRound) % 256
  let bBlockIndex := MD5_abTableK.getD bLutIndex 0
  let bRotateCount := MD5_abTableS.getD bLutIndex 0
  (bLutIndex, bBlockIndex, bRotateCount)

/-- The indices of all the operations of one block compression, in the order of the two
nested loops of `MD5_ProcessBlock`. -/
def MD5_Rounds_indices : List (Nat × Nat × Nat) :=
  (List.range MD5_NUM_ROUNDS).flatMap (fun bRound =>
    (List.range MD5_NUM_OPERATIONS).map (fun bOperation =>
      MD5_Operation_indices bRound bOperation))

/-! ## The intermediate values of `MD5_Final` -/

/-- The instance in `MD5_Final` at the point where `bZeroPadLength` is computed: after
the leading one and, if fewer than 8 bytes were left in the block, the fill of that
block. -/
def MD5_Final_beforeZeroPad (psInst : MD5_InstType) : MD5_InstType :=
  let bPadLeadingOne := 0x80
  let psInst1 := MD5_UpdateByte psInst bPadLeadingOne 1
  let bBytesLeftInBlock1 := (MD5_BLOCK_SIZE - psInst1.iBlockOffset % MD5_BLOCK_SIZE) % 256
  if bBytesLeftInBlock1 < 8 then MD5_UpdateByte psInst1 0 bBytesLeftInBlock1 else psInst1

/-- The value of `bBytesLeftInBlock` from which `bZeroPadLength` is computed. -/
def MD5_Final_bBytesLeftInBlock (psInst : MD5_InstType) : Nat :=
  (MD5_BLOCK_SIZE - (MD5_Final_beforeZeroPad psInst).iBlockOffset % MD5_BLOCK_SIZE) % 256

/-- The value of `bZeroPadLength`: the difference `bBytesLeftInBlock - 8` converted to
`UINT8`. -/
def MD5_Final_bZeroPadLength (psInst : MD5_InstType) : Nat :=
  (MD5_Final_bBytesLeftInBlock psInst + 256 - 8) % 256

/-- The instance in `MD5_Final` just before the 8 bytes of the length are fed. -/
def MD5_Final_beforeLength (psInst : MD5_InstType) : MD5_InstType :=
  if MD5_Final_bZeroPadLength psInst > 0 then
    MD5_UpdateByte (MD5_Final_beforeZeroPad psInst) 0 (MD5_Final_bZeroPadLength psInst)
  else MD5_Final_beforeZeroPad psInst

/-! ## Recording the buffer copies

The routines `MD5_Update` and `MD5_UpdateByte` once more, run on an instance paired with
the list of the copies, respectively fills, of the block buffer performed so far. The
list grows in the places where the source calls `MD5_MEMCPY`, respectively `MD5_MEMSET`. -/

/-- A call `MD5_MEMCPY( &ab[ dst ], pbData, size )`, where `pbData` points to position
`src` of the data the caller passed to `MD5_Update`. -/
structure MD5_CopyRecord where
  dst : Nat
  src : Nat
  size : Nat
deriving DecidableEq, Repr

/-- A call `MD5_MEMSET( &ab[ dst ], bValue, size )`. -/
structure MD5_FillRecord where
  dst : Nat
  size : Nat
deriving DecidableEq, Repr

def MD5_Update_while_traced :
    Nat → MD5_InstType × List MD5_CopyRecord → List Nat → Nat → Nat →
      MD5_InstType × List MD5_CopyRecord
  | 0, p, _, _, _ => p
  | fuel + 1, p, pbData, iSrc, iDataLen =>
    if iDataLen ≠ 0 then
      let iCopySize := if iDataLen > MD5_BLOCK_SIZE then MD5_BLOCK_SIZE else iDataLen
      let psInst1 : MD5_InstType :=
        { p.1 with
          uBlockBuffer := MD5_MEMCPY p.1.uBlockBuffer p.1.iBlockOffset pbData iCopySize,
          iBlockOffset := (p.1.iBlockOffset + iCopySize) % 65536 }
      MD5_Update_while_traced fuel
        (MD5_ProcessBlock psInst1,
          p.2 ++ [{ dst := p.1.iBlockOffset, src := iSrc, size := iCopySize }])
        (pbData.drop iCopySize) (iSrc + iCopySize) (iDataLen - iCopySize)
    else p

def MD5_Update_traced (psInst : MD5_InstType) (pbData : List Nat) (iDataLen : Nat) :
    MD5_InstType × List MD5_CopyRecord :=
  let iDataLen := iDataLen % 65536
  let bBytesLeftInBlock := (MD5_BLOCK_SIZE + 65536 - psInst.iBlockOffset) % 256
  let psInst0 : MD5_InstType :=
    { psInst with
      lTotalByteSize := (psInst.lTotalByteSize + iDataLen) % 18446744073709551616 }
  if bBytesLeftInBlock = 0 then
    MD5_Update_while_traced iDataLen (MD5_ProcessBlock psInst0, []) pbData 0 iDataLen
  else if iDataLen ≥ bBytesLeftInBlock then
    let psInst1 : MD5_InstType :=
      { psInst0 with
        uBlockBuffer :=
          MD5_MEMCPY psInst0.uBlockBuffer psInst0.iBlockOffset pbData bBytesLeftInBlock,
        iBlockOffset := MD5_BLOCK_SIZE }
    MD5_Update_while_traced (iDataLen - bBytesLeftInBlock)
      (MD5_ProcessBlock psInst1,
        [{ dst := psInst0.iBlockOffset, src := 0, size := bBytesLeftInBlock }])
      (pbData.drop bBytesLeftInBlock) bBytesLeftInBlock (iDataLen - bBytesLeftInBlock)
  else
    MD5_Update_while_traced iDataLen (psInst0, []) pbData 0 iDataLen

def MD5_UpdateByte_while_traced :
    Nat → MD5_InstType × List MD5_FillRecord → Nat → Nat → MD5_InstType × List MD5_FillRecord
  | 0, p, _, _ => p
  | fuel + 1, p, bValue, iCount =>
    if iCount ≠ 0 then
      let iCopySize := if iCount > MD5_BLOCK_SIZE then MD5_BLOCK_SIZE else iCount
      let psInst1 : MD5_InstType :=
        { p.1 with
          uBlockBuffer := MD5_MEMSET p.1.uBlockBuffer p.1.iBlockOffset bValue iCopySize,
          iBlockOffset := (p.1.iBlockOffset + iCopySize) % 65536 }
      MD5_UpdateByte_while_traced fuel
        (MD5_ProcessBlock psInst1, p.2 ++ [{ dst := p.1.iBlockOffset, size := iCopySize }])
        bValue (iCount - iCopySize)
    else p

def MD5_UpdateByte_traced (psInst : MD5_InstType) (bValue : Nat) (iCount : Nat) :
    MD5_InstType × List MD5_FillRecord :=
  let bValue := bValue % 256
  let iCount := iCount % 65536
  let bBytesLeftInBlock := (MD5_BLOCK_SIZE + 65536 - psInst.iBlockOffset) % 256
  let psInst0 : MD5_InstType :=
    { psInst with
      lTotalByteSize := (psInst.lTotalByteSize + iCount) % 18446744073709551616 }
  if bBytesLeftInBlock = 0 then
    MD5_UpdateByte_while_traced iCount (MD5_ProcessBlock psInst0, []) bValue iCount
  else if iCount ≥ bBytesLeftInBlock then
    let psInst1 : MD5_InstType :=
      { psInst0 with
        uBlockBuffer :=
          MD5_MEMSET psInst0.uBlockBuffer psInst0.iBlockOffset bValue bBytesLeftInBlock,
        iBlockOffset := MD5_BLOCK_SIZE }
    MD5_UpdateByte_while_traced (iCount - bBytesLeftInBlock)
      (MD5_ProcessBlock psInst1, [{ dst := psInst0.iBlockOffset, size := bBytesLeftInBlock }])
      bValue (iCount - bBytesLeftInBlock)
  else
    MD5_UpdateByte_while_traced iCount (psInst0, []) bValue iCount

/-! ## The porting layer for targets with 16-bit characters

The routines of `MD5_port.c` and the macros of `MD5_port.h` that are compiled when
`MD5_USE_16BIT_CHAR` is 1. A packed array is a list of 16-bit words. -/

def MD5_PORT_GetHighAddrOct (iWord : Nat) : Nat := (iWord >>> 8) &&& 0xFF

def MD5_PORT_GetLowAddrOct (iWord : Nat) : Nat := iWord &&& 0xFF

/-- The value that `MD5_PORT_SetHighAddrOct( iDst, iSrc )` assigns to `iDst`. The bits
that the shift produces above bit 15 on a target with wider `int` are removed by the
mask `0xFF00`. -/
def MD5_PORT_SetHighAddrOct (iDst iSrc : Nat) : Nat :=
  (0x00FF &&& (iDst % 65536)) ||| (0xFF00 &&& ((iSrc % 65536) <<< 8))

/-- The value that `MD5_PORT_SetLowAddrOct( iDst, iSrc )` assigns to `iDst`. -/
def MD5_PORT_SetLowAddrOct (iDst iSrc : Nat) : Nat :=
  (0xFF00 &&& (iDst % 65536)) ||| (0x00FF &&& (iSrc % 65536))

/-- The variables of `MD5_PORT_CopyOctetsImpl` that its loop changes: the words of the
destination array, the pointers `piDest` and `piSrc` as indices into the destination and
the source array, and the two flags. -/
structure MD5_PORT_CopyState where
  axDest : List Nat
  piDest : Nat
  piSrc : Nat
  fOddDestOctet : Nat
  fOddSrcOctet : Nat

/-- The body of the `for` loop of `MD5_PORT_CopyOctetsImpl`. -/
def MD5_PORT_CopyOctets_body (pxSrc : List Nat) (st : MD5_PORT_CopyState) :
    MD5_PORT_CopyState :=
  let iData :=
    if st.fOddSrcOctet ≠ 0 then MD5_PORT_GetHighAddrOct (pxSrc.getD st.piSrc 0)
    else MD5_PORT_GetLowAddrOct (pxSrc.getD st.piSrc 0)
  let piSrc := if st.fOddSrcOctet ≠ 0 then st.piSrc + 1 else st.piSrc
  let fOddSrcOctet := st.fOddSrcOctet ^^^ 1
  let axDest :=
    if st.fOddDestOctet ≠ 0 then
      st.axDest.set st.piDest (MD5_PORT_SetHighAddrOct (st.axDest.getD st.piDest 0) iData)
    else
      st.axDest.set st.piDest (MD5_PORT_SetLowAddrOct (st.axDest.getD st.piDest 0) iData)
  let piDest := if st.fOddDestOctet ≠ 0 then st.piDest + 1 else st.piDest
  let fOddDestOctet := st.fOddDestOctet ^^^ 1
  { axDest := axDest, piDest := piDest, piSrc := piSrc,
    fOddDestOctet := fOddDestOctet, fOddSrcOctet := fOddSrcOctet }

/-- The loop `for( i = 0; i < iNumOctets; i++ )`, by the number of iterations that
remain. -/
def MD5_PORT_CopyOctets_loop (pxSrc : List Nat) : Nat → MD5_PORT_CopyState → MD5_PORT_CopyState
  | 0, st => st
  | k + 1, st => MD5_PORT_CopyOctets_loop pxSrc k (MD5_PORT_CopyOctets_body pxSrc st)

/-- The words of the destination array after the call. -/
def MD5_PORT_CopyOctetsImpl (pxDest : List Nat) (iDestOctetOffset : Nat) (pxSrc : List Nat)
    (iSrcOctetOffset iNumOctets : Nat) : List Nat :=
  let iDestOctetOffset := iDestOctetOffset % 65536
  let iSrcOctetOffset := iSrcOctetOffset % 65536
  let iNumOctets := iNumOctets % 65536
  (MD5_PORT_CopyOctets_loop pxSrc iNumOctets
    { axDest := pxDest,
      piDest := iDestOctetOffset >>> 1,
      piSrc := iSrcOctetOffset >>> 1,
      fOddDestOctet := iDestOctetOffset &&& 1,
      fOddSrcOctet := iSrcOctetOffset &&& 1 }).axDest

/-- Octet `k` of a packed array: octet `2 w` is the low 8 bits and octet `2 w + 1` the
high 8 bits of the 16-bit word `w`. -/
def MD5_PORT_octet (ax : List Nat) (k : Nat) : Nat :=
  if k % 2 = 0 then ax.getD (k / 2) 0 % 256 else (ax.getD (k / 2) 0 / 256) % 256

/-! ## Buffer copies -/

theorem MD5_MEMCPY_length (dst src : List Nat) (off size : Nat)
    (h1 : off + size ≤ dst.length) (h2 : size ≤ src.length) :
    (MD5_MEMCPY dst off src size).length = dst.length := by
  simp only [MD5_MEMCPY, List.length_append, List.length_take, List.length_drop]
  omega

theorem MD5_MEMCPY_zero (dst src : List Nat) (off : Nat) :
    MD5_MEMCPY dst off src 0 = dst := by
  simp [MD5_MEMCPY]

theorem MD5_MEMCPY_take (dst src : List Nat) (off size : Nat) :
    MD5_MEMCPY dst off (src.take size) size = MD5_MEMCPY dst off src size := by
  simp [MD5_MEMCPY, List.take_take]

theorem MD5_MEMCPY_cons (dst rest : List Nat) (x off : Nat) (h : off < dst.length) :
    MD5_MEMCPY (MD5_MEMCPY dst off [x] 1) (off + 1) rest rest.length
      = MD5_MEMCPY dst off (x :: rest) (rest.length + 1) := by
  have h1 : (List.take off dst).length = off := by simp; omega
  have e0 : List.take 1 [x] = [x] := rfl
  have e3 : List.take (rest.length + 1) (x :: rest) = x :: rest := by simp
  have e1 : List.take (off + 1) (List.take off dst ++ [x] ++ List.drop (off + 1) dst)
      = List.take off dst ++ [x] := by
    rw [List.take_append_of_le_length (by simp; omega)]
    rw [List.take_of_length_le (by simp)]
  have e2 : List.drop (off + 1 + rest.length) (List.take off dst ++ [x] ++ List.drop (off + 1) dst)
      = List.drop (off + (rest.length + 1)) dst := by
    have : off + 1 + rest.length = (List.take off dst ++ [x]).length + rest.length := by
      simp; omega
    rw [this, List.drop_append, List.drop_drop]
    congr 1; omega
  unfold MD5_MEMCPY
  rw [e0, e1, e2, e3, List.take_length]
  simp

/-! ## `MD5_ProcessBlock` -/

theorem MD5_ProcessBlock_of_ne (s : MD5_InstType) (h : s.iBlockOffset ≠ 64) :
    MD5_ProcessBlock s = s := by
  simp [MD5_ProcessBlock, MD5_BLOCK_SIZE, h]

theorem MD5_ProcessBlock_of_eq (s : MD5_InstType) (h : s.iBlockOffset = 64) :
    MD5_ProcessBlock s
      = { s with adwDigest := MD5_compress s.adwDigest s.uBlockBuffer, iBlockOffset := 0 } := by
  simp [MD5_ProcessBlock, MD5_compress, MD5_BLOCK_SIZE, h]

theorem MD5_ProcessBlock_buffer (s : MD5_InstType) :
    (MD5_ProcessBlock s).uBlockBuffer = s.uBlockBuffer := by
  unfold MD5_ProcessBlock; split <;> rfl

theorem MD5_ProcessBlock_counter (s : MD5_InstType) :
    (MD5_ProcessBlock s).lTotalByteSize = s.lTotalByteSize := by
  unfold MD5_ProcessBlock; split <;> rfl

theorem MD5_ProcessBlock_offset (s : MD5_InstType) :
    (MD5_ProcessBlock s).iBlockOffset = if s.iBlockOffset = 64 then 0 else s.iBlockOffset := by
  unfold MD5_ProcessBlock; simp only [MD5_BLOCK_SIZE]; split <;> rfl

theorem MD5_ProcessBlock_setCounter (s : MD5_InstType) (c : Nat) :
    MD5_ProcessBlock { s with lTotalByteSize := c }
      = { MD5_ProcessBlock s with lTotalByteSize := c } := by
  unfold MD5_ProcessBlock; split <;> rfl

/-! ## Byte-wise view of `MD5_Update` -/

theorem MD5_pushByte_setCounter (s : MD5_InstType) (c x : Nat) :
    MD5_pushByte { s with lTotalByteSize := c } x
      = { MD5_pushByte s x with lTotalByteSize := c } := by
  exact MD5_ProcessBlock_setCounter
    { s with uBlockBuffer := MD5_MEMCPY s.uBlockBuffer s.iBlockOffset [x] 1,
             iBlockOffset := s.iBlockOffset + 1 } c

theorem MD5_pushByte_foldl_setCounter (data : List Nat) (s : MD5_InstType) (c : Nat) :
    data.foldl MD5_pushByte { s with lTotalByteSize := c }
      = { data.foldl MD5_pushByte s with lTotalByteSize := c } := by
  induction data generalizing s with
  | nil => rfl
  | cons x rest ih =>
    simp only [List.foldl_cons]
    rw [MD5_pushByte_setCounter, ih]

theorem MD5_pushByte_foldl_chunk (chunk : List Nat) (s : MD5_InstType)
    (hbuf : s.uBlockBuffer.length = 64) (h : s.iBlockOffset + chunk.length ≤ 64)
    (ho : s.iBlockOffset < 64) :
    chunk.foldl MD5_pushByte s
      = MD5_ProcessBlock
          { s with
            uBlockBuffer := MD5_MEMCPY s.uBlockBuffer s.iBlockOffset chunk chunk.length,
            iBlockOffset := s.iBlockOffset + chunk.length } := by
  induction chunk generalizing s with
  | nil =>
    simp only [List.foldl_nil, List.length_nil, MD5_MEMCPY_zero, Nat.add_zero]
    rw [MD5_ProcessBlock_of_ne]
    simp only; omega
  | cons x rest ih =>
    simp only [List.foldl_cons, List.length_cons] at h ⊢
    by_cases hfull : s.iBlockOffset + 1 = 64
    · have hrest : rest = [] := by
        apply List.eq_nil_of_length_eq_zero; omega
      subst hrest
      simp [MD5_pushByte]
    · have hpush : MD5_pushByte s x =
          { s with uBlockBuffer := MD5_MEMCPY s.uBlockBuffer s.iBlockOffset [x] 1,
                   iBlockOffset := s.iBlockOffset + 1 } := by
        simp only [MD5_pushByte]
        rw [MD5_ProcessBlock_of_ne]
        simpa using hfull
      rw [hpush, ih]
      · simp only
        rw [MD5_MEMCPY_cons _ _ _ _ (by omega)]
        congr 2
        omega
      · show (MD5_MEMCPY s.uBlockBuffer s.iBlockOffset [x] 1).length = 64
        rw [MD5_MEMCPY_length, hbuf]
        · omega
        · simp
      · show s.iBlockOffset + 1 + rest.length ≤ 64
        omega
      · show s.iBlockOffset + 1 < 64
        omega

theorem MD5_pushByte_buffer_length (s : MD5_InstType) (x : Nat)
    (hbuf : s.uBlockBuffer.length = 64) (ho : s.iBlockOffset < 64) :
    (MD5_pushByte s x).uBlockBuffer.length = 64 := by
  unfold MD5_pushByte
  rw [MD5_ProcessBlock_buffer]
  show (MD5_MEMCPY s.uBlockBuffer s.iBlockOffset [x] 1).length = 64
  rw [MD5_MEMCPY_length, hbuf]
  · omega
  · simp

theorem MD5_pushByte_offset (s : MD5_InstType) (x : Nat) (ho : s.iBlockOffset < 64) :
    (MD5_pushByte s x).iBlockOffset = (s.iBlockOffset + 1) % 64 := by
  unfold MD5_pushByte
  rw [MD5_ProcessBlock_offset]
  show (if s.iBlockOffset + 1 = 64 then 0 else s.iBlockOffset + 1) = _
  split <;> omega

theorem MD5_pushByte_counter (s : MD5_InstType) (x : Nat) :
    (MD5_pushByte s x).lTotalByteSize = s.lTotalByteSize := by
  unfold MD5_pushByte
  rw [MD5_ProcessBlock_counter]

theorem MD5_pushByte_foldl_inv (data : List Nat) (s : MD5_InstType)
    (hbuf : s.uBlockBuffer.length = 64) (ho : s.iBlockOffset < 64) :
    (data.foldl MD5_pushByte s).uBlockBuffer.length = 64 ∧
    (data.foldl MD5_pushByte s).iBlockOffset = (s.iBlockOffset + data.length) % 64 ∧
    (data.foldl MD5_pushByte s).lTotalByteSize = s.lTotalByteSize := by
  induction data generalizing s with
  | nil => simp [hbuf]; omega
  | cons x rest ih =>
    have h1 := MD5_pushByte_buffer_length s x hbuf ho
    have h2 := MD5_pushByte_offset s x ho
    have h3 := MD5_pushByte_counter s x
    obtain ⟨i1, i2, i3⟩ := ih (MD5_pushByte s x) h1 (by omega)
    simp only [List.foldl_cons, List.length_cons]
    refine ⟨i1, ?_, ?_⟩
    · rw [i2, h2]; omega
    · rw [i3, h3]

theorem MD5_Update_while_eq (fuel : Nat) (s : MD5_InstType) (data : List Nat)
    (hfuel : data.length ≤ fuel) (hbuf : s.uBlockBuffer.length = 64)
    (ho : s.iBlockOffset = 0 ∨ s.iBlockOffset + data.length < 64) :
    MD5_Update_while fuel s data data.length = data.foldl MD5_pushByte s := by
  induction fuel generalizing s data with
  | zero =>
    have : data = [] := List.eq_nil_of_length_eq_zero (by omega)
    subst this
    rfl
  | succ fuel ih =>
    unfold MD5_Update_while
    by_cases hz : data.length = 0
    · have : data = [] := List.eq_nil_of_length_eq_zero hz
      subst this
      simp
    · simp only [ne_eq, hz, not_false_eq_true, if_true, MD5_BLOCK_SIZE]
      generalize hk : (if data.length > 64 then 64 else data.length) = k
      have hk1 : 1 ≤ k := by split at hk <;> omega
      have hk2 : k ≤ data.length := by split at hk <;> omega
      have hk3 : s.iBlockOffset + k ≤ 64 := by split at hk <;> omega
      have hk4 : s.iBlockOffset < 64 := by omega
      have hlen : (data.take k).length = k := by simp; omega
      have hchunk := MD5_pushByte_foldl_chunk (data.take k) s hbuf (by omega) hk4
      rw [hlen, MD5_MEMCPY_take] at hchunk
      have hmod : (s.iBlockOffset + k) % 65536 = s.iBlockOffset + k := by omega
      rw [hmod, ← hchunk]
      have hinv := MD5_pushByte_foldl_inv (data.take k) s hbuf hk4
      rw [hlen] at hinv
      have hd : data.length - k = (data.drop k).length := by simp
      rw [hd, ih _ _ (by simp; omega) hinv.1]
      · rw [← List.foldl_append, List.take_append_drop]
      · rw [hinv.2.1]
        simp only [List.length_drop]
        split at hk <;> omega

theorem MD5_Update_eq_foldl (s : MD5_InstType) (data : List Nat)
    (hlen : data.length < 65536) (hbuf : s.uBlockBuffer.length = 64)
    (ho : s.iBlockOffset < 64) :
    MD5_Update s data data.length
      = { data.foldl MD5_pushByte s with
          lTotalByteSize := (s.lTotalByteSize + data.length) % 18446744073709551616 } := by
  rw [← MD5_pushByte_foldl_setCounter]
  unfold MD5_Update
  have hm : data.length % 65536 = data.length := by omega
  have hl : (MD5_BLOCK_SIZE + 65536 - s.iBlockOffset) % 256 = 64 - s.iBlockOffset := by
    simp only [MD5_BLOCK_SIZE]; omega
  simp only [hm, hl]
  rw [if_neg (by omega)]
  split
  · rename_i hge
    generalize hs0 : ({ s with lTotalByteSize :=
        (s.lTotalByteSize + data.length) % 18446744073709551616 } : MD5_InstType) = s0
    have hb0 : s0.uBlockBuffer.length = 64 := by rw [← hs0]; exact hbuf
    have ho0 : s0.iBlockOffset = s.iBlockOffset := by rw [← hs0]
    have hlen1 : (data.take (64 - s.iBlockOffset)).length = 64 - s.iBlockOffset := by
      simp; omega
    have hchunk := MD5_pushByte_foldl_chunk (data.take (64 - s.iBlockOffset)) s0 hb0
      (by omega) (by omega)
    rw [hlen1, MD5_MEMCPY_take, ho0] at hchunk
    have h64 : s.iBlockOffset + (64 - s.iBlockOffset) = MD5_BLOCK_SIZE := by
      simp only [MD5_BLOCK_SIZE]; omega
    rw [h64] at hchunk
    have hinv := MD5_pushByte_foldl_inv (data.take (64 - s.iBlockOffset)) s0 hb0 (by omega)
    rw [hlen1, ho0] at hinv
    have hd : data.length - (64 - s.iBlockOffset)
        = (data.drop (64 - s.iBlockOffset)).length := by simp
    have hs0' : ({ s0 with
        uBlockBuffer := MD5_MEMCPY s0.uBlockBuffer s.iBlockOffset data (64 - s.iBlockOffset),
        iBlockOffset := MD5_BLOCK_SIZE } : MD5_InstType) =
      { lTotalByteSize := (s.lTotalByteSize + data.length) % 18446744073709551616,
        adwDigest := s.adwDigest, iBlockOffset := MD5_BLOCK_SIZE,
        uBlockBuffer := MD5_MEMCPY s.uBlockBuffer s.iBlockOffset data (64 - s.iBlockOffset) } := by
      rw [← hs0]
    rw [hs0'] at hchunk
    rw [hd, ← hchunk, MD5_Update_while_eq _ _ _ (Nat.le_refl _) hinv.1]
    · rw [← List.foldl_append, List.take_append_drop]
    · left; rw [hinv.2.1]; omega
  · rename_i hlt
    exact MD5_Update_while_eq _ _ _ (Nat.le_refl _) hbuf (Or.inr (by show s.iBlockOffset + _ < 64; omega))

theorem MD5_Update_eq_feed (s : MD5_InstType) (data : List Nat)
    (hlen : data.length < 65536) (hbuf : s.uBlockBuffer.length = 64)
    (ho : s.iBlockOffset < 64) :
    MD5_Update s data data.length = MD5_feed s data :=
  MD5_Update_eq_foldl s data hlen hbuf ho

theorem MD5_feed_inv (s : MD5_InstType) (data : List Nat)
    (hbuf : s.uBlockBuffer.length = 64) (ho : s.iBlockOffset < 64) :
    (MD5_feed s data).uBlockBuffer.length = 64 ∧
    (MD5_feed s data).iBlockOffset = (s.iBlockOffset + data.length) % 64 ∧
    (MD5_feed s data).lTotalByteSize
      = (s.lTotalByteSize + data.length) % 18446744073709551616 := by
  obtain ⟨h1, h2, _⟩ := MD5_pushByte_foldl_inv data s hbuf ho
  exact ⟨h1, h2, rfl⟩

theorem MD5_feed_digest (s : MD5_InstType) (data : List Nat) :
    (MD5_feed s data).adwDigest = (data.foldl MD5_pushByte s).adwDigest := rfl

theorem MD5_feed_append (s : MD5_InstType) (a b : List Nat) :
    MD5_feed (MD5_feed s a) b = MD5_feed s (a ++ b) := by
  unfold MD5_feed
  rw [MD5_pushByte_foldl_setCounter, List.foldl_append, List.length_append]
  have : ((s.lTotalByteSize + a.length) % 18446744073709551616 + b.length)
      % 18446744073709551616
      = (s.lTotalByteSize + (a.length + b.length)) % 18446744073709551616 := by omega
  simp only [this]

theorem MD5_feed_nil (s : MD5_InstType) (hc : s.lTotalByteSize < 18446744073709551616) :
    MD5_feed s [] = s := by
  unfold MD5_feed
  simp only [List.foldl_nil, List.length_nil, Nat.add_zero, Nat.mod_eq_of_lt hc]

/-! ## `MD5_UpdateByte` -/

theorem MD5_MEMSET_eq_MEMCPY (dst : List Nat) (off val size n : Nat) (h : size ≤ n) :
    MD5_MEMSET dst off val size = MD5_MEMCPY dst off (List.replicate n val) size := by
  simp [MD5_MEMSET, MD5_MEMCPY, List.take_replicate, Nat.min_eq_left h]

theorem MD5_UpdateByte_while_eq (fuel : Nat) (s : MD5_InstType) (v n : Nat) :
    MD5_UpdateByte_while fuel s v n = MD5_Update_while fuel s (List.replicate n v) n := by
  induction fuel generalizing s n with
  | zero => rfl
  | succ fuel ih =>
    unfold MD5_UpdateByte_while MD5_Update_while
    by_cases hz : n = 0
    · simp [hz]
    · simp only [ne_eq, hz, not_false_eq_true, if_true]
      generalize hk : (if n > MD5_BLOCK_SIZE then MD5_BLOCK_SIZE else n) = k
      have hk2 : k ≤ n := by split at hk <;> omega
      rw [ih, MD5_MEMSET_eq_MEMCPY _ _ _ _ n hk2, List.drop_replicate]

theorem MD5_UpdateByte_eq_Update (s : MD5_InstType) (v n : Nat)
    (hv : v < 256) (hn : n < 65536) :
    MD5_UpdateByte s v n = MD5_Update s (List.replicate n v) n := by
  unfold MD5_UpdateByte MD5_Update
  have hv1 : v % 256 = v := Nat.mod_eq_of_lt hv
  have hn1 : n % 65536 = n := Nat.mod_eq_of_lt hn
  simp only [hv1, hn1, MD5_UpdateByte_while_eq]
  split
  · rfl
  · split
    · rename_i hge
      rw [MD5_MEMSET_eq_MEMCPY _ _ _ _ n hge, List.drop_replicate]
    · rfl

theorem MD5_UpdateByte_eq_feed (s : MD5_InstType) (v n : Nat)
    (hv : v < 256) (hn : n < 65536) (hbuf : s.uBlockBuffer.length = 64)
    (ho : s.iBlockOffset < 64) :
    MD5_UpdateByte s v n = MD5_feed s (List.replicate n v) := by
  rw [MD5_UpdateByte_eq_Update s v n hv hn]
  have h := MD5_Update_eq_feed s (List.replicate n v) (by simpa using hn) hbuf ho
  rwa [List.length_replicate] at h

/-! ## `MD5_Final` -/

theorem MD5_bytesOfUINT64_length (l : Nat) : (MD5_bytesOfUINT64 l).length = 8 := by
  simp [MD5_bytesOfUINT64]

theorem MD5_bytesOfUINT64_eq (l : Nat) : MD5_bytesOfUINT64 l = RFC1321_LE64 l := by
  unfold MD5_bytesOfUINT64 RFC1321_LE64
  apply List.map_congr_left
  intro i _
  rw [Nat.shiftRight_eq_div_pow, Nat.pow_mul]

theorem RFC1321_zeroCount_eq (n : Nat) : RFC1321_zeroCount n = (64 - (n + 9) % 64) % 64 := by
  unfold RFC1321_zeroCount
  omega

theorem MD5_Final_eq_feed (s : MD5_InstType)
    (hbuf : s.uBlockBuffer.length = 64) (ho : s.iBlockOffset < 64) :
    MD5_Final s = MD5_feed s (RFC1321_padding s.lTotalByteSize s.iBlockOffset) := by
  unfold MD5_Final
  simp only [MD5_BLOCK_SIZE]
  have e1 : MD5_UpdateByte s 128 1 = MD5_feed s [128] :=
    MD5_UpdateByte_eq_feed s 128 1 (by omega) (by omega) hbuf ho
  have hmul : s.lTotalByteSize * 8 = 8 * s.lTotalByteSize := Nat.mul_comm _ _
  rw [e1, hmul]
  generalize hbytes : MD5_bytesOfUINT64 (8 * s.lTotalByteSize % 18446744073709551616) = bytes
  have hblen : bytes.length = 8 := by rw [← hbytes]; exact MD5_bytesOfUINT64_length _
  have hpad : RFC1321_padding s.lTotalByteSize s.iBlockOffset
      = [128] ++ (List.replicate ((64 - (s.iBlockOffset + 9) % 64) % 64) 0 ++ bytes) := by
    unfold RFC1321_padding
    rw [← MD5_bytesOfUINT64_eq, hbytes, RFC1321_zeroCount_eq]
    simp
  have hfin : ∀ s3 : MD5_InstType, s3.uBlockBuffer.length = 64 → s3.iBlockOffset < 64 →
      MD5_Update s3 bytes 8 = MD5_feed s3 bytes := by
    intro s3 h3 h4
    have := MD5_Update_eq_feed s3 bytes (by omega) h3 h4
    rwa [hblen] at this
  rw [hpad, ← MD5_feed_append]
  obtain ⟨b1, o1, c1⟩ := MD5_feed_inv s [128] hbuf ho
  simp only [List.length_singleton] at o1 c1
  generalize MD5_feed s [128] = s1 at *
  have ho1 : s1.iBlockOffset < 64 := by omega
  have hc1 : s1.lTotalByteSize < 18446744073709551616 := by omega
  have hl1 : (64 - s1.iBlockOffset % 64) % 256 = 64 - s1.iBlockOffset := by omega
  rw [hl1]
  by_cases h8 : 64 - s1.iBlockOffset < 8
  · simp only [h8, if_true]
    have e2 : MD5_UpdateByte s1 0 (64 - s1.iBlockOffset)
        = MD5_feed s1 (List.replicate (64 - s1.iBlockOffset) 0) :=
      MD5_UpdateByte_eq_feed s1 0 _ (by omega) (by omega) b1 ho1
    obtain ⟨b2, o2, _⟩ := MD5_feed_inv s1 (List.replicate (64 - s1.iBlockOffset) 0) b1 ho1
    rw [List.length_replicate] at o2
    rw [e2]
    have o2' : (MD5_feed s1 (List.replicate (64 - s1.iBlockOffset) 0)).iBlockOffset = 0 := by
      rw [o2]; omega
    have hz : ((64 - (MD5_feed s1 (List.replicate (64 - s1.iBlockOffset) 0)).iBlockOffset % 64)
        % 256 + 256 - 8) % 256 = 56 := by rw [o2']
    rw [hz]
    simp only [gt_iff_lt, Nat.lt_add_one, Nat.zero_lt_succ, if_true]
    have e3 := MD5_UpdateByte_eq_feed (MD5_feed s1 (List.replicate (64 - s1.iBlockOffset) 0))
      0 56 (by omega) (by omega) b2 (by omega)
    obtain ⟨b3, o3, _⟩ := MD5_feed_inv (MD5_feed s1 (List.replicate (64 - s1.iBlockOffset) 0))
      (List.replicate 56 0) b2 (by omega)
    rw [e3, hfin _ b3 (by rw [o3]; omega), MD5_feed_append, MD5_feed_append]
    have hcount : 64 - s1.iBlockOffset + 56 = (64 - (s.iBlockOffset + 9) % 64) % 64 := by omega
    rw [← List.append_assoc, ← List.replicate_add, hcount]
  · simp only [h8, if_false]
    have hz : ((64 - s1.iBlockOffset % 64) % 256 + 256 - 8) % 256 = 56 - s1.iBlockOffset := by
      omega
    rw [hz]
    have e3 : (if 56 - s1.iBlockOffset > 0 then MD5_UpdateByte s1 0 (56 - s1.iBlockOffset) else s1)
        = MD5_feed s1 (List.replicate (56 - s1.iBlockOffset) 0) := by
      split
      · exact MD5_UpdateByte_eq_feed s1 0 _ (by omega) (by omega) b1 ho1
      · rename_i hn
        have : 56 - s1.iBlockOffset = 0 := by omega
        rw [this, List.replicate_zero, MD5_feed_nil s1 hc1]
    obtain ⟨b3, o3, _⟩ := MD5_feed_inv s1 (List.replicate (56 - s1.iBlockOffset) 0) b1 ho1
    have hcount : 56 - s1.iBlockOffset = (64 - (s.iBlockOffset + 9) % 64) % 64 := by omega
    rw [e3, hfin _ b3 (by rw [o3]; omega), MD5_feed_append, hcount]

/-! ## The loops have enough fuel -/

theorem MD5_Update_while_fuel (fuel1 fuel2 : Nat) (s : MD5_InstType) (data : List Nat)
    (n : Nat) (h1 : n ≤ fuel1) (h2 : n ≤ fuel2) :
    MD5_Update_while fuel1 s data n = MD5_Update_while fuel2 s data n := by
  induction fuel1 generalizing fuel2 s data n with
  | zero =>
    have hn : n = 0 := by omega
    subst hn
    cases fuel2 with
    | zero => rfl
    | succ f2 => simp [MD5_Update_while]
  | succ f1 ih =>
    cases fuel2 with
    | zero =>
      have hn : n = 0 := by omega
      subst hn
      simp [MD5_Update_while]
    | succ f2 =>
      unfold MD5_Update_while
      by_cases hz : n = 0
      · simp [hz]
      · simp only [ne_eq, hz, not_false_eq_true, if_true]
        apply ih
        · simp only [MD5_BLOCK_SIZE]; split <;> omega
        · simp only [MD5_BLOCK_SIZE]; split <;> omega

theorem MD5_UpdateByte_while_fuel (fuel1 fuel2 : Nat) (s : MD5_InstType) (v n : Nat)
    (h1 : n ≤ fuel1) (h2 : n ≤ fuel2) :
    MD5_UpdateByte_while fuel1 s v n = MD5_UpdateByte_while fuel2 s v n := by
  rw [MD5_UpdateByte_while_eq, MD5_UpdateByte_while_eq]
  exact MD5_Update_while_fuel fuel1 fuel2 s _ n h1 h2

/-! ## Blocks of the byte stream -/

theorem MD5_pending_length (s : MD5_InstType)
    (hbuf : s.uBlockBuffer.length = 64) (ho : s.iBlockOffset < 64) :
    (MD5_pending s).length = s.iBlockOffset := by
  simp [MD5_pending]; omega

theorem MD5_blocks_length (l : List Nat) : (MD5_blocks l).length = l.length / 64 := by
  simp [MD5_blocks]

theorem MD5_blocks_initial (l x : List Nat) (n : Nat) (hn : n ≤ l.length / 64) :
    (List.range n).map (fun i => ((l ++ x).drop (64 * i)).take 64)
      = (List.range n).map (fun i => (l.drop (64 * i)).take 64) := by
  apply List.map_congr_left
  intro i hi
  have hi' : i < n := List.mem_range.mp hi
  have h1 : 64 * i + 64 ≤ l.length := by
    have := Nat.div_mul_le_self l.length 64
    have : (i + 1) * 64 ≤ l.length / 64 * 64 := Nat.mul_le_mul_right 64 (by omega)
    omega
  rw [List.drop_append_of_le_length (by omega), List.take_append_of_le_length]
  simp only [List.length_drop]; omega

theorem MD5_blocks_snoc_of_ne (l : List Nat) (x : Nat) (h : l.length % 64 ≠ 63) :
    MD5_blocks (l ++ [x]) = MD5_blocks l ∧ MD5_tail (l ++ [x]) = MD5_tail l ++ [x] := by
  have hq : (l.length + 1) / 64 = l.length / 64 := by omega
  constructor
  · unfold MD5_blocks
    rw [List.length_append, List.length_singleton, hq]
    exact MD5_blocks_initial l [x] _ (Nat.le_refl _)
  · unfold MD5_tail
    rw [List.length_append, List.length_singleton, hq,
      List.drop_append_of_le_length (by have := Nat.div_mul_le_self l.length 64; omega)]

theorem MD5_blocks_snoc_of_eq (l : List Nat) (x : Nat) (h : l.length % 64 = 63) :
    MD5_blocks (l ++ [x]) = MD5_blocks l ++ [MD5_tail l ++ [x]] ∧ MD5_tail (l ++ [x]) = [] := by
  have hq : (l.length + 1) / 64 = l.length / 64 + 1 := by omega
  have hle : 64 * (l.length / 64) ≤ l.length := by
    have := Nat.div_mul_le_self l.length 64; omega
  constructor
  · unfold MD5_blocks MD5_tail
    rw [List.length_append, List.length_singleton, hq, List.range_succ, List.map_append,
      MD5_blocks_initial l [x] _ (Nat.le_refl _)]
    congr 1
    simp only [List.map_cons, List.map_nil]
    rw [List.drop_append_of_le_length hle, List.take_of_length_le]
    simp only [List.length_append, List.length_drop, List.length_singleton]; omega
  · unfold MD5_tail
    rw [List.length_append, List.length_singleton, hq]
    apply List.drop_of_length_le
    simp only [List.length_append, List.length_singleton]; omega

theorem MD5_pushByte_step (s : MD5_InstType) (x : Nat)
    (hbuf : s.uBlockBuffer.length = 64) (ho : s.iBlockOffset < 64) :
    (MD5_pushByte s x).adwDigest
        = (if s.iBlockOffset + 1 = 64 then MD5_compress s.adwDigest (MD5_pending s ++ [x])
           else s.adwDigest) ∧
    MD5_pending (MD5_pushByte s x)
        = (if s.iBlockOffset + 1 = 64 then [] else MD5_pending s ++ [x]) := by
  have hcopy : MD5_MEMCPY s.uBlockBuffer s.iBlockOffset [x] 1
      = MD5_pending s ++ [x] ++ s.uBlockBuffer.drop (s.iBlockOffset + 1) := rfl
  have hpl := MD5_pending_length s hbuf ho
  unfold MD5_pushByte
  by_cases hfull : s.iBlockOffset + 1 = 64
  · rw [MD5_ProcessBlock_of_eq _ hfull]
    simp only [hfull, if_true, MD5_pending, List.take_zero, and_true]
    rw [hcopy, List.drop_of_length_le (by omega), List.append_nil]
    rfl
  · rw [MD5_ProcessBlock_of_ne _ hfull]
    simp only [hfull, if_false, true_and]
    show List.take (s.iBlockOffset + 1) (MD5_MEMCPY s.uBlockBuffer s.iBlockOffset [x] 1) = _
    rw [hcopy, List.take_append_of_le_length (by simp; omega),
      List.take_of_length_le (by simp; omega)]

theorem MD5_pushByte_foldl_blocks (data : List Nat) (s : MD5_InstType)
    (hbuf : s.uBlockBuffer.length = 64) (ho : s.iBlockOffset < 64) :
    (data.foldl MD5_pushByte s).adwDigest
        = (MD5_blocks (MD5_pending s ++ data)).foldl MD5_compress s.adwDigest ∧
    MD5_pending (data.foldl MD5_pushByte s) = MD5_tail (MD5_pending s ++ data) := by
  induction data using List.reverseRecOn with
  | nil =>
    have hpl := MD5_pending_length s hbuf ho
    have hq : (MD5_pending s).length / 64 = 0 := by omega
    simp [MD5_blocks, MD5_tail, hq]
  | append_singleton data' x ih =>
    obtain ⟨b1, o1, _⟩ := MD5_pushByte_foldl_inv data' s hbuf ho
    have hpl := MD5_pending_length s hbuf ho
    have hlen : (MD5_pending s ++ data').length = s.iBlockOffset + data'.length := by
      rw [List.length_append, hpl]
    obtain ⟨d1, p1⟩ := MD5_pushByte_step (data'.foldl MD5_pushByte s) x b1 (by omega)
    rw [List.foldl_append, List.foldl_cons, List.foldl_nil, ← List.append_assoc]
    by_cases hfull : (data'.foldl MD5_pushByte s).iBlockOffset + 1 = 64
    · obtain ⟨e1, e2⟩ := MD5_blocks_snoc_of_eq (MD5_pending s ++ data') x (by omega)
      rw [d1, p1, e1, e2, if_pos hfull, if_pos hfull, List.foldl_append, ← ih.1, ih.2]
      simp
    · obtain ⟨e1, e2⟩ := MD5_blocks_snoc_of_ne (MD5_pending s ++ data') x (by omega)
      rw [d1, p1, e1, e2, if_neg hfull, if_neg hfull, ih.1, ih.2]
      simp

theorem MD5_feed_blocks (s : MD5_InstType) (data : List Nat)
    (hbuf : s.uBlockBuffer.length = 64) (ho : s.iBlockOffset < 64) :
    (MD5_feed s data).adwDigest
        = (MD5_blocks (MD5_pending s ++ data)).foldl MD5_compress s.adwDigest ∧
    MD5_pending (MD5_feed s data) = MD5_tail (MD5_pending s ++ data) :=
  MD5_pushByte_foldl_blocks data s hbuf ho

/-! ## The block compression is the RFC 1321 transform -/

theorem MD5_RotateLeft_eq_rotl (x n : Nat) (hx : x < 4294967296) (h0 : 0 < n) (h32 : n < 32) :
    MD5_RotateLeft x n = RFC1321_rotl x n := by
  have hp : 2 ^ n < 2 ^ 32 := Nat.pow_lt_pow_right (by omega) h32
  have hp1 : 1 ≤ 2 ^ n := Nat.one_le_two_pow
  have hsplit : 2 ^ (32 - n) * 2 ^ n = 2 ^ 32 := by
    rw [← Nat.pow_add]; congr 1; omega
  have h232 : (2:Nat) ^ 32 = 4294967296 := by norm_num
  have hmask : ((1 <<< n) % 4294967296 + 4294967295) % 4294967296 = 2 ^ n - 1 := by
    rw [Nat.shiftLeft_eq, Nat.one_mul]; omega
  have hlo : x / 2 ^ (32 - n) < 2 ^ n := by
    apply Nat.div_lt_of_lt_mul
    rw [hsplit]; omega
  have hhi : x * 2 ^ n % 4294967296 = 2 ^ n * (x % 2 ^ (32 - n)) := by
    rw [← h232, ← hsplit, Nat.mul_mod_mul_right, Nat.mul_comm]
  unfold MD5_RotateLeft RFC1321_rotl MD5_not32
  simp only [hmask]
  rw [Nat.and_pow_two_sub_one_eq_mod, Nat.shiftRight_eq_div_pow, Nat.mod_eq_of_lt hlo,
    Nat.shiftLeft_eq]
  have hand : (x * 2 ^ n % 4294967296) &&& (4294967295 - (2 ^ n - 1))
      = x * 2 ^ n % 4294967296 := by
    apply Nat.eq_of_testBit_eq
    intro i
    have hm : 4294967295 - (2 ^ n - 1) = 2 ^ 32 - ((2 ^ n - 1) + 1) := by omega
    rw [Nat.testBit_and, hm, Nat.testBit_two_pow_sub_succ (by omega), Nat.testBit_two_pow_sub_one,
      hhi, Nat.testBit_mul_pow_two]
    by_cases hi : i < 32 <;> by_cases hn : n ≤ i <;> simp [hi, hn]
    intro hlt
    omega
  rw [hand, Nat.lor_comm, hhi, ← Nat.mul_add_lt_is_or hlo, ← hhi]

theorem MD5_abTableS_range : ∀ i, i < 64 →
    0 < MD5_abTableS.getD i 0 ∧ MD5_abTableS.getD i 0 < 32 := by
  decide

theorem MD5_BlockBuf_adw_eq (ab : List Nat) (k : Nat) :
    MD5_BlockBuf_adw ab k = RFC1321_X ab k := by
  simp [MD5_BlockBuf_adw, RFC1321_X]

theorem MD5_pnAuxFuncs_eq (bRound : Nat) (r : MD5_Regs) :
    MD5_pnAuxFuncs bRound r = RFC1321_aux bRound r.B r.C r.D := by
  unfold MD5_pnAuxFuncs RFC1321_aux
  split <;> rfl

theorem MD5_Operation_eq_step (ab : List Nat) (bRound bOperation : Nat) (r : MD5_Regs)
    (hr : bRound < 4) (ho : bOperation < 16) :
    MD5_Operation ab bRound bOperation r
      = RFC1321_step (RFC1321_aux bRound) (RFC1321_X ab) r (MD5_ksi bRound bOperation) := by
  have hlut : (bOperation + MD5_NUM_OPERATIONS * bRound) % 256 = bOperation + 16 * bRound := by
    simp only [MD5_NUM_OPERATIONS]; omega
  obtain ⟨hs0, hs32⟩ := MD5_abTableS_range (bOperation + 16 * bRound) (by omega)
  unfold MD5_Operation RFC1321_step RFC1321_op MD5_ksi
  simp only [hlut]
  rw [MD5_RotateLeft_eq_rotl _ _ (Nat.mod_lt _ (by omega)) hs0 hs32, MD5_pnAuxFuncs_eq,
    MD5_BlockBuf_adw_eq]
  simp only [MD5_GetValueT, RFC1321_T, Nat.add_sub_cancel]
  rw [Nat.add_right_comm (r.A + RFC1321_aux bRound r.B r.C r.D)]

theorem MD5_round_eq (ab : List Nat) (bRound : Nat) (r0 : MD5_Regs) (hr : bRound < 4) :
    (List.range MD5_NUM_OPERATIONS).foldl (fun r bOperation => MD5_Operation ab bRound bOperation r) r0
      = ((List.range 16).map (MD5_ksi bRound)).foldl
          (RFC1321_step (RFC1321_aux bRound) (RFC1321_X ab)) r0 := by
  rw [List.foldl_map]
  apply List.foldl_ext
  intro r op hop
  exact MD5_Operation_eq_step ab bRound op r hr (List.mem_range.mp hop)

theorem RFC1321_rows_foldl (f : Nat → Nat → Nat → Nat) (X : Nat → Nat)
    (rows : List (List (Nat × Nat × Nat))) (r : MD5_Regs)
    (h : ∀ row ∈ rows, row.length = 4) :
    rows.foldl (RFC1321_row f X) r = rows.flatten.foldl (RFC1321_step f X) r := by
  induction rows generalizing r with
  | nil => rfl
  | cons row rest ih =>
    have h4 : row.length = 4 := h row (List.mem_cons_self _ _)
    rw [List.foldl_cons, List.flatten_cons, List.foldl_append,
      ih _ (fun row' hrow' => h row' (List.mem_cons_of_mem _ hrow'))]
    congr 1
    match row, h4 with
    | [o0, o1, o2, o3], _ => rfl

theorem MD5_ksi_round1 : (List.range 16).map (MD5_ksi 0) = RFC1321_round1.flatten := by decide
theorem MD5_ksi_round2 : (List.range 16).map (MD5_ksi 1) = RFC1321_round2.flatten := by decide
theorem MD5_ksi_round3 : (List.range 16).map (MD5_ksi 2) = RFC1321_round3.flatten := by decide
theorem MD5_ksi_round4 : (List.range 16).map (MD5_ksi 3) = RFC1321_round4.flatten := by decide

theorem MD5_compress_eq (d : MD5_Regs) (ab : List Nat) :
    MD5_compress d ab = MD5_AddRegs d (MD5_Rounds ab d) := by
  simp [MD5_compress, MD5_ProcessBlock]

theorem MD5_compress_eq_transform (d : MD5_Regs) (ab : List Nat) :
    MD5_compress d ab = RFC1321_transform d ab := by
  have hrange : List.range MD5_NUM_ROUNDS = [0, 1, 2, 3] := by decide
  rw [MD5_compress_eq]
  unfold MD5_Rounds RFC1321_transform MD5_AddRegs
  simp only [hrange, List.foldl_cons, List.foldl_nil]
  rw [MD5_round_eq ab 0 _ (by omega), MD5_round_eq ab 1 _ (by omega),
    MD5_round_eq ab 2 _ (by omega), MD5_round_eq ab 3 _ (by omega),
    MD5_ksi_round1, MD5_ksi_round2, MD5_ksi_round3, MD5_ksi_round4,
    ← RFC1321_rows_foldl _ _ _ _ (by decide), ← RFC1321_rows_foldl _ _ _ _ (by decide),
    ← RFC1321_rows_foldl _ _ _ _ (by decide), ← RFC1321_rows_foldl _ _ _ _ (by decide)]
  rfl

theorem MD5_blocks_foldl_eq_transform (l : List (List Nat)) (d : MD5_Regs) :
    l.foldl MD5_compress d = l.foldl RFC1321_transform d := by
  have : MD5_compress = RFC1321_transform := by
    funext d ab; exact MD5_compress_eq_transform d ab
  rw [this]

/-! ## `MD5_Compute` and the streaming interface -/

theorem MD5_Init_props (s : MD5_InstType) :
    (MD5_Init s).uBlockBuffer = s.uBlockBuffer ∧ (MD5_Init s).iBlockOffset = 0 ∧
    (MD5_Init s).lTotalByteSize = 0 ∧ (MD5_Init s).adwDigest = RFC1321_IV :=
  ⟨rfl, rfl, rfl, rfl⟩

theorem RFC1321_padding_eq (M : List Nat) (c o : Nat)
    (hc : c = M.length % 18446744073709551616) (ho : o = M.length % 64) :
    M ++ RFC1321_padding c o = RFC1321_pad M := by
  unfold RFC1321_padding RFC1321_pad
  have h1 : RFC1321_zeroCount o = RFC1321_zeroCount M.length := by
    rw [RFC1321_zeroCount_eq, RFC1321_zeroCount_eq, ho]; omega
  have h2 : 8 * c % 18446744073709551616 = 8 * M.length % 18446744073709551616 := by
    rw [hc]; omega
  rw [h1, h2]
  simp

/-- Feeding a message to a fresh instance and finalising yields the RFC 1321 digest. -/
theorem MD5_Final_feed_digest (s : MD5_InstType) (M : List Nat)
    (hbuf : s.uBlockBuffer.length = 64) :
    (MD5_Final (MD5_feed (MD5_Init s) M)).adwDigest = RFC1321_MD5 M ∧
    (MD5_Final (MD5_feed (MD5_Init s) M)).uBlockBuffer.length = 64 := by
  obtain ⟨i1, i2, i3, i4⟩ := MD5_Init_props s
  have hb0 : (MD5_Init s).uBlockBuffer.length = 64 := by rw [i1]; exact hbuf
  have ho0 : (MD5_Init s).iBlockOffset < 64 := by rw [i2]; omega
  obtain ⟨b1, o1, c1⟩ := MD5_feed_inv (MD5_Init s) M hb0 ho0
  have ho1 : (MD5_feed (MD5_Init s) M).iBlockOffset < 64 := by rw [o1]; omega
  rw [MD5_Final_eq_feed _ b1 ho1, MD5_feed_append]
  have hpad : M ++ RFC1321_padding (MD5_feed (MD5_Init s) M).lTotalByteSize
      (MD5_feed (MD5_Init s) M).iBlockOffset = RFC1321_pad M := by
    apply RFC1321_padding_eq
    · rw [c1, i3, Nat.zero_add]
    · rw [o1, i2, Nat.zero_add]
  rw [hpad]
  refine ⟨?_, (MD5_feed_inv _ _ hb0 ho0).1⟩
  rw [(MD5_feed_blocks _ _ hb0 ho0).1, i4, MD5_blocks_foldl_eq_transform]
  have hp : MD5_pending (MD5_Init s) = [] := by
    unfold MD5_pending; rw [i2]; rfl
  rw [hp, List.nil_append]
  rfl

theorem MD5_Compute_digest (s : MD5_InstType) (M : List Nat)
    (hM : M.length < 65536) (hbuf : s.uBlockBuffer.length = 64) :
    (MD5_Compute s M M.length).adwDigest = RFC1321_MD5 M ∧
    (MD5_Compute s M M.length).uBlockBuffer.length = 64 := by
  unfold MD5_Compute
  rw [MD5_Update_eq_feed _ _ hM (by exact hbuf) (by show 0 < 64; omega)]
  exact MD5_Final_feed_digest s M hbuf

theorem MD5_Update_foldl_eq_feed (chunks : List (List Nat)) (s : MD5_InstType)
    (hchunks : ∀ chunk ∈ chunks, chunk.length < 65536)
    (hbuf : s.uBlockBuffer.length = 64) (ho : s.iBlockOffset < 64)
    (hc : s.lTotalByteSize < 18446744073709551616) :
    chunks.foldl (fun s chunk => MD5_Update s chunk chunk.length) s
      = MD5_feed s chunks.flatten := by
  induction chunks generalizing s with
  | nil => rw [List.foldl_nil, List.flatten_nil, MD5_feed_nil s hc]
  | cons chunk rest ih =>
    obtain ⟨b1, o1, c1⟩ := MD5_feed_inv s chunk hbuf ho
    rw [List.foldl_cons, MD5_Update_eq_feed s chunk (hchunks chunk (List.mem_cons_self _ _)) hbuf ho,
      ih _ (fun c hc' => hchunks c (List.mem_cons_of_mem _ hc')) b1 (by rw [o1]; omega)
        (by rw [c1]; omega),
      MD5_feed_append, List.flatten_cons]

theorem MD5_stream_digest (s : MD5_InstType) (chunks : List (List Nat))
    (hchunks : ∀ chunk ∈ chunks, chunk.length < 65536)
    (hbuf : s.uBlockBuffer.length = 64) :
    (MD5_stream s chunks).adwDigest = RFC1321_MD5 chunks.flatten := by
  unfold MD5_stream
  rw [MD5_Update_foldl_eq_feed chunks (MD5_Init s) hchunks hbuf (by show 0 < 64; omega)
    (by show 0 < 18446744073709551616; omega)]
  exact (MD5_Final_feed_digest s chunks.flatten hbuf).1

theorem RFC1321_zeroCount_least (n : Nat) :
    (n + 1 + RFC1321_zeroCount n + 8) % 64 = 0 ∧
    ∀ z, z < RFC1321_zeroCount n → (n + 1 + z + 8) % 64 ≠ 0 := by
  rw [RFC1321_zeroCount_eq]
  constructor
  · omega
  · intro z hz; omega

theorem MD5_asTestCases_digests : ∀ t ∈ MD5_asTestCases,
    (MD5_strBytes t.acTestMsg).length < 65536 ∧
    MD5_digestBytes (RFC1321_MD5 (MD5_strBytes t.acTestMsg)) = t.abExpectedDigest := by
  decide!

theorem MD5_RunTests_loop_passes (tests : List MD5_TestStructType)
    (h : ∀ t ∈ tests, (MD5_strBytes t.acTestMsg).length < 65536 ∧
      MD5_digestBytes (RFC1321_MD5 (MD5_strBytes t.acTestMsg)) = t.abExpectedDigest)
    (s : MD5_InstType) (hbuf : s.uBlockBuffer.length = 64) :
    (MD5_RunTests_loop tests s true).1 = true := by
  induction tests generalizing s with
  | nil => rfl
  | cons t rest ih =>
    obtain ⟨hlen, hdig⟩ := h t (List.mem_cons_self _ _)
    obtain ⟨d1, b1⟩ := MD5_Compute_digest s (MD5_strBytes t.acTestMsg) hlen hbuf
    have hstep : MD5_RunTests_loop (t :: rest) s true
        = MD5_RunTests_loop rest
            (MD5_Compute s (MD5_strBytes t.acTestMsg) (MD5_strBytes t.acTestMsg).length)
            (if decide (MD5_digestBytes (MD5_Compute s (MD5_strBytes t.acTestMsg)
                (MD5_strBytes t.acTestMsg).length).adwDigest ≠ t.abExpectedDigest)
              then false else true) := rfl
    rw [hstep, d1, hdig]
    simp only [ne_eq, not_true_eq_false, decide_False, Bool.false_eq_true, if_false]
    exact ih (fun t' ht' => h t' (List.mem_cons_of_mem _ ht')) _ b1

/-! ## The claims -/

/-- C1: for every message `M` of at most 65535 bytes (the range of the `UINT16` length
parameter) and every instance, `MD5_Compute` leaves in `adwDigest` the RFC 1321 digest
of `M`: the RFC 1321 block transform folded, from the initial values `0x67452301`,
`0xEFCDAB89`, `0x98BADCFE`, `0x10325476`, over the successive 64-byte blocks of
`M ++ [0x80] ++ z zero bytes ++ LE64 (8 * |M|)`, where `z` is the least number that makes
the total length a multiple of 64. -/
theorem C1_MD5_Compute_is_RFC1321 (psInst : MD5_InstType) (M : List Nat)
    (hM : M.length ≤ 65535) (hbuf : psInst.uBlockBuffer.length = 64) :
    ∃ z : Nat,
      (M.length + 1 + z + 8) % 64 = 0 ∧
      (∀ z', z' < z → (M.length + 1 + z' + 8) % 64 ≠ 0) ∧
      (MD5_Compute psInst M M.length).adwDigest
        = (MD5_blocks
            (M ++ [0x80] ++ List.replicate z 0 ++ RFC1321_LE64 (8 * M.length))).foldl
            RFC1321_transform
            { A := 0x67452301, B := 0xEFCDAB89, C := 0x98BADCFE, D := 0x10325476 } := by
  obtain ⟨h1, h2⟩ := RFC1321_zeroCount_least M.length
  refine ⟨RFC1321_zeroCount M.length, h1, h2, ?_⟩
  rw [(MD5_Compute_digest psInst M (by omega) hbuf).1]
  unfold RFC1321_MD5 RFC1321_pad
  rw [Nat.mod_eq_of_lt (by omega)]
  rfl

theorem C1_MD5_Compute_is_RFC1321_witness :
    [0x61, 0x62, 0x63].length ≤ 65535 ∧ MD5_exampleInst.uBlockBuffer.length = 64 ∧
    ∃ z : Nat,
      ([0x61, 0x62, 0x63].length + 1 + z + 8) % 64 = 0 ∧
      (∀ z', z' < z → ([0x61, 0x62, 0x63].length + 1 + z' + 8) % 64 ≠ 0) ∧
      (MD5_Compute MD5_exampleInst [0x61, 0x62, 0x63] [0x61, 0x62, 0x63].length).adwDigest
        = (MD5_blocks
            ([0x61, 0x62, 0x63] ++ [0x80] ++ List.replicate z 0
              ++ RFC1321_LE64 (8 * [0x61, 0x62, 0x63].length))).foldl
            RFC1321_transform
            { A := 0x67452301, B := 0xEFCDAB89, C := 0x98BADCFE, D := 0x10325476 } :=
  ⟨by decide, by decide,
    C1_MD5_Compute_is_RFC1321 MD5_exampleInst [0x61, 0x62, 0x63] (by decide) (by decide)⟩

/-- C3: on the empty message (`iMsgLen = 0`) `MD5_Compute` leaves a digest whose 16
bytes are `d4 1d 8c d9 8f 00 b2 04 e9 80 09 98 ec f8 42 7e`, whatever the instance held
before. -/
theorem C3_MD5_Compute_empty (psInst : MD5_InstType)
    (hbuf : psInst.uBlockBuffer.length = 64) :
    MD5_digestBytes (MD5_Compute psInst [] 0).adwDigest
      = [0xd4, 0x1d, 0x8c, 0xd9, 0x8f, 0x00, 0xb2, 0x04,
         0xe9, 0x80, 0x09, 0x98, 0xec, 0xf8, 0x42, 0x7e] := by
  have h : (MD5_Compute psInst [] 0).adwDigest = RFC1321_MD5 [] :=
    (MD5_Compute_digest psInst [] (by decide) hbuf).1
  rw [h]
  decide!

theorem C3_MD5_Compute_empty_witness :
    MD5_exampleInst.uBlockBuffer.length = 64 ∧
    MD5_digestBytes (MD5_Compute MD5_exampleInst [] 0).adwDigest
      = [0xd4, 0x1d, 0x8c, 0xd9, 0x8f, 0x00, 0xb2, 0x04,
         0xe9, 0x80, 0x09, 0x98, 0xec, 0xf8, 0x42, 0x7e] :=
  ⟨by decide, C3_MD5_Compute_empty MD5_exampleInst (by decide)⟩

/-- C4: on the 3-byte message "abc" (bytes `61 62 63`) `MD5_Compute` leaves a digest
whose 16 bytes are `90 01 50 98 3c d2 4f b0 d6 96 3f 7d 28 e1 7f 72`. -/
theorem C4_MD5_Compute_abc (psInst : MD5_InstType)
    (hbuf : psInst.uBlockBuffer.length = 64) :
    MD5_strBytes "abc" = [0x61, 0x62, 0x63] ∧
    MD5_digestBytes (MD5_Compute psInst [0x61, 0x62, 0x63] 3).adwDigest
      = [0x90, 0x01, 0x50, 0x98, 0x3c, 0xd2, 0x4f, 0xb0,
         0xd6, 0x96, 0x3f, 0x7d, 0x28, 0xe1, 0x7f, 0x72] := by
  have h : (MD5_Compute psInst [0x61, 0x62, 0x63] 3).adwDigest
      = RFC1321_MD5 [0x61, 0x62, 0x63] :=
    (MD5_Compute_digest psInst [0x61, 0x62, 0x63] (by decide) hbuf).1
  rw [h]
  exact ⟨by decide!, by decide!⟩

theorem C4_MD5_Compute_abc_witness :
    MD5_exampleInst.uBlockBuffer.length = 64 ∧
    (MD5_strBytes "abc" = [0x61, 0x62, 0x63] ∧
     MD5_digestBytes (MD5_Compute MD5_exampleInst [0x61, 0x62, 0x63] 3).adwDigest
      = [0x90, 0x01, 0x50, 0x98, 0x3c, 0xd2, 0x4f, 0xb0,
         0xd6, 0x96, 0x3f, 0x7d, 0x28, 0xe1, 0x7f, 0x72]) :=
  ⟨by decide, C4_MD5_Compute_abc MD5_exampleInst (by decide)⟩

/-- C5: on the 80-byte message made of "1234567890" eight times, which spans more than
one block, `MD5_Compute` leaves a digest whose 16 bytes are
`57 ed f4 a2 2b e3 c9 55 ac 49 da 2e 21 07 b6 7a`. -/
theorem C5_MD5_Compute_digits (psInst : MD5_InstType)
    (hbuf : psInst.uBlockBuffer.length = 64) :
    MD5_strBytes
        "12345678901234567890123456789012345678901234567890123456789012345678901234567890"
      = (List.replicate 8 [0x31, 0x32, 0x33, 0x34, 0x35, 0x36, 0x37, 0x38, 0x39, 0x30]).flatten ∧
    MD5_digestBytes (MD5_Compute psInst (MD5_strBytes
        "12345678901234567890123456789012345678901234567890123456789012345678901234567890")
        80).adwDigest
      = [0x57, 0xed, 0xf4, 0xa2, 0x2b, 0xe3, 0xc9, 0x55,
         0xac, 0x49, 0xda, 0x2e, 0x21, 0x07, 0xb6, 0x7a] := by
  have hl : (MD5_strBytes
      "12345678901234567890123456789012345678901234567890123456789012345678901234567890").length
      = 80 := by decide!
  have h := (MD5_Compute_digest psInst (MD5_strBytes
      "12345678901234567890123456789012345678901234567890123456789012345678901234567890")
      (by rw [hl]; omega) hbuf).1
  rw [hl] at h
  rw [h]
  exact ⟨by decide!, by decide!⟩

theorem C5_MD5_Compute_digits_witness :
    MD5_exampleInst.uBlockBuffer.length = 64 ∧
    (MD5_strBytes
        "12345678901234567890123456789012345678901234567890123456789012345678901234567890"
      = (List.replicate 8 [0x31, 0x32, 0x33, 0x34, 0x35, 0x36, 0x37, 0x38, 0x39, 0x30]).flatten ∧
     MD5_digestBytes (MD5_Compute MD5_exampleInst (MD5_strBytes
        "12345678901234567890123456789012345678901234567890123456789012345678901234567890")
        80).adwDigest
      = [0x57, 0xed, 0xf4, 0xa2, 0x2b, 0xe3, 0xc9, 0x55,
         0xac, 0x49, 0xda, 0x2e, 0x21, 0x07, 0xb6, 0x7a]) :=
  ⟨by decide, C5_MD5_Compute_digits MD5_exampleInst (by decide)⟩

/-- C6: on the 43-byte message "The quick brown fox jumps over the lazy dog"
`MD5_Compute` leaves a digest whose 16 bytes are
`9e 10 7d 9d 37 2b b6 82 6b d8 1d 35 42 a4 19 d6`. -/
theorem C6_MD5_Compute_fox (psInst : MD5_InstType)
    (hbuf : psInst.uBlockBuffer.length = 64) :
    MD5_strBytes "The quick brown fox jumps over the lazy dog"
      = [0x54, 0x68, 0x65, 0x20, 0x71, 0x75, 0x69, 0x63, 0x6b, 0x20, 0x62, 0x72, 0x6f, 0x77,
         0x6e, 0x20, 0x66, 0x6f, 0x78, 0x20, 0x6a, 0x75, 0x6d, 0x70, 0x73, 0x20, 0x6f, 0x76,
         0x65, 0x72, 0x20, 0x74, 0x68, 0x65, 0x20, 0x6c, 0x61, 0x7a, 0x79, 0x20, 0x64, 0x6f,
         0x67] ∧
    MD5_digestBytes (MD5_Compute psInst
        (MD5_strBytes "The quick brown fox jumps over the lazy dog") 43).adwDigest
      = [0x9e, 0x10, 0x7d, 0x9d, 0x37, 0x2b, 0xb6, 0x82,
         0x6b, 0xd8, 0x1d, 0x35, 0x42, 0xa4, 0x19, 0xd6] := by
  have hl : (MD5_strBytes "The quick brown fox jumps over the lazy dog").length = 43 := by
    decide!
  have h := (MD5_Compute_digest psInst
      (MD5_strBytes "The quick brown fox jumps over the lazy dog") (by rw [hl]; omega) hbuf).1
  rw [hl] at h
  rw [h]
  exact ⟨by decide!, by decide!⟩

theorem C6_MD5_Compute_fox_witness :
    MD5_exampleInst.uBlockBuffer.length = 64 ∧
    (MD5_strBytes "The quick brown fox jumps over the lazy dog"
      = [0x54, 0x68, 0x65, 0x20, 0x71, 0x75, 0x69, 0x63, 0x6b, 0x20, 0x62, 0x72, 0x6f, 0x77,
         0x6e, 0x20, 0x66, 0x6f, 0x78, 0x20, 0x6a, 0x75, 0x6d, 0x70, 0x73, 0x20, 0x6f, 0x76,
         0x65, 0x72, 0x20, 0x74, 0x68, 0x65, 0x20, 0x6c, 0x61, 0x7a, 0x79, 0x20, 0x64, 0x6f,
         0x67] ∧
     MD5_digestBytes (MD5_Compute MD5_exampleInst
        (MD5_strBytes "The quick brown fox jumps over the lazy dog") 43).adwDigest
      = [0x9e, 0x10, 0x7d, 0x9d, 0x37, 0x2b, 0xb6, 0x82,
         0x6b, 0xd8, 0x1d, 0x35, 0x42, 0xa4, 0x19, 0xd6]) :=
  ⟨by decide, C6_MD5_Compute_fox MD5_exampleInst (by decide)⟩

/-- C7: on the 1-byte message "a" (byte `61`) `MD5_Compute` leaves a digest whose 16
bytes are `0c c1 75 b9 c0 f1 b6 a8 31 c3 99 e2 69 77 26 61`. -/
theorem C7_MD5_Compute_a (psInst : MD5_InstType)
    (hbuf : psInst.uBlockBuffer.length = 64) :
    MD5_strBytes "a" = [0x61] ∧
    MD5_digestBytes (MD5_Compute psInst [0x61] 1).adwDigest
      = [0x0c, 0xc1, 0x75, 0xb9, 0xc0, 0xf1, 0xb6, 0xa8,
         0x31, 0xc3, 0x99, 0xe2, 0x69, 0x77, 0x26, 0x61] := by
  have h : (MD5_Compute psInst [0x61] 1).adwDigest = RFC1321_MD5 [0x61] :=
    (MD5_Compute_digest psInst [0x61] (by decide) hbuf).1
  rw [h]
  exact ⟨by decide!, by decide!⟩

theorem C7_MD5_Compute_a_witness :
    MD5_exampleInst.uBlockBuffer.length = 64 ∧
    (MD5_strBytes "a" = [0x61] ∧
     MD5_digestBytes (MD5_Compute MD5_exampleInst [0x61] 1).adwDigest
      = [0x0c, 0xc1, 0x75, 0xb9, 0xc0, 0xf1, 0xb6, 0xa8,
         0x31, 0xc3, 0x99, 0xe2, 0x69, 0x77, 0x26, 0x61]) :=
  ⟨by decide, C7_MD5_Compute_a MD5_exampleInst (by decide)⟩

/-- C8: `MD5_RunTests` returns TRUE whatever the instance held before: for each of the
nine entries of `MD5_asTestCases` the 16 digest bytes after `MD5_Compute` on `acTestMsg`
(of length `strlen( acTestMsg )`) equal `abExpectedDigest`. -/
theorem C8_MD5_RunTests_passes (psInst : MD5_InstType)
    (hbuf : psInst.uBlockBuffer.length = 64) :
    MD5_RunTests psInst = true ∧
    MD5_asTestCases.length = 9 ∧
    ∀ t ∈ MD5_asTestCases, ∀ s : MD5_InstType, s.uBlockBuffer.length = 64 →
      MD5_digestBytes
          (MD5_Compute s (MD5_strBytes t.acTestMsg) (MD5_strBytes t.acTestMsg).length).adwDigest
        = t.abExpectedDigest := by
  refine ⟨MD5_RunTests_loop_passes _ MD5_asTestCases_digests psInst hbuf, rfl, ?_⟩
  intro t ht s hs
  obtain ⟨hlen, hdig⟩ := MD5_asTestCases_digests t ht
  rw [(MD5_Compute_digest s _ hlen hs).1, hdig]

theorem C8_MD5_RunTests_passes_witness :
    MD5_exampleInst.uBlockBuffer.length = 64 ∧
    (MD5_RunTests MD5_exampleInst = true ∧
     MD5_asTestCases.length = 9 ∧
     ∀ t ∈ MD5_asTestCases, ∀ s : MD5_InstType, s.uBlockBuffer.length = 64 →
      MD5_digestBytes
          (MD5_Compute s (MD5_strBytes t.acTestMsg) (MD5_strBytes t.acTestMsg).length).adwDigest
        = t.abExpectedDigest) :=
  ⟨by decide, C8_MD5_RunTests_passes MD5_exampleInst (by decide)⟩

/-- C9: from a state with `iBlockOffset = o < 64`, `MD5_Update` on `n ≤ 65535` bytes
consumes all of them: the registers are the block compression applied in order to the
`(o + n) / 64` successive 64-byte blocks of the `o` pending buffer bytes followed by the
data, the offset becomes `(o + n) mod 64`, and the first `(o + n) mod 64` buffer bytes are
the bytes after the last complete block. -/
theorem C9_MD5_Update_consumes_all (psInst : MD5_InstType) (pbData : List Nat)
    (hbuf : psInst.uBlockBuffer.length = 64) (ho : psInst.iBlockOffset < 64)
    (hn : pbData.length ≤ 65535) :
    (MD5_Update psInst pbData pbData.length).adwDigest
      = ((List.range ((psInst.iBlockOffset + pbData.length) / 64)).map
          (fun i =>
            ((psInst.uBlockBuffer.take psInst.iBlockOffset ++ pbData).drop (64 * i)).take 64)).foldl
          MD5_compress psInst.adwDigest ∧
    (MD5_Update psInst pbData pbData.length).iBlockOffset
      = (psInst.iBlockOffset + pbData.length) % 64 ∧
    (MD5_Update psInst pbData pbData.length).uBlockBuffer.take
        ((psInst.iBlockOffset + pbData.length) % 64)
      = (psInst.uBlockBuffer.take psInst.iBlockOffset ++ pbData).drop
          (64 * ((psInst.iBlockOffset + pbData.length) / 64)) := by
  rw [MD5_Update_eq_feed psInst pbData (by omega) hbuf ho]
  obtain ⟨d, p⟩ := MD5_feed_blocks psInst pbData hbuf ho
  obtain ⟨_, o1, _⟩ := MD5_feed_inv psInst pbData hbuf ho
  have hlen : (MD5_pending psInst ++ pbData).length = psInst.iBlockOffset + pbData.length := by
    rw [List.length_append, MD5_pending_length psInst hbuf ho]
  unfold MD5_blocks at d
  unfold MD5_tail at p
  rw [hlen] at d p
  unfold MD5_pending at d p
  rw [o1] at p
  exact ⟨d, o1, p⟩

theorem C9_MD5_Update_consumes_all_witness :
    MD5_exampleInst.uBlockBuffer.length = 64 ∧ MD5_exampleInst.iBlockOffset < 64 ∧
    (List.replicate 100 7).length ≤ 65535 ∧
    ((MD5_Update MD5_exampleInst (List.replicate 100 7) (List.replicate 100 7).length).adwDigest
      = ((List.range ((MD5_exampleInst.iBlockOffset + (List.replicate 100 7).length) / 64)).map
          (fun i =>
            ((MD5_exampleInst.uBlockBuffer.take MD5_exampleInst.iBlockOffset
                ++ List.replicate 100 7).drop (64 * i)).take 64)).foldl
          MD5_compress MD5_exampleInst.adwDigest ∧
    (MD5_Update MD5_exampleInst (List.replicate 100 7) (List.replicate 100 7).length).iBlockOffset
      = (MD5_exampleInst.iBlockOffset + (List.replicate 100 7).length) % 64 ∧
    (MD5_Update MD5_exampleInst (List.replicate 100 7)
        (List.replicate 100 7).length).uBlockBuffer.take
        ((MD5_exampleInst.iBlockOffset + (List.replicate 100 7).length) % 64)
      = (MD5_exampleInst.uBlockBuffer.take MD5_exampleInst.iBlockOffset
          ++ List.replicate 100 7).drop
          (64 * ((MD5_exampleInst.iBlockOffset + (List.replicate 100 7).length) / 64))) :=
  ⟨by decide, by decide, by simp,
    C9_MD5_Update_consumes_all MD5_exampleInst (List.replicate 100 7) (by decide) (by decide)
      (by simp)⟩

/-- C10: from a state with `iBlockOffset = o < 64` and byte counter `c`, `MD5_Final`
leaves exactly the state that `MD5_Update` leaves when it is given the padding string
`[0x80] ++ z zero bytes ++ LE64 (8 * c mod 2^64)` with `z = (55 - o) mod 64`. -/
theorem C10_MD5_Final_eq_Update_padding (psInst : MD5_InstType)
    (hbuf : psInst.uBlockBuffer.length = 64) (ho : psInst.iBlockOffset < 64) :
    MD5_Final psInst
      = MD5_Update psInst
          ([0x80] ++ List.replicate ((55 - (psInst.iBlockOffset : Int)) % 64).toNat 0
            ++ RFC1321_LE64 ((8 * psInst.lTotalByteSize) % 18446744073709551616))
          (1 + ((55 - (psInst.iBlockOffset : Int)) % 64).toNat + 8) := by
  have hlen : ([0x80] ++ List.replicate ((55 - (psInst.iBlockOffset : Int)) % 64).toNat 0
      ++ RFC1321_LE64 ((8 * psInst.lTotalByteSize) % 18446744073709551616)).length
      = 1 + ((55 - (psInst.iBlockOffset : Int)) % 64).toNat + 8 := by
    simp [RFC1321_LE64]
    omega
  have h := MD5_Update_eq_feed psInst _ (by rw [hlen]; omega) hbuf ho
  rw [hlen] at h
  rw [h, MD5_Final_eq_feed psInst hbuf ho]
  rfl

theorem C10_MD5_Final_eq_Update_padding_witness :
    MD5_exampleInst.uBlockBuffer.length = 64 ∧ MD5_exampleInst.iBlockOffset < 64 ∧
    MD5_Final MD5_exampleInst
      = MD5_Update MD5_exampleInst
          ([0x80] ++ List.replicate ((55 - (MD5_exampleInst.iBlockOffset : Int)) % 64).toNat 0
            ++ RFC1321_LE64 ((8 * MD5_exampleInst.lTotalByteSize) % 18446744073709551616))
          (1 + ((55 - (MD5_exampleInst.iBlockOffset : Int)) % 64).toNat + 8) :=
  ⟨by decide, by decide, C10_MD5_Final_eq_Update_padding MD5_exampleInst (by decide) (by decide)⟩

/-! ### Chunked input and the 16-bit length of `MD5_Compute` -/

theorem MD5_blocks_append (a b : List Nat) (ha : a.length % 64 = 0) :
    MD5_blocks (a ++ b) = MD5_blocks a ++ MD5_blocks b := by
  have hq : (a.length + b.length) / 64 = a.length / 64 + b.length / 64 := by omega
  have hal : 64 * (a.length / 64) = a.length := by omega
  unfold MD5_blocks
  rw [List.length_append, hq, List.range_add, List.map_append,
    MD5_blocks_initial a b _ (Nat.le_refl _), List.map_map]
  congr 1
  apply List.map_congr_left
  intro i _
  simp only [Function.comp]
  rw [Nat.mul_add, hal, List.drop_append]

theorem MD5_blocks_replicate (n v : Nat) :
    MD5_blocks (List.replicate (64 * n) v) = List.replicate n (List.replicate 64 v) := by
  unfold MD5_blocks
  rw [List.length_replicate, Nat.mul_div_cancel_left n (by omega)]
  have hc : (List.range n).map (fun i => ((List.replicate (64 * n) v).drop (64 * i)).take 64)
      = (List.range n).map (fun _ => List.replicate 64 v) := by
    apply List.map_congr_left
    intro i hi
    have hi' : i < n := List.mem_range.mp hi
    rw [List.drop_replicate, List.take_replicate]
    congr 1
    omega
  rw [hc, List.map_const', List.length_range]

theorem MD5_Update_len_zero (s : MD5_InstType) (data : List Nat) (n : Nat)
    (hn : n % 65536 = 0) : MD5_Update s data n = MD5_Update s [] 0 := by
  unfold MD5_Update
  simp only [hn, Nat.zero_mod, Nat.zero_sub]
  split
  · rfl
  · split
    · rename_i h1 h2
      omega
    · rfl

theorem RFC1321_MD5_zeros_65536 :
    RFC1321_MD5 (List.replicate 65536 0)
      = (List.replicate 1024 (List.replicate 64 0)
          ++ [[0x80] ++ List.replicate 55 0 ++ [0, 0, 8, 0, 0, 0, 0, 0]]).foldl
          RFC1321_transform RFC1321_IV := by
  unfold RFC1321_MD5 RFC1321_pad
  have hz : RFC1321_zeroCount (List.replicate 65536 0).length = 55 := by
    rw [List.length_replicate, RFC1321_zeroCount_eq]
  have hl : RFC1321_LE64 (8 * (List.replicate 65536 0).length % 18446744073709551616)
      = [0, 0, 8, 0, 0, 0, 0, 0] := by
    rw [List.length_replicate]; decide
  rw [hz, hl, List.append_assoc, List.append_assoc,
    MD5_blocks_append _ _ (by rw [List.length_replicate]),
    show (65536 : Nat) = 64 * 1024 from rfl, MD5_blocks_replicate]
  congr 2

set_option maxRecDepth 1000000 in
theorem RFC1321_MD5_zeros_65536_bytes :
    MD5_digestBytes
        ((List.replicate 1024 (List.replicate 64 0)
          ++ [[0x80] ++ List.replicate 55 0 ++ [0, 0, 8, 0, 0, 0, 0, 0]]).foldl
          RFC1321_transform RFC1321_IV)
      = [0xfc, 0xd6, 0xbc, 0xb5, 0x6c, 0x16, 0x89, 0xfc,
         0xef, 0x28, 0xb5, 0x7c, 0x22, 0x47, 0x5b, 0xad] := by
  decide!

theorem RFC1321_MD5_empty_bytes :
    MD5_digestBytes (RFC1321_MD5 [])
      = [0xd4, 0x1d, 0x8c, 0xd9, 0x8f, 0x00, 0xb2, 0x04,
         0xe9, 0x80, 0x09, 0x98, 0xec, 0xf8, 0x42, 0x7e] := by
  decide!

/-- C2, counterexample: a message of 65536 zero bytes fed in two chunks of 32768 bytes
(each length fits `iDataLen`) yields the digest `fcd6bcb5 6c1689fc ef28b57c 22475bad` of
that message, while `MD5_Compute` on the whole message, whose length 65536 reaches the
`UINT16` parameter `iMsgLen` as 0, leaves `d41d8cd9 8f00b204 e9800998 ecf8427e`, the digest
of the empty message: the two digests differ. -/
theorem C2_counterexample_long_message :
    MD5_digestBytes
        (MD5_stream MD5_exampleInst
          [List.replicate 32768 0, List.replicate 32768 0]).adwDigest
      = [0xfc, 0xd6, 0xbc, 0xb5, 0x6c, 0x16, 0x89, 0xfc,
         0xef, 0x28, 0xb5, 0x7c, 0x22, 0x47, 0x5b, 0xad] ∧
    MD5_digestBytes
        (MD5_Compute MD5_exampleInst
          [List.replicate 32768 0, List.replicate 32768 0].flatten
          [List.replicate 32768 0, List.replicate 32768 0].flatten.length).adwDigest
      = [0xd4, 0x1d, 0x8c, 0xd9, 0x8f, 0x00, 0xb2, 0x04,
         0xe9, 0x80, 0x09, 0x98, 0xec, 0xf8, 0x42, 0x7e] ∧
    ¬ ((MD5_stream MD5_exampleInst [List.replicate 32768 0, List.replicate 32768 0]).adwDigest
        = (MD5_Compute MD5_exampleInst
            [List.replicate 32768 0, List.replicate 32768 0].flatten
            [List.replicate 32768 0, List.replicate 32768 0].flatten.length).adwDigest) := by
  have hb : MD5_exampleInst.uBlockBuffer.length = 64 := by decide
  have hfl : [List.replicate 32768 0, List.replicate 32768 0].flatten
      = List.replicate 65536 0 := by
    rw [List.flatten_cons, List.flatten_cons, List.flatten_nil, List.append_nil,
      List.append_replicate_replicate]
  have hch : ∀ chunk ∈ [List.replicate 32768 0, List.replicate 32768 0],
      chunk.length < 65536 := by
    intro chunk hc
    simp only [List.mem_cons, List.mem_singleton, List.not_mem_nil, or_false, or_self] at hc
    rw [hc, List.length_replicate]
    omega
  have hs : (MD5_stream MD5_exampleInst
      [List.replicate 32768 0, List.replicate 32768 0]).adwDigest
      = (List.replicate 1024 (List.replicate 64 0)
          ++ [[0x80] ++ List.replicate 55 0 ++ [0, 0, 8, 0, 0, 0, 0, 0]]).foldl
          RFC1321_transform RFC1321_IV := by
    rw [MD5_stream_digest _ _ hch hb, hfl, RFC1321_MD5_zeros_65536]
  have hc : (MD5_Compute MD5_exampleInst
      [List.replicate 32768 0, List.replicate 32768 0].flatten
      [List.replicate 32768 0, List.replicate 32768 0].flatten.length).adwDigest
      = RFC1321_MD5 [] := by
    have h0 := (MD5_Compute_digest MD5_exampleInst [] (by decide) hb).1
    rw [hfl, List.length_replicate]
    unfold MD5_Compute at h0 ⊢
    rw [MD5_Update_len_zero _ _ 65536 (by decide)]
    exact h0
  have hsb := RFC1321_MD5_zeros_65536_bytes
  have hcb := RFC1321_MD5_empty_bytes
  rw [← hs] at hsb
  rw [← hc] at hcb
  refine ⟨hsb, hcb, ?_⟩
  intro heq
  rw [heq, hcb] at hsb
  exact absurd hsb (by decide)

/-- C2, amended: for every message of at most 65535 bytes (so that its length fits the
`UINT16` parameter of `MD5_Compute`) and every partition of it into chunks of at most
65535 bytes, empty chunks allowed, the digest after `MD5_Init`, one `MD5_Update` per chunk
and `MD5_Final` is the digest `MD5_Compute` leaves for the whole message. -/
theorem C2_chunk_independence (psInst1 psInst2 : MD5_InstType) (chunks : List (List Nat))
    (hchunks : ∀ chunk ∈ chunks, chunk.length ≤ 65535)
    (hM : chunks.flatten.length ≤ 65535)
    (hbuf1 : psInst1.uBlockBuffer.length = 64) (hbuf2 : psInst2.uBlockBuffer.length = 64) :
    (MD5_stream psInst1 chunks).adwDigest
      = (MD5_Compute psInst2 chunks.flatten chunks.flatten.length).adwDigest := by
  rw [MD5_stream_digest _ _ (fun c hc => Nat.lt_succ_of_le (hchunks c hc)) hbuf1,
    (MD5_Compute_digest psInst2 _ (by omega) hbuf2).1]

theorem C2_chunk_independence_witness :
    (∀ chunk ∈ [[0x61], [], [0x62, 0x63]], chunk.length ≤ 65535) ∧
    [[0x61], [], [0x62, 0x63]].flatten.length ≤ 65535 ∧
    MD5_exampleInst.uBlockBuffer.length = 64 ∧
    (MD5_Init MD5_exampleInst).uBlockBuffer.length = 64 ∧
    (MD5_stream MD5_exampleInst [[0x61], [], [0x62, 0x63]]).adwDigest
      = (MD5_Compute (MD5_Init MD5_exampleInst) [[0x61], [], [0x62, 0x63]].flatten
          [[0x61], [], [0x62, 0x63]].flatten.length).adwDigest :=
  ⟨by decide, by decide, by decide, by decide,
    C2_chunk_independence MD5_exampleInst (MD5_Init MD5_exampleInst) [[0x61], [], [0x62, 0x63]]
      (by decide) (by decide) (by decide) (by decide)⟩

/-! ## Finalisation, initialisation and the byte counter -/

theorem MD5_Update_while_counter (fuel : Nat) (s : MD5_InstType) (data : List Nat) (n : Nat) :
    (MD5_Update_while fuel s data n).lTotalByteSize = s.lTotalByteSize := by
  induction fuel generalizing s data n with
  | zero => rfl
  | succ fuel ih =>
    unfold MD5_Update_while
    split
    · rw [ih, MD5_ProcessBlock_counter]
    · rfl

theorem MD5_Update_counter (s : MD5_InstType) (data : List Nat) (n : Nat) :
    (MD5_Update s data n).lTotalByteSize
      = (s.lTotalByteSize + n % 65536) % 18446744073709551616 := by
  unfold MD5_Update
  simp only
  split
  · rw [MD5_Update_while_counter, MD5_ProcessBlock_counter]
  · split
    · rw [MD5_Update_while_counter, MD5_ProcessBlock_counter]
    · rw [MD5_Update_while_counter]

theorem MD5_UpdateByte_eq_Update_gen (s : MD5_InstType) (v n : Nat) :
    MD5_UpdateByte s v n
      = MD5_Update s (List.replicate (n % 65536) (v % 256)) (n % 65536) := by
  have h := MD5_UpdateByte_eq_Update s (v % 256) (n % 65536)
    (Nat.mod_lt _ (by omega)) (Nat.mod_lt _ (by omega))
  rw [← h]
  unfold MD5_UpdateByte
  simp only [Nat.mod_mod]

/-- C12: whatever the instance held before, `MD5_Init` sets the registers to
`0x67452301`, `0xEFCDAB89`, `0x98BADCFE`, `0x10325476`, the byte counter to 0 and the
buffer offset to 0 (and leaves the buffer bytes alone). -/
theorem C12_MD5_Init_resets (psInst : MD5_InstType) :
    (MD5_Init psInst).adwDigest
      = { A := 0x67452301, B := 0xEFCDAB89, C := 0x98BADCFE, D := 0x10325476 } ∧
    (MD5_Init psInst).lTotalByteSize = 0 ∧
    (MD5_Init psInst).iBlockOffset = 0 ∧
    (MD5_Init psInst).uBlockBuffer = psInst.uBlockBuffer :=
  ⟨rfl, rfl, rfl, rfl⟩

/-- C13: for every instance state (in particular every one with `iBlockOffset ≤ 64`),
every byte `v` and every count `n ≤ 65535`, `MD5_UpdateByte` leaves exactly the state
that `MD5_Update` leaves on `n` copies of `v`. -/
theorem C13_MD5_UpdateByte_eq_Update_replicate (psInst : MD5_InstType) (bValue iCount : Nat)
    (hv : bValue ≤ 255) (hn : iCount ≤ 65535) :
    MD5_UpdateByte psInst bValue iCount
      = MD5_Update psInst (List.replicate iCount bValue) iCount :=
  MD5_UpdateByte_eq_Update psInst bValue iCount (by omega) (by omega)

theorem C13_MD5_UpdateByte_eq_Update_replicate_witness :
    (0x5a : Nat) ≤ 255 ∧ (200 : Nat) ≤ 65535 ∧
    MD5_UpdateByte MD5_exampleInst 0x5a 200
      = MD5_Update MD5_exampleInst (List.replicate 200 0x5a) 200 :=
  ⟨by decide, by decide,
    C13_MD5_UpdateByte_eq_Update_replicate MD5_exampleInst 0x5a 200 (by decide) (by decide)⟩

/-- C14: for every instance state and every length `n ≤ 65535`, the byte counter after
`MD5_Update` and after `MD5_UpdateByte` is `(old counter + n) mod 2^64`, whatever the
buffer offset and the number of blocks compressed. -/
theorem C14_byte_counter_advances (psInst : MD5_InstType) (pbData : List Nat)
    (bValue n : Nat) (hn : n ≤ 65535) :
    (MD5_Update psInst pbData n).lTotalByteSize
      = (psInst.lTotalByteSize + n) % 18446744073709551616 ∧
    (MD5_UpdateByte psInst bValue n).lTotalByteSize
      = (psInst.lTotalByteSize + n) % 18446744073709551616 := by
  have hm : n % 65536 = n := Nat.mod_eq_of_lt (by omega)
  constructor
  · rw [MD5_Update_counter, hm]
  · rw [MD5_UpdateByte_eq_Update_gen, MD5_Update_counter, Nat.mod_mod, hm]

theorem C14_byte_counter_advances_witness :
    (100 : Nat) ≤ 65535 ∧
    ((MD5_Update MD5_exampleInst (List.replicate 100 7) 100).lTotalByteSize
      = (MD5_exampleInst.lTotalByteSize + 100) % 18446744073709551616 ∧
     (MD5_UpdateByte MD5_exampleInst 7 100).lTotalByteSize
      = (MD5_exampleInst.lTotalByteSize + 100) % 18446744073709551616) :=
  ⟨by decide, C14_byte_counter_advances MD5_exampleInst (List.replicate 100 7) 7 100 (by decide)⟩

theorem MD5_Update_zero (s : MD5_InstType) (data : List Nat)
    (ho : s.iBlockOffset < 64) (hc : s.lTotalByteSize < 18446744073709551616) :
    MD5_Update s data 0 = s := by
  unfold MD5_Update
  have hl : (MD5_BLOCK_SIZE + 65536 - s.iBlockOffset) % 256 = 64 - s.iBlockOffset := by
    simp only [MD5_BLOCK_SIZE]; omega
  simp only [Nat.zero_mod, Nat.add_zero, hl, Nat.mod_eq_of_lt hc]
  rw [if_neg (by omega), if_neg (by omega)]
  rfl

/-- C15: zero-length input is a no-op: from a state with `iBlockOffset < 64` (and a
counter that is a 64-bit value), `MD5_Update` with `iDataLen = 0` and `MD5_UpdateByte`
with `iCount = 0` leave registers, counter, offset and buffer unchanged. -/
theorem C15_zero_length_is_noop (psInst : MD5_InstType) (pbData : List Nat) (bValue : Nat)
    (ho : psInst.iBlockOffset < 64)
    (hc : psInst.lTotalByteSize < 18446744073709551616) :
    MD5_Update psInst pbData 0 = psInst ∧ MD5_UpdateByte psInst bValue 0 = psInst := by
  constructor
  · exact MD5_Update_zero psInst pbData ho hc
  · rw [MD5_UpdateByte_eq_Update_gen]
    exact MD5_Update_zero psInst _ ho hc

theorem C15_zero_length_is_noop_witness :
    MD5_exampleInst.iBlockOffset < 64 ∧
    MD5_exampleInst.lTotalByteSize < 18446744073709551616 ∧
    (MD5_Update MD5_exampleInst [1, 2, 3] 0 = MD5_exampleInst ∧
     MD5_UpdateByte MD5_exampleInst 9 0 = MD5_exampleInst) :=
  ⟨by decide, by decide,
    C15_zero_length_is_noop MD5_exampleInst [1, 2, 3] 9 (by decide) (by decide)⟩

/-- C16: the digest read out of an instance is always exactly 16 bytes, the
little-endian serialisation of the registers in the order A, B, C, D: byte `4 j + k` is
bits `8 k .. 8 k + 7` of `adwDigest[ j ]`. -/
theorem C16_digest_is_16_bytes_little_endian (psInst : MD5_InstType) (j k : Fin 4) :
    (MD5_digestBytes psInst.adwDigest).length = 16 ∧
    (MD5_digestBytes psInst.adwDigest).getD (4 * j.val + k.val) 0
      = ([psInst.adwDigest.A, psInst.adwDigest.B, psInst.adwDigest.C,
          psInst.adwDigest.D].getD j.val 0 / 2 ^ (8 * k.val)) % 256 := by
  constructor
  · rfl
  · fin_cases j <;> fin_cases k <;> simp [MD5_digestBytes]

/-- C20: on a full buffer (`iBlockOffset = 64`) the registers that `MD5_ProcessBlock`
leaves are those of the RFC 1321 section 3.4 transform: four rounds of sixteen operations
`[abcd k s i]`, `a = b + ((a + f(b,c,d) + X[k] + T[i]) <<< s)`, with the operand roles
cycling ABCD, DABC, CDAB, BCDA, then `A += AA`, `B += BB`, `C += CC`, `D += DD`, on the
little-endian words `X[j]` of the buffer, all additions modulo `2^32`. -/
theorem C20_MD5_ProcessBlock_is_RFC1321_transform (psInst : MD5_InstType)
    (ho : psInst.iBlockOffset = 64) :
    (MD5_ProcessBlock psInst).adwDigest
      = RFC1321_transform psInst.adwDigest psInst.uBlockBuffer := by
  rw [MD5_ProcessBlock_of_eq psInst ho, ← MD5_compress_eq_transform]

theorem C20_MD5_ProcessBlock_is_RFC1321_transform_witness :
    MD5_exampleFullInst.iBlockOffset = 64 ∧
    (MD5_ProcessBlock MD5_exampleFullInst).adwDigest
      = RFC1321_transform MD5_exampleFullInst.adwDigest MD5_exampleFullInst.uBlockBuffer :=
  ⟨by decide, C20_MD5_ProcessBlock_is_RFC1321_transform MD5_exampleFullInst (by decide)⟩

/-! ## The buffer offset along sequences of calls -/

theorem MD5_Update_while_offset (fuel : Nat) (s : MD5_InstType) (data : List Nat) (n : Nat)
    (hfuel : n ≤ fuel) (ho : s.iBlockOffset = 0 ∨ s.iBlockOffset + n < 64) :
    (MD5_Update_while fuel s data n).iBlockOffset = (s.iBlockOffset + n) % 64 := by
  induction fuel generalizing s data n with
  | zero =>
    have hn : n = 0 := by omega
    subst hn
    show s.iBlockOffset = _
    omega
  | succ fuel ih =>
    unfold MD5_Update_while
    by_cases hz : n = 0
    · subst hz
      simp only [ne_eq, not_true_eq_false, if_false]
      omega
    · simp only [ne_eq, hz, not_false_eq_true, if_true, MD5_BLOCK_SIZE]
      generalize hk : (if n > 64 then 64 else n) = k
      have hk1 : 1 ≤ k := by split at hk <;> omega
      have hk2 : k ≤ n := by split at hk <;> omega
      have hk3 : s.iBlockOffset + k ≤ 64 := by split at hk <;> omega
      have hmod : (s.iBlockOffset + k) % 65536 = s.iBlockOffset + k := by omega
      rw [hmod]
      have hoff := MD5_ProcessBlock_offset
        { s with uBlockBuffer := MD5_MEMCPY s.uBlockBuffer s.iBlockOffset data k,
                 iBlockOffset := s.iBlockOffset + k }
      simp only at hoff
      rw [ih _ _ _ (by omega), hoff]
      · split <;> split at hk <;> omega
      · rw [hoff]
        split <;> split at hk <;> omega

theorem MD5_Update_offset (s : MD5_InstType) (data : List Nat) (n : Nat)
    (ho : s.iBlockOffset ≤ 64) :
    (MD5_Update s data n).iBlockOffset = (s.iBlockOffset + n % 65536) % 64 := by
  unfold MD5_Update
  have hl : (MD5_BLOCK_SIZE + 65536 - s.iBlockOffset) % 256 = 64 - s.iBlockOffset := by
    simp only [MD5_BLOCK_SIZE]; omega
  simp only [hl]
  split
  · rename_i h0
    have hoff := MD5_ProcessBlock_offset
      { s with lTotalByteSize := (s.lTotalByteSize + n % 65536) % 18446744073709551616 }
    simp only at hoff
    rw [MD5_Update_while_offset _ _ _ _ (Nat.le_refl _) (Or.inl (by rw [hoff]; split <;> omega)),
      hoff]
    split <;> omega
  · split
    · rename_i h0 hge
      have hoff := MD5_ProcessBlock_offset
        { s with lTotalByteSize := (s.lTotalByteSize + n % 65536) % 18446744073709551616,
                 uBlockBuffer := MD5_MEMCPY s.uBlockBuffer s.iBlockOffset data
                   (64 - s.iBlockOffset),
                 iBlockOffset := MD5_BLOCK_SIZE }
      simp only [MD5_BLOCK_SIZE, if_true] at hoff
      simp only [MD5_BLOCK_SIZE]
      rw [MD5_Update_while_offset _ _ _ _ (Nat.le_refl _) (Or.inl hoff), hoff]
      omega
    · rename_i h0 hlt
      rw [MD5_Update_while_offset _ _ _ _ (Nat.le_refl _) (Or.inr (by show s.iBlockOffset + _ < 64; omega))]

theorem MD5_Update_offset_lt (s : MD5_InstType) (data : List Nat) (n : Nat)
    (ho : s.iBlockOffset ≤ 64) : (MD5_Update s data n).iBlockOffset < 64 := by
  rw [MD5_Update_offset s data n ho]
  omega

theorem MD5_UpdateByte_offset_lt (s : MD5_InstType) (v n : Nat)
    (ho : s.iBlockOffset ≤ 64) : (MD5_UpdateByte s v n).iBlockOffset < 64 := by
  rw [MD5_UpdateByte_eq_Update_gen]
  exact MD5_Update_offset_lt s _ _ ho

theorem MD5_ite_offset_le (c : Prop) [Decidable c] (a b : MD5_InstType)
    (ha : a.iBlockOffset ≤ 64) (hb : b.iBlockOffset ≤ 64) :
    (if c then a else b).iBlockOffset ≤ 64 := by
  split <;> assumption

theorem MD5_Final_offset_lt (s : MD5_InstType) (ho : s.iBlockOffset ≤ 64) :
    (MD5_Final s).iBlockOffset < 64 := by
  have h1 : (MD5_UpdateByte s 128 1).iBlockOffset ≤ 64 :=
    Nat.le_of_lt (MD5_UpdateByte_offset_lt s 128 1 ho)
  unfold MD5_Final
  simp only
  apply MD5_Update_offset_lt
  refine MD5_ite_offset_le _ _ _ (Nat.le_of_lt (MD5_UpdateByte_offset_lt _ _ _ ?_)) ?_
  all_goals
    exact MD5_ite_offset_le _ _ _ (Nat.le_of_lt (MD5_UpdateByte_offset_lt _ _ _ h1)) h1

theorem MD5_Compute_offset_lt (s : MD5_InstType) (data : List Nat) (n : Nat) :
    (MD5_Compute s data n).iBlockOffset < 64 := by
  unfold MD5_Compute
  exact MD5_Final_offset_lt _
    (Nat.le_of_lt (MD5_Update_offset_lt _ _ _ (by show 0 ≤ 64; omega)))

theorem MD5_Reachable_offset_lt (s : MD5_InstType) (h : MD5_Reachable s) :
    s.iBlockOffset < 64 := by
  induction h with
  | init psInst => show 0 < 64; omega
  | update psInst pbData iDataLen _ ih => exact MD5_Update_offset_lt _ _ _ (Nat.le_of_lt ih)
  | updateByte psInst bValue iCount _ ih =>
    exact MD5_UpdateByte_offset_lt _ _ _ (Nat.le_of_lt ih)
  | final psInst _ ih => exact MD5_Final_offset_lt _ (Nat.le_of_lt ih)
  | compute psInst pbMsg iMsgLen => exact MD5_Compute_offset_lt _ _ _

/-- C18: in every state reached from `MD5_Init` by any sequence of `MD5_Update`,
`MD5_UpdateByte`, `MD5_Final` and `MD5_Compute` calls, with any arguments,
`iBlockOffset` does not exceed 64. -/
theorem C18_offset_never_exceeds_64 (psInst : MD5_InstType) (h : MD5_Reachable psInst) :
    psInst.iBlockOffset ≤ MD5_BLOCK_SIZE :=
  Nat.le_of_lt (MD5_Reachable_offset_lt psInst h)

theorem C18_offset_never_exceeds_64_witness :
    MD5_Reachable
      (MD5_Final (MD5_UpdateByte (MD5_Update (MD5_Init MD5_exampleInst) [1, 2, 3] 3) 0 70)) ∧
    (MD5_Final (MD5_UpdateByte (MD5_Update (MD5_Init MD5_exampleInst) [1, 2, 3] 3)
        0 70)).iBlockOffset ≤ MD5_BLOCK_SIZE :=
  ⟨.final _ (.updateByte _ _ _ (.update _ _ _ (.init _))),
    C18_offset_never_exceeds_64 _ (.final _ (.updateByte _ _ _ (.update _ _ _ (.init _))))⟩

/-! ## The number of block compressions -/

theorem MD5_ProcessBlock_counted_eq (s : MD5_InstType) (k : Nat) :
    MD5_ProcessBlock_counted (s, k)
      = (MD5_ProcessBlock s, k + (if s.iBlockOffset = 64 then 1 else 0)) := by
  unfold MD5_ProcessBlock_counted MD5_ProcessBlock
  simp only [MD5_BLOCK_SIZE]
  split <;> rfl

theorem MD5_Update_while_counted_fst (fuel : Nat) (p : MD5_InstType × Nat) (data : List Nat)
    (n : Nat) :
    (MD5_Update_while_counted fuel p data n).1 = MD5_Update_while fuel p.1 data n := by
  induction fuel generalizing p data n with
  | zero => rfl
  | succ fuel ih =>
    unfold MD5_Update_while_counted MD5_Update_while
    split
    · rw [ih, MD5_ProcessBlock_counted_eq]
    · rfl

theorem MD5_Update_while_counted_snd (fuel : Nat) (p : MD5_InstType × Nat) (data : List Nat)
    (n : Nat) (hfuel : n ≤ fuel) (ho : p.1.iBlockOffset = 0 ∨ p.1.iBlockOffset + n < 64) :
    (MD5_Update_while_counted fuel p data n).2 = p.2 + (p.1.iBlockOffset + n) / 64 := by
  induction fuel generalizing p data n with
  | zero =>
    have hn : n = 0 := by omega
    subst hn
    show p.2 = _
    omega
  | succ fuel ih =>
    unfold MD5_Update_while_counted
    by_cases hz : n = 0
    · subst hz
      simp only [ne_eq, not_true_eq_false, if_false]
      omega
    · simp only [ne_eq, hz, not_false_eq_true, if_true, MD5_BLOCK_SIZE]
      generalize hk : (if n > 64 then 64 else n) = k
      have hk1 : 1 ≤ k := by split at hk <;> omega
      have hk2 : k ≤ n := by split at hk <;> omega
      have hk3 : p.1.iBlockOffset + k ≤ 64 := by split at hk <;> omega
      have hmod : (p.1.iBlockOffset + k) % 65536 = p.1.iBlockOffset + k := by omega
      rw [hmod, MD5_ProcessBlock_counted_eq]
      have hoff := MD5_ProcessBlock_offset
        { p.1 with uBlockBuffer := MD5_MEMCPY p.1.uBlockBuffer p.1.iBlockOffset data k,
                   iBlockOffset := p.1.iBlockOffset + k }
      simp only at hoff
      rw [ih _ _ _ (by omega)]
      · simp only [hoff]
        split <;> split at hk <;> omega
      · simp only [hoff]
        split <;> split at hk <;> omega

theorem MD5_Update_counted_eq (p : MD5_InstType × Nat) (data : List Nat) (n : Nat)
    (ho : p.1.iBlockOffset ≤ 64) :
    MD5_Update_counted p data n
      = (MD5_Update p.1 data n, p.2 + (p.1.iBlockOffset + n % 65536) / 64) := by
  apply Prod.ext
  · unfold MD5_Update_counted MD5_Update
    simp only
    split
    · rw [MD5_Update_while_counted_fst, MD5_ProcessBlock_counted_eq]
    · split
      · rw [MD5_Update_while_counted_fst, MD5_ProcessBlock_counted_eq]
      · rw [MD5_Update_while_counted_fst]
  · unfold MD5_Update_counted
    have hl : (MD5_BLOCK_SIZE + 65536 - p.1.iBlockOffset) % 256 = 64 - p.1.iBlockOffset := by
      simp only [MD5_BLOCK_SIZE]; omega
    simp only [hl]
    split
    · rename_i h0
      have hoff := MD5_ProcessBlock_offset
        { p.1 with lTotalByteSize :=
            (p.1.lTotalByteSize + n % 65536) % 18446744073709551616 }
      simp only at hoff
      rw [MD5_ProcessBlock_counted_eq,
        MD5_Update_while_counted_snd _ _ _ _ (Nat.le_refl _)
          (Or.inl (by simp only [hoff]; split <;> omega))]
      simp only [hoff]
      split <;> omega
    · split
      · rename_i h0 hge
        have hoff := MD5_ProcessBlock_offset
          { p.1 with lTotalByteSize :=
                       (p.1.lTotalByteSize + n % 65536) % 18446744073709551616,
                     uBlockBuffer := MD5_MEMCPY p.1.uBlockBuffer p.1.iBlockOffset data
                       (64 - p.1.iBlockOffset),
                     iBlockOffset := MD5_BLOCK_SIZE }
        simp only [MD5_BLOCK_SIZE, if_true] at hoff
        simp only [MD5_BLOCK_SIZE]
        rw [MD5_ProcessBlock_counted_eq,
          MD5_Update_while_counted_snd _ _ _ _ (Nat.le_refl _) (Or.inl hoff)]
        simp only [hoff, if_true]
        omega
      · rename_i h0 hlt
        rw [MD5_Update_while_counted_snd _ _ _ _ (Nat.le_refl _)
          (Or.inr (by show p.1.iBlockOffset + _ < 64; omega))]

theorem MD5_UpdateByte_while_counted_eq (fuel : Nat) (p : MD5_InstType × Nat) (v n : Nat) :
    MD5_UpdateByte_while_counted fuel p v n
      = MD5_Update_while_counted fuel p (List.replicate n v) n := by
  induction fuel generalizing p n with
  | zero => rfl
  | succ fuel ih =>
    unfold MD5_UpdateByte_while_counted MD5_Update_while_counted
    by_cases hz : n = 0
    · simp [hz]
    · simp only [ne_eq, hz, not_false_eq_true, if_true]
      generalize hk : (if n > MD5_BLOCK_SIZE then MD5_BLOCK_SIZE else n) = k
      have hk2 : k ≤ n := by split at hk <;> omega
      rw [ih, MD5_MEMSET_eq_MEMCPY _ _ _ _ n hk2, List.drop_replicate]

theorem MD5_UpdateByte_counted_eq_Update (p : MD5_InstType × Nat) (v n : Nat) :
    MD5_UpdateByte_counted p v n
      = MD5_Update_counted p (List.replicate (n % 65536) (v % 256)) (n % 65536) := by
  unfold MD5_UpdateByte_counted MD5_Update_counted
  simp only [Nat.mod_mod, MD5_UpdateByte_while_counted_eq]
  split
  · rfl
  · split
    · rename_i hge
      rw [MD5_MEMSET_eq_MEMCPY _ _ _ _ (n % 65536) hge, List.drop_replicate]
    · rfl

theorem MD5_UpdateByte_counted_eq (p : MD5_InstType × Nat) (v n : Nat)
    (ho : p.1.iBlockOffset ≤ 64) :
    MD5_UpdateByte_counted p v n
      = (MD5_UpdateByte p.1 v n, p.2 + (p.1.iBlockOffset + n % 65536) / 64) := by
  rw [MD5_UpdateByte_counted_eq_Update, MD5_Update_counted_eq _ _ _ ho,
    MD5_UpdateByte_eq_Update_gen, Nat.mod_mod]

theorem MD5_UpdateByte_offset (s : MD5_InstType) (v n : Nat) (ho : s.iBlockOffset ≤ 64) :
    (MD5_UpdateByte s v n).iBlockOffset = (s.iBlockOffset + n % 65536) % 64 := by
  rw [MD5_UpdateByte_eq_Update_gen, MD5_Update_offset _ _ _ ho, Nat.mod_mod]

theorem MD5_Final_counted_eq (s : MD5_InstType) (k : Nat) (ho : s.iBlockOffset < 64) :
    MD5_Final_counted (s, k)
      = (MD5_Final s, k + (if s.iBlockOffset ≤ 55 then 1 else 2)) := by
  unfold MD5_Final_counted MD5_Final
  simp only [MD5_BLOCK_SIZE]
  have e1 := MD5_UpdateByte_counted_eq (s, k) 128 1 (Nat.le_of_lt ho)
  have o1 := MD5_UpdateByte_offset s 128 1 (Nat.le_of_lt ho)
  simp only [Nat.one_mod] at e1 o1
  rw [e1]
  simp only
  generalize MD5_UpdateByte s 128 1 = s1 at *
  have hl1 : (64 - s1.iBlockOffset % 64) % 256 = 64 - s1.iBlockOffset := by omega
  rw [hl1]
  by_cases h8 : 64 - s1.iBlockOffset < 8
  · simp only [h8, if_true]
    have e2 := MD5_UpdateByte_counted_eq (s1, k + (s.iBlockOffset + 1) / 64) 0
      (64 - s1.iBlockOffset) (by show s1.iBlockOffset ≤ 64; omega)
    have o2 := MD5_UpdateByte_offset s1 0 (64 - s1.iBlockOffset) (by omega)
    rw [e2]
    simp only
    generalize MD5_UpdateByte s1 0 (64 - s1.iBlockOffset) = s2 at *
    have o2' : s2.iBlockOffset = 0 := by omega
    have hz : ((64 - s2.iBlockOffset % 64) % 256 + 256 - 8) % 256 = 56 := by rw [o2']
    rw [hz]
    simp only [gt_iff_lt, Nat.lt_add_one, Nat.zero_lt_succ, if_true]
    have e3 := MD5_UpdateByte_counted_eq
      (s2, k + (s.iBlockOffset + 1) / 64 + (s1.iBlockOffset + (64 - s1.iBlockOffset) % 65536) / 64)
      0 56 (by show s2.iBlockOffset ≤ 64; omega)
    have o3 := MD5_UpdateByte_offset s2 0 56 (by omega)
    rw [e3]
    simp only
    generalize MD5_UpdateByte s2 0 56 = s3 at *
    rw [MD5_Update_counted_eq _ _ _ (by show s3.iBlockOffset ≤ 64; omega)]
    apply Prod.ext
    · rfl
    · show _ + _ = _
      simp only
      split <;> omega
  · simp only [h8, if_false]
    have hz : ((64 - s1.iBlockOffset % 64) % 256 + 256 - 8) % 256 = 56 - s1.iBlockOffset := by
      omega
    rw [hz]
    by_cases hp : 56 - s1.iBlockOffset > 0
    · simp only [hp, if_true]
      have e3 := MD5_UpdateByte_counted_eq (s1, k + (s.iBlockOffset + 1) / 64) 0
        (56 - s1.iBlockOffset) (by show s1.iBlockOffset ≤ 64; omega)
      have o3 := MD5_UpdateByte_offset s1 0 (56 - s1.iBlockOffset) (by omega)
      rw [e3]
      simp only
      generalize MD5_UpdateByte s1 0 (56 - s1.iBlockOffset) = s3 at *
      rw [MD5_Update_counted_eq _ _ _ (by show s3.iBlockOffset ≤ 64; omega)]
      apply Prod.ext
      · rfl
      · show _ + _ = _
        simp only
        split <;> omega
    · simp only [hp, if_false]
      rw [MD5_Update_counted_eq _ _ _ (by show s1.iBlockOffset ≤ 64; omega)]
      apply Prod.ext
      · rfl
      · show _ + _ = _
        simp only
        split <;> omega

theorem MD5_Update_foldl_offset (chunks : List (List Nat)) (s : MD5_InstType)
    (hchunks : ∀ chunk ∈ chunks, chunk.length ≤ 65535) (ho : s.iBlockOffset < 64) :
    (chunks.foldl (fun s chunk => MD5_Update s chunk chunk.length) s).iBlockOffset
      = (s.iBlockOffset + chunks.flatten.length) % 64 := by
  induction chunks generalizing s with
  | nil => simp only [List.foldl_nil, List.flatten_nil, List.length_nil]; omega
  | cons chunk rest ih =>
    have hlen := hchunks chunk (List.mem_cons_self _ _)
    have h1 := MD5_Update_offset s chunk chunk.length (Nat.le_of_lt ho)
    rw [Nat.mod_eq_of_lt (by omega : chunk.length < 65536)] at h1
    rw [List.foldl_cons, ih _ (fun c hc => hchunks c (List.mem_cons_of_mem _ hc))
      (by rw [h1]; omega), h1, List.flatten_cons, List.length_append]
    omega

/-- C17: after `MD5_Init` and any sequence of `MD5_Update` calls that feed `n` bytes in
total, `MD5_Final` performs exactly one block compression when `n mod 64` is in `0..55`
and exactly two when it is in `56..63`; in particular, feeding exactly 64 bytes performs
one compression and `MD5_Final` then performs exactly one more. The compressions are
counted by the copy of the routines that carries a counter, which leaves the same
instance state as the routines themselves. -/
theorem C17_MD5_Final_compressions (psInst : MD5_InstType) (chunks : List (List Nat))
    (pbData : List Nat) (hchunks : ∀ chunk ∈ chunks, chunk.length ≤ 65535)
    (h64 : pbData.length = 64) :
    (MD5_Final_counted
        (chunks.foldl (fun s chunk => MD5_Update s chunk chunk.length) (MD5_Init psInst), 0)).1
      = MD5_Final
          (chunks.foldl (fun s chunk => MD5_Update s chunk chunk.length) (MD5_Init psInst)) ∧
    (MD5_Final_counted
        (chunks.foldl (fun s chunk => MD5_Update s chunk chunk.length) (MD5_Init psInst), 0)).2
      = (if chunks.flatten.length % 64 ≤ 55 then 1 else 2) ∧
    MD5_Update_counted (MD5_Init psInst, 0) pbData pbData.length
      = (MD5_Update (MD5_Init psInst) pbData pbData.length, 1) ∧
    MD5_Final_counted (MD5_Update (MD5_Init psInst) pbData pbData.length, 1)
      = (MD5_Final (MD5_Update (MD5_Init psInst) pbData pbData.length), 2) := by
  have hoff := MD5_Update_foldl_offset chunks (MD5_Init psInst) hchunks (by show 0 < 64; omega)
  have hoff0 : (MD5_Init psInst).iBlockOffset = 0 := rfl
  rw [hoff0, Nat.zero_add] at hoff
  have hlt : (chunks.foldl (fun s chunk => MD5_Update s chunk chunk.length)
      (MD5_Init psInst)).iBlockOffset < 64 := by rw [hoff]; omega
  have h1 := MD5_Final_counted_eq _ 0 hlt
  rw [hoff, Nat.zero_add] at h1
  have h2 := MD5_Update_counted_eq (MD5_Init psInst, 0) pbData pbData.length
    (by show 0 ≤ 64; omega)
  have h3 := MD5_Update_offset (MD5_Init psInst) pbData pbData.length (by show 0 ≤ 64; omega)
  simp only [hoff0, h64, Nat.zero_add] at h2 h3
  have h4 := MD5_Final_counted_eq (MD5_Update (MD5_Init psInst) pbData pbData.length) 1
    (by rw [h64, h3]; omega)
  rw [h64] at h4 ⊢
  rw [h3] at h4
  refine ⟨by rw [h1], by rw [h1], h2, h4⟩

theorem C17_MD5_Final_compressions_witness :
    (∀ chunk ∈ [List.replicate 50 1, List.replicate 10 2], chunk.length ≤ 65535) ∧
    (List.replicate 64 3).length = 64 ∧
    ((MD5_Final_counted
        ([List.replicate 50 1, List.replicate 10 2].foldl
          (fun s chunk => MD5_Update s chunk chunk.length) (MD5_Init MD5_exampleInst), 0)).1
      = MD5_Final
          ([List.replicate 50 1, List.replicate 10 2].foldl
            (fun s chunk => MD5_Update s chunk chunk.length) (MD5_Init MD5_exampleInst)) ∧
    (MD5_Final_counted
        ([List.replicate 50 1, List.replicate 10 2].foldl
          (fun s chunk => MD5_Update s chunk chunk.length) (MD5_Init MD5_exampleInst), 0)).2
      = (if [List.replicate 50 1, List.replicate 10 2].flatten.length % 64 ≤ 55
          then 1 else 2) ∧
    MD5_Update_counted (MD5_Init MD5_exampleInst, 0) (List.replicate 64 3)
        (List.replicate 64 3).length
      = (MD5_Update (MD5_Init MD5_exampleInst) (List.replicate 64 3)
          (List.replicate 64 3).length, 1) ∧
    MD5_Final_counted
        (MD5_Update (MD5_Init MD5_exampleInst) (List.replicate 64 3)
          (List.replicate 64 3).length, 1)
      = (MD5_Final (MD5_Update (MD5_Init MD5_exampleInst) (List.replicate 64 3)
          (List.replicate 64 3).length), 2)) :=
  ⟨by decide, by decide,
    C17_MD5_Final_compressions MD5_exampleInst [List.replicate 50 1, List.replicate 10 2]
      (List.replicate 64 3) (by decide) (by decide)⟩

/-! ## The length field written by `MD5_Final` -/

theorem MD5_Final_last_block (s : MD5_InstType)
    (hbuf : s.uBlockBuffer.length = 64) (ho : s.iBlockOffset < 64) :
    (MD5_Final s).uBlockBuffer.length = 64 ∧
    (MD5_Final s).uBlockBuffer.drop 56
      = RFC1321_LE64 ((8 * s.lTotalByteSize) % 18446744073709551616) ∧
    (MD5_Final s).adwDigest
      = MD5_compress
          (MD5_feed s ([0x80] ++ List.replicate (RFC1321_zeroCount s.iBlockOffset) 0)).adwDigest
          (MD5_Final s).uBlockBuffer ∧
    (MD5_Final s).iBlockOffset = 0 ∧
    (MD5_Final s).lTotalByteSize
      = (s.lTotalByteSize + (1 + RFC1321_zeroCount s.iBlockOffset + 8))
          % 18446744073709551616 := by
  have hF : MD5_Final s
      = MD5_feed (MD5_feed s ([0x80] ++ List.replicate (RFC1321_zeroCount s.iBlockOffset) 0))
          (RFC1321_LE64 ((8 * s.lTotalByteSize) % 18446744073709551616)) := by
    rw [MD5_Final_eq_feed s hbuf ho, MD5_feed_append]
    rfl
  obtain ⟨b3, o3, c3⟩ := MD5_feed_inv s
    ([0x80] ++ List.replicate (RFC1321_zeroCount s.iBlockOffset) 0) hbuf ho
  have hz := RFC1321_zeroCount_eq s.iBlockOffset
  simp only [List.length_append, List.length_singleton, List.length_replicate] at o3 c3
  generalize MD5_feed s ([0x80] ++ List.replicate (RFC1321_zeroCount s.iBlockOffset) 0)
    = s3 at *
  have o3' : s3.iBlockOffset = 56 := by omega
  generalize hbytes : RFC1321_LE64 ((8 * s.lTotalByteSize) % 18446744073709551616)
    = bytes at *
  have hblen : bytes.length = 8 := by rw [← hbytes]; simp [RFC1321_LE64]
  have hchunk := MD5_pushByte_foldl_chunk bytes s3 b3 (by omega) (by omega)
  rw [hblen, o3', MD5_ProcessBlock_of_eq _ (by rfl)] at hchunk
  have hfeed : MD5_feed s3 bytes
      = { lTotalByteSize := (s3.lTotalByteSize + 8) % 18446744073709551616,
          adwDigest := MD5_compress s3.adwDigest (MD5_MEMCPY s3.uBlockBuffer 56 bytes 8),
          iBlockOffset := 0,
          uBlockBuffer := MD5_MEMCPY s3.uBlockBuffer 56 bytes 8 } := by
    unfold MD5_feed
    rw [hchunk, hblen]
  rw [hF, hfeed]
  refine ⟨?_, ?_, rfl, rfl, ?_⟩
  · show (MD5_MEMCPY s3.uBlockBuffer 56 bytes 8).length = 64
    rw [MD5_MEMCPY_length _ _ _ _ (by omega) (by omega), b3]
  · show List.drop 56 (MD5_MEMCPY s3.uBlockBuffer 56 bytes 8) = bytes
    unfold MD5_MEMCPY
    have hl : (List.take 56 s3.uBlockBuffer).length = 56 := by
      rw [List.length_take]; omega
    rw [List.append_assoc, List.drop_left' hl, List.drop_of_length_le (by omega),
      List.append_nil, List.take_of_length_le (by omega)]
  · show (s3.lTotalByteSize + 8) % 18446744073709551616 = _
    rw [c3]
    omega

/-- C11: from a state with `iBlockOffset < 64` and byte counter `c` (any value), after
`MD5_Final` the buffer holds the last compressed block, and its bytes 56..63 are the
little-endian encoding of `8 * c mod 2^64`, the bit length before padding, although the
counter itself has by then advanced by the `1 + z + 8` padding bytes,
`z = (55 - iBlockOffset) mod 64`. -/
theorem C11_MD5_Final_length_field (psInst : MD5_InstType)
    (hbuf : psInst.uBlockBuffer.length = 64) (ho : psInst.iBlockOffset < 64) :
    (MD5_Final psInst).uBlockBuffer.length = 64 ∧
    (MD5_Final psInst).uBlockBuffer.drop 56
      = RFC1321_LE64 ((8 * psInst.lTotalByteSize) % 18446744073709551616) ∧
    (MD5_Final psInst).adwDigest
      = MD5_compress
          (MD5_Update psInst
            ([0x80] ++ List.replicate ((55 - (psInst.iBlockOffset : Int)) % 64).toNat 0)
            (1 + ((55 - (psInst.iBlockOffset : Int)) % 64).toNat)).adwDigest
          (MD5_Final psInst).uBlockBuffer ∧
    (MD5_Final psInst).iBlockOffset = 0 ∧
    (MD5_Final psInst).lTotalByteSize
      = (psInst.lTotalByteSize + (1 + ((55 - (psInst.iBlockOffset : Int)) % 64).toNat + 8))
          % 18446744073709551616 := by
  obtain ⟨h1, h2, h3, h4, h5⟩ := MD5_Final_last_block psInst hbuf ho
  refine ⟨h1, h2, ?_, h4, h5⟩
  have hlen : ([0x80] ++ List.replicate ((55 - (psInst.iBlockOffset : Int)) % 64).toNat 0).length
      = 1 + ((55 - (psInst.iBlockOffset : Int)) % 64).toNat := by
    simp only [List.length_append, List.length_singleton, List.length_replicate]
  have hu := MD5_Update_eq_feed psInst
    ([0x80] ++ List.replicate ((55 - (psInst.iBlockOffset : Int)) % 64).toNat 0)
    (by rw [hlen]; omega) hbuf ho
  rw [hlen] at hu
  rw [hu, h3]
  rfl

theorem C11_MD5_Final_length_field_witness :
    MD5_exampleInst.uBlockBuffer.length = 64 ∧ MD5_exampleInst.iBlockOffset < 64 ∧
    ((MD5_Final MD5_exampleInst).uBlockBuffer.length = 64 ∧
    (MD5_Final MD5_exampleInst).uBlockBuffer.drop 56
      = RFC1321_LE64 ((8 * MD5_exampleInst.lTotalByteSize) % 18446744073709551616) ∧
    (MD5_Final MD5_exampleInst).adwDigest
      = MD5_compress
          (MD5_Update MD5_exampleInst
            ([0x80] ++ List.replicate ((55 - (MD5_exampleInst.iBlockOffset : Int)) % 64).toNat 0)
            (1 + ((55 - (MD5_exampleInst.iBlockOffset : Int)) % 64).toNat)).adwDigest
          (MD5_Final MD5_exampleInst).uBlockBuffer ∧
    (MD5_Final MD5_exampleInst).iBlockOffset = 0 ∧
    (MD5_Final MD5_exampleInst).lTotalByteSize
      = (MD5_exampleInst.lTotalByteSize
          + (1 + ((55 - (MD5_exampleInst.iBlockOffset : Int)) % 64).toNat + 8))
          % 18446744073709551616) :=
  ⟨by decide, by decide, C11_MD5_Final_length_field MD5_exampleInst (by decide) (by decide)⟩

/-! ## The steps of the block compression and their tables -/

theorem MD5_foldl_nested {α β γ : Type} (f : α → β → γ → γ) (l1 : List α) (l2 : List β)
    (r0 : γ) :
    l1.foldl (fun r a => l2.foldl (fun r b => f a b r) r) r0
      = (l1.flatMap (fun a => l2.map (fun b => (a, b)))).foldl (fun r p => f p.1 p.2 r) r0 := by
  induction l1 generalizing r0 with
  | nil => rfl
  | cons a rest ih =>
    rw [List.foldl_cons, ih, List.flatMap_cons, List.foldl_append, List.foldl_map]

theorem MD5_range_pairs :
    (List.range 4).flatMap (fun a => (List.range 16).map (fun b => (a, b)))
      = (List.range 64).map (fun i => (i / 16, i % 16)) := by
  decide

theorem MD5_Rounds_eq_steps (ab : List Nat) (r0 : MD5_Regs) :
    MD5_Rounds ab r0
      = (List.range 64).foldl (fun r i => MD5_Operation ab (i / 16) (i % 16) r) r0 := by
  unfold MD5_Rounds
  simp only [MD5_NUM_ROUNDS, MD5_NUM_OPERATIONS]
  rw [MD5_foldl_nested (fun a b r => MD5_Operation ab a b r), MD5_range_pairs, List.foldl_map]

/-- C21: each of the 64 steps of `MD5_ProcessBlock` is the specified step: step `i`, of
round `i / 16`, takes the working registers `(A, B, C, D)` to
`(D, (B + rotl (tmp, S[i])) mod 2^32, B, C)` with
`tmp = (A + aux (B, C, D) + T[i] + X[k(i)]) mod 2^32`, where `aux` is, by round,
`(B and C) or (not B and D)`, `(B and D) or (C and not D)`, `B xor C xor D`,
`C xor (B or not D)`; the two nested loops run these steps for `i = 0 .. 63` in order. -/
theorem C21_each_step_is_the_specified_step (ab : List Nat) (r : MD5_Regs) (i : Fin 64) :
    MD5_Operation ab (i.val / 16) (i.val % 16) r
      = { A := r.D,
          B := (r.B + RFC1321_rotl
                  ((r.A + RFC1321_aux (i.val / 16) r.B r.C r.D + MD5_adwTableT.getD i.val 0
                    + RFC1321_X ab (MD5_abTableK.getD i.val 0)) % 4294967296)
                  (MD5_abTableS.getD i.val 0)) % 4294967296,
          C := r.B,
          D := r.C } ∧
    RFC1321_aux 0 r.B r.C r.D = ((r.B &&& r.C) ||| ((4294967295 - r.B) &&& r.D)) ∧
    RFC1321_aux 1 r.B r.C r.D = ((r.B &&& r.D) ||| (r.C &&& (4294967295 - r.D))) ∧
    RFC1321_aux 2 r.B r.C r.D = (r.B ^^^ r.C ^^^ r.D) ∧
    RFC1321_aux 3 r.B r.C r.D = (r.C ^^^ (r.B ||| (4294967295 - r.D))) ∧
    MD5_Rounds ab r
      = (List.range 64).foldl (fun r i => MD5_Operation ab (i / 16) (i % 16) r) r := by
  refine ⟨?_, rfl, rfl, rfl, rfl, MD5_Rounds_eq_steps ab r⟩
  have hi := i.isLt
  have hidx : i.val % 16 + 16 * (i.val / 16) = i.val := by omega
  rw [MD5_Operation_eq_step ab _ _ r (by omega) (by omega)]
  unfold RFC1321_step RFC1321_op MD5_ksi
  simp only [hidx, RFC1321_T, Nat.add_sub_cancel]
  rw [Nat.add_right_comm (r.A + RFC1321_aux (i.val / 16) r.B r.C r.D)]

/-- C22: on a full buffer (`iBlockOffset = 64`) `MD5_ProcessBlock` sets each register
to the sum modulo `2^32` of its old value and the corresponding working register after
the 64 steps started from the old registers, sets `iBlockOffset` to 0 and leaves
`lTotalByteSize` and the buffer bytes unchanged. -/
theorem C22_MD5_ProcessBlock_effect (psInst : MD5_InstType) (ho : psInst.iBlockOffset = 64) :
    (MD5_ProcessBlock psInst).adwDigest
      = { A := (psInst.adwDigest.A
                + ((List.range 64).foldl
                    (fun r i => MD5_Operation psInst.uBlockBuffer (i / 16) (i % 16) r)
                    psInst.adwDigest).A) % 4294967296,
          B := (psInst.adwDigest.B
                + ((List.range 64).foldl
                    (fun r i => MD5_Operation psInst.uBlockBuffer (i / 16) (i % 16) r)
                    psInst.adwDigest).B) % 4294967296,
          C := (psInst.adwDigest.C
                + ((List.range 64).foldl
                    (fun r i => MD5_Operation psInst.uBlockBuffer (i / 16) (i % 16) r)
                    psInst.adwDigest).C) % 4294967296,
          D := (psInst.adwDigest.D
                + ((List.range 64).foldl
                    (fun r i => MD5_Operation psInst.uBlockBuffer (i / 16) (i % 16) r)
                    psInst.adwDigest).D) % 4294967296 } ∧
    (MD5_ProcessBlock psInst).iBlockOffset = 0 ∧
    (MD5_ProcessBlock psInst).lTotalByteSize = psInst.lTotalByteSize ∧
    (MD5_ProcessBlock psInst).uBlockBuffer = psInst.uBlockBuffer := by
  rw [MD5_ProcessBlock_of_eq psInst ho, MD5_compress_eq, MD5_Rounds_eq_steps]
  exact ⟨rfl, rfl, rfl, rfl⟩

theorem C22_MD5_ProcessBlock_effect_witness :
    MD5_exampleFullInst.iBlockOffset = 64 ∧
    ((MD5_ProcessBlock MD5_exampleFullInst).adwDigest
      = { A := (MD5_exampleFullInst.adwDigest.A
                + ((List.range 64).foldl
                    (fun r i => MD5_Operation MD5_exampleFullInst.uBlockBuffer (i / 16) (i % 16) r)
                    MD5_exampleFullInst.adwDigest).A) % 4294967296,
          B := (MD5_exampleFullInst.adwDigest.B
                + ((List.range 64).foldl
                    (fun r i => MD5_Operation MD5_exampleFullInst.uBlockBuffer (i / 16) (i % 16) r)
                    MD5_exampleFullInst.adwDigest).B) % 4294967296,
          C := (MD5_exampleFullInst.adwDigest.C
                + ((List.range 64).foldl
                    (fun r i => MD5_Operation MD5_exampleFullInst.uBlockBuffer (i / 16) (i % 16) r)
                    MD5_exampleFullInst.adwDigest).C) % 4294967296,
          D := (MD5_exampleFullInst.adwDigest.D
                + ((List.range 64).foldl
                    (fun r i => MD5_Operation MD5_exampleFullInst.uBlockBuffer (i / 16) (i % 16) r)
                    MD5_exampleFullInst.adwDigest).D) % 4294967296 } ∧
    (MD5_ProcessBlock MD5_exampleFullInst).iBlockOffset = 0 ∧
    (MD5_ProcessBlock MD5_exampleFullInst).lTotalByteSize = MD5_exampleFullInst.lTotalByteSize ∧
    (MD5_ProcessBlock MD5_exampleFullInst).uBlockBuffer = MD5_exampleFullInst.uBlockBuffer) :=
  ⟨by decide, C22_MD5_ProcessBlock_effect MD5_exampleFullInst (by decide)⟩

/-- C23: the block compression is applied to a full block only: from a state with
`iBlockOffset ≠ 64`, `MD5_ProcessBlock` leaves registers, counter, offset and buffer
unchanged. -/
theorem C23_MD5_ProcessBlock_only_when_full (psInst : MD5_InstType)
    (ho : psInst.iBlockOffset ≠ 64) : MD5_ProcessBlock psInst = psInst :=
  MD5_ProcessBlock_of_ne psInst ho

theorem C23_MD5_ProcessBlock_only_when_full_witness :
    MD5_exampleInst.iBlockOffset ≠ 64 ∧ MD5_ProcessBlock MD5_exampleInst = MD5_exampleInst :=
  ⟨by decide, C23_MD5_ProcessBlock_only_when_full MD5_exampleInst (by decide)⟩

/-- C24: the table `MD5_abTableK` is the closed-form message-word index: entry `i` is
`i` for `i < 16`, `(5 i + 1) mod 16` for `16 ≤ i < 32`, `(3 i + 5) mod 16` for
`32 ≤ i < 48` and `7 i mod 16` for `48 ≤ i < 64`; and it is the value the table-free
variant computes in 8-bit arithmetic for `i = bOperation + 16 * bRound`. -/
theorem C24_MD5_abTableK_closed_form (i : Fin 64) (bRound : Fin 4) (bOperation : Fin 16) :
    MD5_abTableK.getD i.val 0
      = (if i.val < 16 then i.val
         else if i.val < 32 then (5 * i.val + 1) % 16
         else if i.val < 48 then (3 * i.val + 5) % 16
         else (7 * i.val) % 16) ∧
    MD5_abTableK.getD (bOperation.val + 16 * bRound.val) 0
      = MD5_BlockIndex_computed bRound.val bOperation.val := by
  constructor
  · revert i; decide
  · revert bRound bOperation; decide

/-- C25: within each round the message-word index is a permutation: for every round
`r`, `j ↦ MD5_abTableK[16 r + j]` maps `0..15` into `0..15`, is injective and surjective,
so that each of the 16 message words is used exactly once in the round. -/
theorem C25_MD5_abTableK_round_permutation (r : Fin 4) :
    (∀ j : Fin 16, MD5_abTableK.getD (16 * r.val + j.val) 0 < 16) ∧
    (∀ j1 j2 : Fin 16,
      MD5_abTableK.getD (16 * r.val + j1.val) 0 = MD5_abTableK.getD (16 * r.val + j2.val) 0 →
        j1 = j2) ∧
    (∀ k : Fin 16, ∃ j : Fin 16, MD5_abTableK.getD (16 * r.val + j.val) 0 = k.val) ∧
    (∀ k : Fin 16,
      ((List.range 16).map (fun j => MD5_abTableK.getD (16 * r.val + j) 0)).count k.val = 1) := by
  revert r; decide

/-- C26: the table `MD5_abTableS` follows the specified cycle: entry `i` is element
`i mod 4` of `(7,12,17,22)` for `i < 16`, of `(5,9,14,20)` for `16 ≤ i < 32`, of
`(4,11,16,23)` for `32 ≤ i < 48` and of `(6,10,15,21)` for `48 ≤ i < 64`; and it is the
value the table-free variant selects for `i = bOperation + 16 * bRound`. -/
theorem C26_MD5_abTableS_cycle (i : Fin 64) (bRound : Fin 4) (bOperation : Fin 16) :
    MD5_abTableS.getD i.val 0
      = (if i.val < 16 then [7, 12, 17, 22]
         else if i.val < 32 then [5, 9, 14, 20]
         else if i.val < 48 then [4, 11, 16, 23]
         else [6, 10, 15, 21]).getD (i.val % 4) 0 ∧
    MD5_abTableS.getD (bOperation.val + 16 * bRound.val) 0
      = MD5_RotateCount_computed bRound.val bOperation.val := by
  constructor
  · revert i; decide
  · revert bRound bOperation; decide

theorem RFC1321_rotl_split (x n : Nat) (h0 : 0 < n) (h32 : n < 32) :
    RFC1321_rotl x n = 2 ^ n * (x % 2 ^ (32 - n)) + x / 2 ^ (32 - n) := by
  have hsplit : 2 ^ (32 - n) * 2 ^ n = 2 ^ 32 := by
    rw [← Nat.pow_add]; congr 1; omega
  have h232 : (2:Nat) ^ 32 = 4294967296 := by norm_num
  unfold RFC1321_rotl
  rw [← h232, ← hsplit, Nat.mul_mod_mul_right, Nat.mul_comm]

theorem RFC1321_rotl_lt (x n : Nat) (hx : x < 4294967296) (h0 : 0 < n) (h32 : n < 32) :
    RFC1321_rotl x n < 4294967296 := by
  have hsplit : 2 ^ (32 - n) * 2 ^ n = 2 ^ 32 := by
    rw [← Nat.pow_add]; congr 1; omega
  have h232 : (2:Nat) ^ 32 = 4294967296 := by norm_num
  have hlo : x / 2 ^ (32 - n) < 2 ^ n := by
    apply Nat.div_lt_of_lt_mul
    rw [hsplit]; omega
  have ha : x % 2 ^ (32 - n) < 2 ^ (32 - n) := Nat.mod_lt _ (Nat.two_pow_pos _)
  rw [RFC1321_rotl_split x n h0 h32]
  have h1 : 2 ^ n * (x % 2 ^ (32 - n) + 1) ≤ 2 ^ n * 2 ^ (32 - n) :=
    Nat.mul_le_mul_left _ ha
  rw [Nat.mul_comm (2 ^ n) (2 ^ (32 - n)), hsplit, h232, Nat.mul_add, Nat.mul_one] at h1
  omega

theorem RFC1321_rotl_testBit (x n j : Nat) (hx : x < 4294967296) (h0 : 0 < n) (h32 : n < 32)
    (hj : j < 32) :
    (RFC1321_rotl x n).testBit ((j + n) % 32) = x.testBit j := by
  have hsplit : 2 ^ (32 - n) * 2 ^ n = 2 ^ 32 := by
    rw [← Nat.pow_add]; congr 1; omega
  have hlo : x / 2 ^ (32 - n) < 2 ^ n := by
    apply Nat.div_lt_of_lt_mul
    rw [hsplit]; omega
  rw [RFC1321_rotl_split x n h0 h32, Nat.testBit_mul_pow_two_add _ hlo]
  by_cases hc : j + n < 32
  · have hm : (j + n) % 32 = j + n := Nat.mod_eq_of_lt hc
    rw [hm, if_neg (by omega), Nat.add_sub_cancel, Nat.testBit_mod_two_pow]
    have : j < 32 - n := by omega
    simp [this]
  · have hm : (j + n) % 32 = j + n - 32 := by omega
    rw [hm, if_pos (by omega), ← Nat.shiftRight_eq_div_pow, Nat.testBit_shiftRight]
    congr 1; omega

/-- C27: the routine `MD5_RotateLeft` is the 32-bit left rotation: for every 32-bit `x` and
every count `n` with `0 < n < 32`, `MD5_RotateLeft x n = (x * 2^n) mod 2^32 + x / 2^(32-n)`,
the result is a 32-bit value whose bit `(j + n) mod 32` is bit `j` of `x` for every
`j < 32`; every rotation amount of `MD5_abTableS` is such a count. -/
theorem C27_MD5_RotateLeft_is_rotation (x n : Nat) (hx : x < 4294967296) (h0 : 0 < n)
    (h32 : n < 32) :
    MD5_RotateLeft x n = (x * 2 ^ n) % 4294967296 + x / 2 ^ (32 - n) ∧
    MD5_RotateLeft x n < 4294967296 ∧
    (∀ j, j < 32 → (MD5_RotateLeft x n).testBit ((j + n) % 32) = x.testBit j) ∧
    (∀ i, i < 64 → 0 < MD5_abTableS.getD i 0 ∧ MD5_abTableS.getD i 0 < 32) := by
  rw [MD5_RotateLeft_eq_rotl x n hx h0 h32]
  exact ⟨rfl, RFC1321_rotl_lt x n hx h0 h32,
    fun j hj => RFC1321_rotl_testBit x n j hx h0 h32 hj, MD5_abTableS_range⟩

theorem C27_MD5_RotateLeft_is_rotation_witness :
    (0x80000001 : Nat) < 4294967296 ∧ 0 < 7 ∧ 7 < 32 ∧
    (MD5_RotateLeft 0x80000001 7 = (0x80000001 * 2 ^ 7) % 4294967296 + 0x80000001 / 2 ^ (32 - 7) ∧
     MD5_RotateLeft 0x80000001 7 < 4294967296 ∧
     (∀ j, j < 32 →
        (MD5_RotateLeft 0x80000001 7).testBit ((j + 7) % 32) = (0x80000001 : Nat).testBit j) ∧
     (∀ i, i < 64 → 0 < MD5_abTableS.getD i 0 ∧ MD5_abTableS.getD i 0 < 32)) :=
  ⟨by decide, by decide, by decide,
    C27_MD5_RotateLeft_is_rotation 0x80000001 7 (by decide) (by decide) (by decide)⟩

/-! ## The round constants and the sine function -/

theorem Sine_exp_I_sum (N : Nat) :
    ∑ m in Finset.range (2 * N), Complex.I ^ m / (m.factorial : ℂ)
      = ((∑ k in Finset.range N, (-1 : ℝ) ^ k / ((2 * k).factorial : ℝ) : ℝ) : ℂ)
        + ((∑ k in Finset.range N, (-1 : ℝ) ^ k / ((2 * k + 1).factorial : ℝ) : ℝ) : ℂ)
            * Complex.I := by
  induction N with
  | zero => simp
  | succ N ih =>
    have h2 : 2 * (N + 1) = 2 * N + 1 + 1 := by ring
    have h1 : Complex.I ^ (2 * N) = (-1) ^ N := by rw [pow_mul, Complex.I_sq]
    have h3 : Complex.I ^ (2 * N + 1) = (-1) ^ N * Complex.I := by rw [pow_succ, h1]
    rw [h2, Finset.sum_range_succ, Finset.sum_range_succ, ih, Finset.sum_range_succ,
      Finset.sum_range_succ, h1, h3]
    push_cast
    ring

theorem Sine_one_series (N : Nat) (hN : 0 < N) :
    |Real.cos 1 - ∑ k in Finset.range N, (-1 : ℝ) ^ k / ((2 * k).factorial : ℝ)|
        ≤ ((2 * N).succ : ℝ) * (((2 * N).factorial : ℝ) * ((2 * N : Nat) : ℝ))⁻¹ ∧
    |Real.sin 1 - ∑ k in Finset.range N, (-1 : ℝ) ^ k / ((2 * k + 1).factorial : ℝ)|
        ≤ ((2 * N).succ : ℝ) * (((2 * N).factorial : ℝ) * ((2 * N : Nat) : ℝ))⁻¹ := by
  have hI : Complex.abs Complex.I ≤ 1 := by simp
  have hb := @Complex.exp_bound Complex.I hI (2 * N) (by omega)
  rw [Sine_exp_I_sum N] at hb
  simp only [Complex.abs_I, one_pow, one_mul] at hb
  have he : Complex.exp Complex.I
      = ((Real.cos 1 : ℝ) : ℂ) + ((Real.sin 1 : ℝ) : ℂ) * Complex.I := by
    have := Complex.exp_mul_I ((1 : ℝ) : ℂ)
    rw [Complex.ofReal_one, one_mul] at this
    rw [this, Complex.ofReal_cos, Complex.ofReal_sin, Complex.ofReal_one]
  rw [he] at hb
  generalize hc : (∑ k in Finset.range N, (-1 : ℝ) ^ k / ((2 * k).factorial : ℝ)) = c at hb ⊢
  generalize hs : (∑ k in Finset.range N, (-1 : ℝ) ^ k / ((2 * k + 1).factorial : ℝ)) = s
    at hb ⊢
  have hz : ((Real.cos 1 : ℝ) : ℂ) + ((Real.sin 1 : ℝ) : ℂ) * Complex.I
        - ((c : ℂ) + (s : ℂ) * Complex.I)
      = ((Real.cos 1 - c : ℝ) : ℂ) + ((Real.sin 1 - s : ℝ) : ℂ) * Complex.I := by
    push_cast; ring
  rw [hz] at hb
  constructor
  · have h := Complex.abs_re_le_abs
      (((Real.cos 1 - c : ℝ) : ℂ) + ((Real.sin 1 - s : ℝ) : ℂ) * Complex.I)
    simp only [Complex.add_re, Complex.ofReal_re, Complex.mul_re, Complex.I_re, mul_zero,
      Complex.ofReal_im, Complex.I_im, mul_one, sub_zero, add_zero, zero_mul] at h
    exact le_trans h hb
  · have h := Complex.abs_im_le_abs
      (((Real.cos 1 - c : ℝ) : ℂ) + ((Real.sin 1 - s : ℝ) : ℂ) * Complex.I)
    simp only [Complex.add_im, Complex.ofReal_im, Complex.mul_im, Complex.I_re, mul_zero,
      Complex.ofReal_re, Complex.I_im, mul_one, zero_add, add_zero] at h
    exact le_trans h hb

theorem Sine_Enc_one_valid : Sine_Enc_valid Sine_Enc_one (Real.sin 1) (Real.cos 1) := by
  obtain ⟨hc, hs⟩ := Sine_one_series 13 (by norm_num)
  have hcs : (∑ k in Finset.range 13, (-1 : ℝ) ^ k / ((2 * k).factorial : ℝ))
      = 335229702128671164345673 / 620448401733239439360000 := by
    simp only [Finset.sum_range_succ, Finset.sum_range_zero, Nat.factorial]
    norm_num
  have hss : (∑ k in Finset.range 13, (-1 : ℝ) ^ k / ((2 * k + 1).factorial : ℝ))
      = 13052233190723859821607001 / 15511210043330985984000000 := by
    simp only [Finset.sum_range_succ, Finset.sum_range_zero, Nat.factorial]
    norm_num
  have herr : (((2 * 13 : Nat).succ : ℝ)
      * ((((2 * 13 : Nat).factorial : ℝ)) * (((2 * 13 : Nat) : Nat) : ℝ))⁻¹)
      = 1 / 388354740344138760192000000 := by
    simp only [Nat.factorial]
    norm_num
  rw [hcs, herr, abs_le] at hc
  rw [hss, herr, abs_le] at hs
  unfold Sine_Enc_valid Sine_Enc_one Sine_Q
  simp only
  push_cast
  refine ⟨?_, ?_, ?_, ?_⟩ <;> linarith [hc.1, hc.2, hs.1, hs.2]

theorem Sine_mulUp_sound (x c : ℝ) (b lo hi : Int) (hx : x ≤ (b : ℝ))
    (hlo : (lo : ℝ) ≤ c) (hhi : c ≤ (hi : ℝ)) (h0 : 0 ≤ lo) :
    x * c ≤ ((Sine_mulUp b lo hi : Int) : ℝ) := by
  have hc : (0 : ℝ) ≤ c := le_trans (by exact_mod_cast h0) hlo
  have h1 : x * c ≤ (b : ℝ) * c := mul_le_mul_of_nonneg_right hx hc
  unfold Sine_mulUp
  split
  · rename_i hb
    have hb0 : (0 : ℝ) ≤ (b : ℝ) := by exact_mod_cast hb
    push_cast
    exact le_trans h1 (mul_le_mul_of_nonneg_left hhi hb0)
  · rename_i hb
    have hb0 : (b : ℝ) ≤ 0 := by
      have : b ≤ 0 := by omega
      exact_mod_cast this
    push_cast
    exact le_trans h1 (mul_le_mul_of_nonpos_left hlo hb0)

theorem Sine_mulDown_sound (x c : ℝ) (a lo hi : Int) (hx : (a : ℝ) ≤ x)
    (hlo : (lo : ℝ) ≤ c) (hhi : c ≤ (hi : ℝ)) (h0 : 0 ≤ lo) :
    ((Sine_mulDown a lo hi : Int) : ℝ) ≤ x * c := by
  have hc : (0 : ℝ) ≤ c := le_trans (by exact_mod_cast h0) hlo
  have h1 : (a : ℝ) * c ≤ x * c := mul_le_mul_of_nonneg_right hx hc
  unfold Sine_mulDown
  split
  · rename_i ha
    have ha0 : (0 : ℝ) ≤ (a : ℝ) := by exact_mod_cast ha
    push_cast
    exact le_trans (mul_le_mul_of_nonneg_left hlo ha0) h1
  · rename_i ha
    have ha0 : (a : ℝ) ≤ 0 := by
      have : a ≤ 0 := by omega
      exact_mod_cast this
    push_cast
    exact le_trans (mul_le_mul_of_nonpos_left hhi ha0) h1

theorem Sine_Q_pos : (0 : ℝ) < (Sine_Q : ℝ) := by
  unfold Sine_Q; norm_num

theorem Sine_div_up (v : ℝ) (n : Int) (h : v * (Sine_Q : ℝ) ≤ (n : ℝ)) :
    v ≤ ((n / Sine_Q + 1 : Int) : ℝ) := by
  have hq : (0 : Int) < Sine_Q := by decide
  have h1 : n < (n / Sine_Q + 1) * Sine_Q := Int.lt_ediv_add_one_mul_self n hq
  have h2 : (n : ℝ) < ((n / Sine_Q + 1 : Int) : ℝ) * (Sine_Q : ℝ) := by exact_mod_cast h1
  exact le_of_lt (lt_of_mul_lt_mul_right (lt_of_le_of_lt h h2) (le_of_lt Sine_Q_pos))

theorem Sine_div_down (v : ℝ) (n : Int) (h : (n : ℝ) ≤ v * (Sine_Q : ℝ)) :
    ((n / Sine_Q : Int) : ℝ) ≤ v := by
  have hq : (0 : Int) < Sine_Q := by decide
  have h1 : n / Sine_Q * Sine_Q ≤ n := Int.ediv_mul_le n (by omega)
  have h2 : ((n / Sine_Q : Int) : ℝ) * (Sine_Q : ℝ) ≤ (n : ℝ) := by exact_mod_cast h1
  exact le_of_mul_le_mul_right (le_trans h2 h) Sine_Q_pos

theorem Sine_Enc_next_valid (e : Sine_Enc) (t : ℝ)
    (h : Sine_Enc_valid e (Real.sin t) (Real.cos t)) :
    Sine_Enc_valid (Sine_Enc_next e) (Real.sin (t + 1)) (Real.cos (t + 1)) := by
  obtain ⟨hsl, hsh, hcl, hch⟩ := h
  obtain ⟨h1sl, h1sh, h1cl, h1ch⟩ := Sine_Enc_one_valid
  have p1 : (0 : Int) ≤ Sine_Enc_one.sl := by decide
  have p2 : (0 : Int) ≤ Sine_Enc_one.cl := by decide
  have es : Real.sin (t + 1) * (Sine_Q : ℝ) * (Sine_Q : ℝ)
      = (Real.sin t * (Sine_Q : ℝ)) * (Real.cos 1 * (Sine_Q : ℝ))
        + (Real.cos t * (Sine_Q : ℝ)) * (Real.sin 1 * (Sine_Q : ℝ)) := by
    rw [Real.sin_add]; ring
  have ec : Real.cos (t + 1) * (Sine_Q : ℝ) * (Sine_Q : ℝ)
      = (Real.cos t * (Sine_Q : ℝ)) * (Real.cos 1 * (Sine_Q : ℝ))
        - (Real.sin t * (Sine_Q : ℝ)) * (Real.sin 1 * (Sine_Q : ℝ)) := by
    rw [Real.cos_add]; ring
  have uSC := Sine_mulUp_sound _ _ e.sh _ _ hsh h1cl h1ch p2
  have dSC := Sine_mulDown_sound _ _ e.sl _ _ hsl h1cl h1ch p2
  have uCS := Sine_mulUp_sound _ _ e.ch _ _ hch h1sl h1sh p1
  have dCS := Sine_mulDown_sound _ _ e.cl _ _ hcl h1sl h1sh p1
  have uCC := Sine_mulUp_sound _ _ e.ch _ _ hch h1cl h1ch p2
  have dCC := Sine_mulDown_sound _ _ e.cl _ _ hcl h1cl h1ch p2
  have uSS := Sine_mulUp_sound _ _ e.sh _ _ hsh h1sl h1sh p1
  have dSS := Sine_mulDown_sound _ _ e.sl _ _ hsl h1sl h1sh p1
  unfold Sine_Enc_valid Sine_Enc_next
  refine ⟨?_, ?_, ?_, ?_⟩
  · apply Sine_div_down
    rw [es]; push_cast; linarith
  · apply Sine_div_up
    rw [es]; push_cast; linarith
  · apply Sine_div_down
    rw [ec]; push_cast; linarith
  · apply Sine_div_up
    rw [ec]; push_cast; linarith

theorem Sine_Enc_at_valid (k : Nat) :
    Sine_Enc_valid (Sine_Enc_at k) (Real.sin ((k : ℝ) + 1)) (Real.cos ((k : ℝ) + 1)) := by
  induction k with
  | zero =>
    have h := Sine_Enc_one_valid
    simp only [Nat.cast_zero, zero_add]
    exact h
  | succ k ih =>
    have h := Sine_Enc_next_valid _ _ ih
    rw [Nat.cast_succ]
    exact h

theorem Sine_Enc_floor_sound (e : Sine_Enc) (x y : ℝ) (t : Nat) (h : Sine_Enc_valid e x y)
    (hf : Sine_Enc_floor e t = true) :
    ⌊(4294967296 : ℝ) * |x|⌋₊ = t := by
  obtain ⟨hsl, hsh, _, _⟩ := h
  have hQ := Sine_Q_pos
  have hnn : (0 : ℝ) ≤ 4294967296 * |x| := by positivity
  rw [Nat.floor_eq_iff hnn]
  unfold Sine_Enc_floor at hf
  simp only [Bool.or_eq_true, Bool.and_eq_true, decide_eq_true_eq] at hf
  rcases hf with ⟨⟨h0, h1⟩, h2⟩ | ⟨⟨h0, h1⟩, h2⟩
  · have h0r : (0 : ℝ) ≤ (e.sl : ℝ) := by exact_mod_cast h0
    have h1r : (t : ℝ) * (Sine_Q : ℝ) ≤ 4294967296 * (e.sl : ℝ) := by exact_mod_cast h1
    have h2r : 4294967296 * (e.sh : ℝ) < ((t : ℝ) + 1) * (Sine_Q : ℝ) := by exact_mod_cast h2
    have hx0 : 0 ≤ x := by
      have : 0 ≤ x * (Sine_Q : ℝ) := le_trans h0r hsl
      exact nonneg_of_mul_nonneg_left this hQ
    rw [abs_of_nonneg hx0]
    constructor
    · apply le_of_mul_le_mul_right _ hQ
      linarith
    · apply lt_of_mul_lt_mul_right _ (le_of_lt hQ)
      linarith
  · have h0r : (e.sh : ℝ) ≤ 0 := by exact_mod_cast h0
    have h1r : (t : ℝ) * (Sine_Q : ℝ) ≤ 4294967296 * (-(e.sh : ℝ)) := by exact_mod_cast h1
    have h2r : 4294967296 * (-(e.sl : ℝ)) < ((t : ℝ) + 1) * (Sine_Q : ℝ) := by
      exact_mod_cast h2
    have hx0 : x ≤ 0 := by
      have : x * (Sine_Q : ℝ) ≤ 0 := le_trans hsh h0r
      exact nonpos_of_mul_nonpos_left this hQ
    rw [abs_of_nonpos hx0]
    constructor
    · apply le_of_mul_le_mul_right _ hQ
      linarith
    · apply lt_of_mul_lt_mul_right _ (le_of_lt hQ)
      linarith

theorem MD5_adwTableT_check_true : MD5_adwTableT_check = true := by
  decide!

/-- C28: the literal table of round constants is its defining formula: for every `i` in
`0 .. 63`, the entry `MD5_adwTableT[i]`, which is the value `MD5_GetValueT i` returns, is
`floor (2^32 * |sin (i + 1)|)`, with `i + 1` in radians and `sin` the real sine function. -/
theorem C28_MD5_adwTableT_is_sine_formula (i : Fin 64) :
    MD5_GetValueT i.val = MD5_adwTableT.getD i.val 0 ∧
    MD5_adwTableT.getD i.val 0
      = ⌊(4294967296 : ℝ) * |Real.sin ((i.val : ℝ) + 1)|⌋₊ := by
  refine ⟨rfl, ?_⟩
  have hall := MD5_adwTableT_check_true
  unfold MD5_adwTableT_check at hall
  rw [List.all_eq_true] at hall
  have hi := hall i.val (List.mem_range.mpr i.isLt)
  exact (Sine_Enc_floor_sound _ _ _ _ (Sine_Enc_at_valid i.val) hi).symm

/-! ## `MD5_Update` below a block boundary and on a buffer marked full -/

theorem MD5_Update_small (s : MD5_InstType) (data : List Nat)
    (hbuf : s.uBlockBuffer.length = 64) (ho : s.iBlockOffset + data.length < 64) :
    MD5_Update s data data.length
      = { s with
          lTotalByteSize := (s.lTotalByteSize + data.length) % 18446744073709551616,
          uBlockBuffer :=
            s.uBlockBuffer.take s.iBlockOffset ++ data
              ++ s.uBlockBuffer.drop (s.iBlockOffset + data.length),
          iBlockOffset := s.iBlockOffset + data.length } := by
  rw [MD5_Update_eq_foldl s data (by omega) hbuf (by omega),
    MD5_pushByte_foldl_chunk data s hbuf (by omega) (by omega), MD5_ProcessBlock_of_ne]
  · unfold MD5_MEMCPY
    rw [List.take_length]
  · show s.iBlockOffset + data.length ≠ 64
    omega

theorem MD5_getD_MEMCPY_inside (buf data : List Nat) (o j : Nat) (ho : o ≤ buf.length)
    (hj : j < data.length) :
    (buf.take o ++ data ++ buf.drop (o + data.length)).getD (o + j) 0 = data.getD j 0 := by
  have hl : (buf.take o).length = o := by simp; omega
  rw [List.append_assoc, List.getD_append_right _ _ _ _ (by omega), hl, Nat.add_sub_cancel_left,
    List.getD_append _ _ _ _ hj]

theorem MD5_getD_MEMCPY_below (buf data : List Nat) (o i : Nat) (ho : o ≤ buf.length)
    (hi : i < o) :
    (buf.take o ++ data ++ buf.drop (o + data.length)).getD i 0 = buf.getD i 0 := by
  have hl : (buf.take o).length = o := by simp; omega
  rw [List.append_assoc, List.getD_append _ _ _ _ (by omega), List.getD_eq_getElem?_getD,
    List.getD_eq_getElem?_getD, List.getElem?_take_of_lt hi]

theorem MD5_getD_MEMCPY_above (buf data : List Nat) (o i : Nat) (ho : o ≤ buf.length)
    (hi : o + data.length ≤ i) :
    (buf.take o ++ data ++ buf.drop (o + data.length)).getD i 0 = buf.getD i 0 := by
  have hl : (buf.take o ++ data).length = o + data.length := by simp; omega
  rw [List.getD_append_right _ _ _ _ (by omega), hl, List.getD_eq_getElem?_getD,
    List.getD_eq_getElem?_getD, List.getElem?_drop]
  congr 2; omega

/-- C29: the registers are mutated only by whole-block compression: from a state with
`iBlockOffset = o < 64` and for data of length `n` with `o + n < 64`, `MD5_Update` leaves
`adwDigest` unchanged, writes the `n` data bytes to the buffer positions `o .. o+n-1`,
leaves every other buffer byte unchanged and sets `iBlockOffset` to `o + n`. -/
theorem C29_MD5_Update_below_block_boundary (psInst : MD5_InstType) (pbData : List Nat)
    (hbuf : psInst.uBlockBuffer.length = 64)
    (ho : psInst.iBlockOffset + pbData.length < 64) :
    (MD5_Update psInst pbData pbData.length).adwDigest = psInst.adwDigest ∧
    (MD5_Update psInst pbData pbData.length).iBlockOffset
      = psInst.iBlockOffset + pbData.length ∧
    (MD5_Update psInst pbData pbData.length).uBlockBuffer.length = 64 ∧
    (∀ j, j < pbData.length →
      (MD5_Update psInst pbData pbData.length).uBlockBuffer.getD (psInst.iBlockOffset + j) 0
        = pbData.getD j 0) ∧
    (∀ i, i < psInst.iBlockOffset ∨ psInst.iBlockOffset + pbData.length ≤ i →
      (MD5_Update psInst pbData pbData.length).uBlockBuffer.getD i 0
        = psInst.uBlockBuffer.getD i 0) := by
  rw [MD5_Update_small psInst pbData hbuf ho]
  refine ⟨rfl, rfl, ?_, ?_, ?_⟩
  · show (psInst.uBlockBuffer.take psInst.iBlockOffset ++ pbData
        ++ psInst.uBlockBuffer.drop (psInst.iBlockOffset + pbData.length)).length = 64
    simp only [List.length_append, List.length_take, List.length_drop]
    omega
  · intro j hj
    exact MD5_getD_MEMCPY_inside _ _ _ _ (by omega) hj
  · intro i hi
    rcases hi with hi | hi
    · exact MD5_getD_MEMCPY_below _ _ _ _ (by omega) hi
    · exact MD5_getD_MEMCPY_above _ _ _ _ (by omega) hi

theorem C29_MD5_Update_below_block_boundary_witness :
    MD5_exampleInst.uBlockBuffer.length = 64 ∧
    MD5_exampleInst.iBlockOffset + [1, 2, 3].length < 64 ∧
    ((MD5_Update MD5_exampleInst [1, 2, 3] [1, 2, 3].length).adwDigest
        = MD5_exampleInst.adwDigest ∧
     (MD5_Update MD5_exampleInst [1, 2, 3] [1, 2, 3].length).iBlockOffset
        = MD5_exampleInst.iBlockOffset + [1, 2, 3].length ∧
     (MD5_Update MD5_exampleInst [1, 2, 3] [1, 2, 3].length).uBlockBuffer.length = 64 ∧
     (∀ j, j < [1, 2, 3].length →
        (MD5_Update MD5_exampleInst [1, 2, 3] [1, 2, 3].length).uBlockBuffer.getD
            (MD5_exampleInst.iBlockOffset + j) 0
          = [1, 2, 3].getD j 0) ∧
     (∀ i, i < MD5_exampleInst.iBlockOffset ∨
          MD5_exampleInst.iBlockOffset + [1, 2, 3].length ≤ i →
        (MD5_Update MD5_exampleInst [1, 2, 3] [1, 2, 3].length).uBlockBuffer.getD i 0
          = MD5_exampleInst.uBlockBuffer.getD i 0)) :=
  ⟨by decide, by decide,
    C29_MD5_Update_below_block_boundary MD5_exampleInst [1, 2, 3] (by decide) (by decide)⟩

theorem MD5_Update_on_full (s : MD5_InstType) (data : List Nat) (n : Nat)
    (ho : s.iBlockOffset = 64) :
    MD5_Update s data n = MD5_Update (MD5_ProcessBlock s) data n := by
  have hpb := MD5_ProcessBlock_of_eq s ho
  have hl : (MD5_BLOCK_SIZE + 65536 - s.iBlockOffset) % 256 = 0 := by
    rw [ho]; rfl
  have ho2 : (MD5_ProcessBlock s).iBlockOffset = 0 := by rw [hpb]
  have hl2 : (MD5_BLOCK_SIZE + 65536 - (MD5_ProcessBlock s).iBlockOffset) % 256 = 64 := by
    rw [ho2]; rfl
  unfold MD5_Update
  simp only [hl, hl2, if_true]
  rw [if_neg (by decide), MD5_ProcessBlock_setCounter]
  generalize hm : n % 65536 = m
  by_cases hge : m ≥ 64
  · rw [if_pos hge]
    obtain ⟨f, hf⟩ : ∃ f, m = f + 1 := ⟨m - 1, by omega⟩
    have hstep : MD5_Update_while (f + 1)
          { MD5_ProcessBlock s with
            lTotalByteSize := (s.lTotalByteSize + m) % 18446744073709551616 } data m
        = MD5_Update_while f
            (MD5_ProcessBlock
              { MD5_ProcessBlock s with
                lTotalByteSize := (s.lTotalByteSize + m) % 18446744073709551616,
                uBlockBuffer := MD5_MEMCPY (MD5_ProcessBlock s).uBlockBuffer
                  (MD5_ProcessBlock s).iBlockOffset data 64,
                iBlockOffset := ((MD5_ProcessBlock s).iBlockOffset + 64) % 65536 })
            (data.drop 64) (m - 64) := by
      have hc : (if m > MD5_BLOCK_SIZE then MD5_BLOCK_SIZE else m) = 64 := by
        simp only [MD5_BLOCK_SIZE]; split <;> omega
      rw [MD5_Update_while]
      simp only [hc]
      rw [if_pos (by omega)]
    nth_rewrite 1 [hf]
    rw [hstep, MD5_Update_while_fuel f (m - 64) _ _ (m - 64) (by omega) (Nat.le_refl _)]
    have hoff : ((MD5_ProcessBlock s).iBlockOffset + 64) % 65536 = MD5_BLOCK_SIZE := by
      rw [ho2]; rfl
    rw [hoff, MD5_ProcessBlock_counter]
  · rw [if_neg hge, MD5_ProcessBlock_counter]

/-- C30: invoked on a state whose buffer is already marked full (`iBlockOffset = 64`),
`MD5_Update` compresses the pending block first and then proceeds normally: for every such
state `s`, every data and every length `n` (in particular every `n ≤ 65535`),
`MD5_Update s data n = MD5_Update (MD5_ProcessBlock s) data n`. -/
theorem C30_MD5_Update_on_full_buffer (psInst : MD5_InstType) (pbData : List Nat)
    (iDataLen : Nat) (ho : psInst.iBlockOffset = 64) :
    MD5_Update psInst pbData iDataLen
      = MD5_Update (MD5_ProcessBlock psInst) pbData iDataLen :=
  MD5_Update_on_full psInst pbData iDataLen ho

theorem C30_MD5_Update_on_full_buffer_witness :
    MD5_exampleFullInst.iBlockOffset = 64 ∧
    MD5_Update MD5_exampleFullInst (List.replicate 100 7) 100
      = MD5_Update (MD5_ProcessBlock MD5_exampleFullInst) (List.replicate 100 7) 100 :=
  ⟨by decide,
    C30_MD5_Update_on_full_buffer MD5_exampleFullInst (List.replicate 100 7) 100 (by decide)⟩

/-! ## The state after `MD5_Final` and the whole state under `MD5_Update` -/

/-- C31: from a state with `iBlockOffset = o < 64` and byte counter `c`, `MD5_Final` leaves
the buffer offset 0 and the counter `(c + 1 + ((55 - o) mod 64) + 8) mod 2^64`; hence,
when `o = c mod 64`, the counter after `MD5_Final` is a multiple of 64. -/
theorem C31_MD5_Final_offset_and_counter (psInst : MD5_InstType)
    (hbuf : psInst.uBlockBuffer.length = 64) (ho : psInst.iBlockOffset < 64) :
    (MD5_Final psInst).iBlockOffset = 0 ∧
    (MD5_Final psInst).lTotalByteSize
      = (psInst.lTotalByteSize + 1 + ((55 - (psInst.iBlockOffset : Int)) % 64).toNat + 8)
          % 18446744073709551616 ∧
    (psInst.iBlockOffset = psInst.lTotalByteSize % 64 →
      (MD5_Final psInst).lTotalByteSize % 64 = 0) := by
  obtain ⟨_, _, _, h0, hc⟩ := MD5_Final_last_block psInst hbuf ho
  unfold RFC1321_zeroCount at hc
  refine ⟨h0, ?_, ?_⟩
  · omega
  · intro hoc
    omega

theorem C31_MD5_Final_offset_and_counter_witness :
    MD5_exampleInst.uBlockBuffer.length = 64 ∧ MD5_exampleInst.iBlockOffset < 64 ∧
    ((MD5_Final MD5_exampleInst).iBlockOffset = 0 ∧
     (MD5_Final MD5_exampleInst).lTotalByteSize
       = (MD5_exampleInst.lTotalByteSize + 1
            + ((55 - (MD5_exampleInst.iBlockOffset : Int)) % 64).toNat + 8)
           % 18446744073709551616 ∧
     (MD5_exampleInst.iBlockOffset = MD5_exampleInst.lTotalByteSize % 64 →
       (MD5_Final MD5_exampleInst).lTotalByteSize % 64 = 0)) :=
  ⟨by decide, by decide,
    C31_MD5_Final_offset_and_counter MD5_exampleInst (by decide) (by decide)⟩

theorem MD5_Update_eq_feed_ProcessBlock (s : MD5_InstType) (data : List Nat)
    (hlen : data.length < 65536) (hbuf : s.uBlockBuffer.length = 64)
    (ho : s.iBlockOffset ≤ 64) :
    MD5_Update s data data.length = MD5_feed (MD5_ProcessBlock s) data := by
  by_cases h64 : s.iBlockOffset = 64
  · rw [MD5_Update_on_full s data data.length h64]
    apply MD5_Update_eq_feed _ _ hlen
    · rw [MD5_ProcessBlock_buffer]; exact hbuf
    · rw [MD5_ProcessBlock_offset, if_pos h64]; decide
  · rw [MD5_ProcessBlock_of_ne s h64]
    exact MD5_Update_eq_feed s data hlen hbuf (by omega)

/-- C32: feeding is a homomorphism on the whole state: for every state with
`iBlockOffset ≤ 64` and all byte sequences `a`, `b` with `|a| + |b| ≤ 65535`, feeding
`a` and then `b` with `MD5_Update` gives the same state, in every field, as feeding
`a ++ b` in one call. -/
theorem C32_MD5_Update_append (psInst : MD5_InstType) (a b : List Nat)
    (hbuf : psInst.uBlockBuffer.length = 64) (ho : psInst.iBlockOffset ≤ 64)
    (hlen : a.length + b.length ≤ 65535) :
    MD5_Update (MD5_Update psInst a a.length) b b.length
      = MD5_Update psInst (a ++ b) (a.length + b.length) := by
  have hpb : (MD5_ProcessBlock psInst).uBlockBuffer.length = 64 := by
    rw [MD5_ProcessBlock_buffer]; exact hbuf
  have hpo : (MD5_ProcessBlock psInst).iBlockOffset < 64 := by
    rw [MD5_ProcessBlock_offset]; split <;> omega
  obtain ⟨i1, i2, _⟩ := MD5_feed_inv (MD5_ProcessBlock psInst) a hpb hpo
  have i3 : (MD5_feed (MD5_ProcessBlock psInst) a).iBlockOffset < 64 := by
    rw [i2]; exact Nat.mod_lt _ (by decide)
  rw [MD5_Update_eq_feed_ProcessBlock psInst a (by omega) hbuf ho,
    MD5_Update_eq_feed _ b (by omega) i1 i3, MD5_feed_append, ← List.length_append,
    MD5_Update_eq_feed_ProcessBlock psInst (a ++ b) (by rw [List.length_append]; omega) hbuf ho]

theorem C32_MD5_Update_append_witness :
    MD5_exampleFullInst.uBlockBuffer.length = 64 ∧ MD5_exampleFullInst.iBlockOffset ≤ 64 ∧
    [1, 2, 3].length + [4, 5].length ≤ 65535 ∧
    MD5_Update (MD5_Update MD5_exampleFullInst [1, 2, 3] [1, 2, 3].length) [4, 5] [4, 5].length
      = MD5_Update MD5_exampleFullInst ([1, 2, 3] ++ [4, 5]) ([1, 2, 3].length + [4, 5].length) :=
  ⟨by decide, by decide, by decide,
    C32_MD5_Update_append MD5_exampleFullInst [1, 2, 3] [4, 5] (by decide) (by decide)
      (by decide)⟩

/-! ## The buffer offset is the byte counter modulo 64 -/

theorem MD5_Update_offset_counter (s : MD5_InstType) (data : List Nat) (n : Nat)
    (h : s.iBlockOffset = s.lTotalByteSize % 64) :
    (MD5_Update s data n).iBlockOffset = (MD5_Update s data n).lTotalByteSize % 64 := by
  rw [MD5_Update_offset s data n (by omega), MD5_Update_counter]
  omega

theorem MD5_UpdateByte_offset_counter (s : MD5_InstType) (v n : Nat)
    (h : s.iBlockOffset = s.lTotalByteSize % 64) :
    (MD5_UpdateByte s v n).iBlockOffset = (MD5_UpdateByte s v n).lTotalByteSize % 64 := by
  rw [MD5_UpdateByte_eq_Update_gen]
  exact MD5_Update_offset_counter s _ _ h

theorem MD5_Final_eq_beforeLength (s : MD5_InstType) :
    MD5_Final s
      = MD5_Update (MD5_Final_beforeLength s)
          (MD5_bytesOfUINT64 ((s.lTotalByteSize * 8) % 18446744073709551616)) 8 := rfl

theorem MD5_Final_offset_counter (s : MD5_InstType)
    (h : s.iBlockOffset = s.lTotalByteSize % 64) :
    (MD5_Final s).iBlockOffset = (MD5_Final s).lTotalByteSize % 64 := by
  rw [MD5_Final_eq_beforeLength]
  apply MD5_Update_offset_counter
  have h2 : (MD5_Final_beforeZeroPad s).iBlockOffset
      = (MD5_Final_beforeZeroPad s).lTotalByteSize % 64 := by
    unfold MD5_Final_beforeZeroPad
    simp only
    split
    · exact MD5_UpdateByte_offset_counter _ _ _ (MD5_UpdateByte_offset_counter _ _ _ h)
    · exact MD5_UpdateByte_offset_counter _ _ _ h
  unfold MD5_Final_beforeLength
  split
  · exact MD5_UpdateByte_offset_counter _ _ _ h2
  · exact h2

theorem MD5_Reachable_offset_counter (s : MD5_InstType) (h : MD5_Reachable s) :
    s.iBlockOffset = s.lTotalByteSize % 64 := by
  induction h with
  | init s0 => rfl
  | update s0 data n _ ih => exact MD5_Update_offset_counter s0 data n ih
  | updateByte s0 v n _ ih => exact MD5_UpdateByte_offset_counter s0 v n ih
  | final s0 _ ih => exact MD5_Final_offset_counter s0 ih
  | compute s0 data n =>
    exact MD5_Final_offset_counter _ (MD5_Update_offset_counter (MD5_Init s0) data n rfl)

/-- C33: in every state reached from `MD5_Init` by any sequence of `MD5_Update`,
`MD5_UpdateByte` and `MD5_Final` calls (and `MD5_Compute`, which is such a sequence),
`iBlockOffset = lTotalByteSize mod 64`; in particular `iBlockOffset < 64` at every
operation boundary. -/
theorem C33_offset_is_counter_mod_64 (psInst : MD5_InstType) (h : MD5_Reachable psInst) :
    psInst.iBlockOffset = psInst.lTotalByteSize % 64 ∧ psInst.iBlockOffset < 64 := by
  have h1 := MD5_Reachable_offset_counter psInst h
  exact ⟨h1, by omega⟩

theorem C33_offset_is_counter_mod_64_witness :
    MD5_Reachable
      (MD5_Final (MD5_UpdateByte (MD5_Update (MD5_Init MD5_exampleInst) [1, 2, 3] 3) 7 100)) ∧
    ((MD5_Final (MD5_UpdateByte (MD5_Update (MD5_Init MD5_exampleInst) [1, 2, 3] 3) 7 100)).iBlockOffset
      = (MD5_Final (MD5_UpdateByte (MD5_Update (MD5_Init MD5_exampleInst) [1, 2, 3] 3) 7 100)).lTotalByteSize % 64 ∧
     (MD5_Final (MD5_UpdateByte (MD5_Update (MD5_Init MD5_exampleInst) [1, 2, 3] 3) 7 100)).iBlockOffset < 64) :=
  ⟨MD5_Reachable.final _ (MD5_Reachable.updateByte _ _ _
      (MD5_Reachable.update _ _ _ (MD5_Reachable.init _))),
    C33_offset_is_counter_mod_64 _ (MD5_Reachable.final _ (MD5_Reachable.updateByte _ _ _
      (MD5_Reachable.update _ _ _ (MD5_Reachable.init _))))⟩

/-! ## `MD5_Compute` and the prior contents of the instance -/

/-- C34: the digest `MD5_Compute` produces does not depend on the prior contents of the
instance: for any two instance states (arbitrary registers, counter, offset and stale
buffer bytes) and every message of at most 65535 bytes, the two computations leave the
same `adwDigest`, although `MD5_Init` does not clear the buffer. -/
theorem C34_MD5_Compute_ignores_prior_state (psInst1 psInst2 : MD5_InstType)
    (pbMsg : List Nat) (hM : pbMsg.length < 65536)
    (hbuf1 : psInst1.uBlockBuffer.length = 64) (hbuf2 : psInst2.uBlockBuffer.length = 64) :
    (MD5_Compute psInst1 pbMsg pbMsg.length).adwDigest
      = (MD5_Compute psInst2 pbMsg pbMsg.length).adwDigest ∧
    (MD5_Init psInst1).uBlockBuffer = psInst1.uBlockBuffer := by
  rw [(MD5_Compute_digest psInst1 pbMsg hM hbuf1).1, (MD5_Compute_digest psInst2 pbMsg hM hbuf2).1]
  exact ⟨rfl, rfl⟩

theorem C34_MD5_Compute_ignores_prior_state_witness :
    [97, 98, 99].length < 65536 ∧ MD5_exampleInst.uBlockBuffer.length = 64 ∧
    MD5_exampleFullInst.uBlockBuffer.length = 64 ∧
    ((MD5_Compute MD5_exampleInst [97, 98, 99] [97, 98, 99].length).adwDigest
      = (MD5_Compute MD5_exampleFullInst [97, 98, 99] [97, 98, 99].length).adwDigest ∧
     (MD5_Init MD5_exampleInst).uBlockBuffer = MD5_exampleInst.uBlockBuffer) :=
  ⟨by decide, by decide, by decide,
    C34_MD5_Compute_ignores_prior_state MD5_exampleInst MD5_exampleFullInst [97, 98, 99]
      (by decide) (by decide) (by decide)⟩

/-! ## The copies into the block buffer -/

theorem MD5_Update_while_traced_fst (fuel : Nat) (p : MD5_InstType × List MD5_CopyRecord)
    (data : List Nat) (src n : Nat) :
    (MD5_Update_while_traced fuel p data src n).1 = MD5_Update_while fuel p.1 data n := by
  induction fuel generalizing p data src n with
  | zero => rfl
  | succ fuel ih =>
    unfold MD5_Update_while_traced MD5_Update_while
    split
    · rw [ih]
    · rfl

theorem MD5_Update_traced_fst (s : MD5_InstType) (data : List Nat) (n : Nat) :
    (MD5_Update_traced s data n).1 = MD5_Update s data n := by
  unfold MD5_Update_traced MD5_Update
  simp only
  split
  · rw [MD5_Update_while_traced_fst]
  · split
    · rw [MD5_Update_while_traced_fst]
    · rw [MD5_Update_while_traced_fst]

theorem MD5_Update_while_traced_snd (fuel : Nat) (p : MD5_InstType × List MD5_CopyRecord)
    (data : List Nat) (src n : Nat) (hfuel : n ≤ fuel)
    (ho : p.1.iBlockOffset = 0 ∨ p.1.iBlockOffset + n < 64) :
    ∃ t, (MD5_Update_while_traced fuel p data src n).2 = p.2 ++ t ∧
      (∀ r ∈ t, r.dst + r.size ≤ 64) ∧
      t.flatMap (fun r => List.range' r.src r.size) = List.range' src n := by
  induction fuel generalizing p data src n with
  | zero =>
    have hn : n = 0 := by omega
    subst hn
    exact ⟨[], by simp [MD5_Update_while_traced], by simp, by simp⟩
  | succ fuel ih =>
    unfold MD5_Update_while_traced
    by_cases hz : n = 0
    · subst hz
      simp only [ne_eq, not_true_eq_false, if_false]
      exact ⟨[], by simp, by simp, by simp⟩
    · simp only [ne_eq, hz, not_false_eq_true, if_true, MD5_BLOCK_SIZE]
      generalize hk : (if n > 64 then 64 else n) = k
      have hk1 : 1 ≤ k := by split at hk <;> omega
      have hk2 : k ≤ n := by split at hk <;> omega
      have hk3 : p.1.iBlockOffset + k ≤ 64 := by split at hk <;> omega
      have hmod : (p.1.iBlockOffset + k) % 65536 = p.1.iBlockOffset + k := by omega
      rw [hmod]
      have hoff := MD5_ProcessBlock_offset
        { p.1 with uBlockBuffer := MD5_MEMCPY p.1.uBlockBuffer p.1.iBlockOffset data k,
                   iBlockOffset := p.1.iBlockOffset + k }
      simp only at hoff
      obtain ⟨t, ht, hb, hr⟩ := ih
        (MD5_ProcessBlock
            { p.1 with uBlockBuffer := MD5_MEMCPY p.1.uBlockBuffer p.1.iBlockOffset data k,
                       iBlockOffset := p.1.iBlockOffset + k },
          p.2 ++ [{ dst := p.1.iBlockOffset, src := src, size := k }])
        (data.drop k) (src + k) (n - k) (by omega)
        (by simp only [hoff]; split <;> split at hk <;> omega)
      refine ⟨{ dst := p.1.iBlockOffset, src := src, size := k } :: t, ?_, ?_, ?_⟩
      · rw [ht]; simp
      · intro r hr
        rcases List.mem_cons.mp hr with h | h
        · subst h; exact hk3
        · exact hb r h
      · rw [List.flatMap_cons, hr]
        simp only
        rw [List.range'_append_1]
        congr 1; omega

theorem MD5_Update_traced_snd (s : MD5_InstType) (data : List Nat) (n : Nat)
    (ho : s.iBlockOffset ≤ 64) :
    (∀ r ∈ (MD5_Update_traced s data n).2, r.dst + r.size ≤ 64) ∧
    (MD5_Update_traced s data n).2.flatMap (fun r => List.range' r.src r.size)
      = List.range (n % 65536) := by
  unfold MD5_Update_traced
  have hl : (MD5_BLOCK_SIZE + 65536 - s.iBlockOffset) % 256 = 64 - s.iBlockOffset := by
    simp only [MD5_BLOCK_SIZE]; omega
  simp only [hl]
  rw [List.range_eq_range']
  split
  · rename_i h0
    have hoff := MD5_ProcessBlock_offset
      { s with lTotalByteSize := (s.lTotalByteSize + n % 65536) % 18446744073709551616 }
    simp only at hoff
    obtain ⟨t, ht, hb, hr⟩ := MD5_Update_while_traced_snd (n % 65536)
      (MD5_ProcessBlock
          { s with lTotalByteSize := (s.lTotalByteSize + n % 65536) % 18446744073709551616 },
        []) data 0 (n % 65536) (Nat.le_refl _)
      (Or.inl (by simp only [hoff]; split <;> omega))
    rw [ht, List.nil_append]
    exact ⟨hb, hr⟩
  · split
    · rename_i h0 hge
      have hoff := MD5_ProcessBlock_offset
        { s with lTotalByteSize := (s.lTotalByteSize + n % 65536) % 18446744073709551616,
                 uBlockBuffer := MD5_MEMCPY s.uBlockBuffer s.iBlockOffset data
                   (64 - s.iBlockOffset),
                 iBlockOffset := MD5_BLOCK_SIZE }
      simp only [MD5_BLOCK_SIZE, if_true] at hoff
      simp only [MD5_BLOCK_SIZE]
      obtain ⟨t, ht, hb, hr⟩ := MD5_Update_while_traced_snd (n % 65536 - (64 - s.iBlockOffset))
        (MD5_ProcessBlock
            { s with lTotalByteSize := (s.lTotalByteSize + n % 65536) % 18446744073709551616,
                     uBlockBuffer := MD5_MEMCPY s.uBlockBuffer s.iBlockOffset data
                       (64 - s.iBlockOffset),
                     iBlockOffset := 64 },
          [{ dst := s.iBlockOffset, src := 0, size := 64 - s.iBlockOffset }])
        (data.drop (64 - s.iBlockOffset)) (64 - s.iBlockOffset)
        (n % 65536 - (64 - s.iBlockOffset)) (Nat.le_refl _) (Or.inl hoff)
      rw [ht]
      constructor
      · intro r hr0
        rcases List.mem_append.mp hr0 with h | h
        · rw [List.mem_singleton] at h
          subst h
          show s.iBlockOffset + (64 - s.iBlockOffset) ≤ 64
          omega
        · exact hb r h
      · rw [List.flatMap_append, hr]
        simp only [List.flatMap_cons, List.flatMap_nil, List.append_nil]
        have := List.range'_append_1 0 (64 - s.iBlockOffset) (n % 65536 - (64 - s.iBlockOffset))
        rw [Nat.zero_add] at this
        rw [this]
        congr 1; omega
    · rename_i h0 hlt
      obtain ⟨t, ht, hb, hr⟩ := MD5_Update_while_traced_snd (n % 65536)
        ({ s with lTotalByteSize := (s.lTotalByteSize + n % 65536) % 18446744073709551616 },
          []) data 0 (n % 65536) (Nat.le_refl _)
        (Or.inr (by show s.iBlockOffset + n % 65536 < 64; omega))
      rw [ht, List.nil_append]
      exact ⟨hb, hr⟩

theorem MD5_UpdateByte_while_traced_fst (fuel : Nat) (p : MD5_InstType × List MD5_FillRecord)
    (v n : Nat) :
    (MD5_UpdateByte_while_traced fuel p v n).1 = MD5_UpdateByte_while fuel p.1 v n := by
  induction fuel generalizing p n with
  | zero => rfl
  | succ fuel ih =>
    unfold MD5_UpdateByte_while_traced MD5_UpdateByte_while
    split
    · rw [ih]
    · rfl

theorem MD5_UpdateByte_traced_fst (s : MD5_InstType) (v n : Nat) :
    (MD5_UpdateByte_traced s v n).1 = MD5_UpdateByte s v n := by
  unfold MD5_UpdateByte_traced MD5_UpdateByte
  simp only
  split
  · rw [MD5_UpdateByte_while_traced_fst]
  · split
    · rw [MD5_UpdateByte_while_traced_fst]
    · rw [MD5_UpdateByte_while_traced_fst]

theorem MD5_UpdateByte_while_traced_snd (fuel : Nat)
    (p : MD5_InstType × List MD5_FillRecord) (v n : Nat) (hfuel : n ≤ fuel)
    (ho : p.1.iBlockOffset = 0 ∨ p.1.iBlockOffset + n < 64) :
    ∃ t, (MD5_UpdateByte_while_traced fuel p v n).2 = p.2 ++ t ∧
      (∀ r ∈ t, r.dst + r.size ≤ 64) ∧ (t.map (fun r => r.size)).sum = n := by
  induction fuel generalizing p n with
  | zero =>
    have hn : n = 0 := by omega
    subst hn
    exact ⟨[], by simp [MD5_UpdateByte_while_traced], by simp, by simp⟩
  | succ fuel ih =>
    unfold MD5_UpdateByte_while_traced
    by_cases hz : n = 0
    · subst hz
      simp only [ne_eq, not_true_eq_false, if_false]
      exact ⟨[], by simp, by simp, by simp⟩
    · simp only [ne_eq, hz, not_false_eq_true, if_true, MD5_BLOCK_SIZE]
      generalize hk : (if n > 64 then 64 else n) = k
      have hk1 : 1 ≤ k := by split at hk <;> omega
      have hk2 : k ≤ n := by split at hk <;> omega
      have hk3 : p.1.iBlockOffset + k ≤ 64 := by split at hk <;> omega
      have hmod : (p.1.iBlockOffset + k) % 65536 = p.1.iBlockOffset + k := by omega
      rw [hmod]
      have hoff := MD5_ProcessBlock_offset
        { p.1 with uBlockBuffer := MD5_MEMSET p.1.uBlockBuffer p.1.iBlockOffset v k,
                   iBlockOffset := p.1.iBlockOffset + k }
      simp only at hoff
      obtain ⟨t, ht, hb, hr⟩ := ih
        (MD5_ProcessBlock
            { p.1 with uBlockBuffer := MD5_MEMSET p.1.uBlockBuffer p.1.iBlockOffset v k,
                       iBlockOffset := p.1.iBlockOffset + k },
          p.2 ++ [{ dst := p.1.iBlockOffset, size := k }])
        (n - k) (by omega)
        (by simp only [hoff]; split <;> split at hk <;> omega)
      refine ⟨{ dst := p.1.iBlockOffset, size := k } :: t, ?_, ?_, ?_⟩
      · rw [ht]; simp
      · intro r hr
        rcases List.mem_cons.mp hr with h | h
        · subst h; exact hk3
        · exact hb r h
      · rw [List.map_cons, List.sum_cons, hr]
        show k + (n - k) = n
        omega

theorem MD5_UpdateByte_traced_snd (s : MD5_InstType) (v n : Nat)
    (ho : s.iBlockOffset ≤ 64) :
    (∀ r ∈ (MD5_UpdateByte_traced s v n).2, r.dst + r.size ≤ 64) ∧
    ((MD5_UpdateByte_traced s v n).2.map (fun r => r.size)).sum = n % 65536 := by
  unfold MD5_UpdateByte_traced
  have hl : (MD5_BLOCK_SIZE + 65536 - s.iBlockOffset) % 256 = 64 - s.iBlockOffset := by
    simp only [MD5_BLOCK_SIZE]; omega
  simp only [hl]
  split
  · rename_i h0
    have hoff := MD5_ProcessBlock_offset
      { s with lTotalByteSize := (s.lTotalByteSize + n % 65536) % 18446744073709551616 }
    simp only at hoff
    obtain ⟨t, ht, hb, hr⟩ := MD5_UpdateByte_while_traced_snd (n % 65536)
      (MD5_ProcessBlock
          { s with lTotalByteSize := (s.lTotalByteSize + n % 65536) % 18446744073709551616 },
        []) (v % 256) (n % 65536) (Nat.le_refl _)
      (Or.inl (by simp only [hoff]; split <;> omega))
    rw [ht, List.nil_append]
    exact ⟨hb, hr⟩
  · split
    · rename_i h0 hge
      have hoff := MD5_ProcessBlock_offset
        { s with lTotalByteSize := (s.lTotalByteSize + n % 65536) % 18446744073709551616,
                 uBlockBuffer := MD5_MEMSET s.uBlockBuffer s.iBlockOffset (v % 256)
                   (64 - s.iBlockOffset),
                 iBlockOffset := MD5_BLOCK_SIZE }
      simp only [MD5_BLOCK_SIZE, if_true] at hoff
      simp only [MD5_BLOCK_SIZE]
      obtain ⟨t, ht, hb, hr⟩ := MD5_UpdateByte_while_traced_snd
        (n % 65536 - (64 - s.iBlockOffset))
        (MD5_ProcessBlock
            { s with lTotalByteSize := (s.lTotalByteSize + n % 65536) % 18446744073709551616,
                     uBlockBuffer := MD5_MEMSET s.uBlockBuffer s.iBlockOffset (v % 256)
                       (64 - s.iBlockOffset),
                     iBlockOffset := 64 },
          [{ dst := s.iBlockOffset, size := 64 - s.iBlockOffset }])
        (v % 256) (n % 65536 - (64 - s.iBlockOffset)) (Nat.le_refl _) (Or.inl hoff)
      rw [ht]
      constructor
      · intro r hr0
        rcases List.mem_append.mp hr0 with h | h
        · rw [List.mem_singleton] at h
          subst h
          show s.iBlockOffset + (64 - s.iBlockOffset) ≤ 64
          omega
        · exact hb r h
      · rw [List.map_append, List.sum_append, hr]
        simp only [List.map_cons, List.map_nil, List.sum_cons, List.sum_nil]
        omega
    · rename_i h0 hlt
      obtain ⟨t, ht, hb, hr⟩ := MD5_UpdateByte_while_traced_snd (n % 65536)
        ({ s with lTotalByteSize := (s.lTotalByteSize + n % 65536) % 18446744073709551616 },
          []) (v % 256) (n % 65536) (Nat.le_refl _)
        (Or.inr (by show s.iBlockOffset + n % 65536 < 64; omega))
      rw [ht, List.nil_append]
      exact ⟨hb, hr⟩

/-- C35: from a state with `iBlockOffset ≤ 64` and for a length `n` in `0 .. 65535`, every
copy performed by `MD5_Update` and every fill performed by `MD5_UpdateByte` writes buffer
positions within `0 .. 63` only (offset plus size is at most 64 at each of them), the
copies of `MD5_Update` read the source positions `0 .. n-1`, each once and in order, and
the fills of `MD5_UpdateByte` write `n` bytes in all. -/
theorem C35_copies_stay_in_the_buffer (psInst : MD5_InstType) (pbData : List Nat)
    (bValue n : Nat) (ho : psInst.iBlockOffset ≤ 64) (hn : n ≤ 65535) :
    (MD5_Update_traced psInst pbData n).1 = MD5_Update psInst pbData n ∧
    (∀ r ∈ (MD5_Update_traced psInst pbData n).2, r.dst + r.size ≤ 64) ∧
    (MD5_Update_traced psInst pbData n).2.flatMap (fun r => List.range' r.src r.size)
      = List.range n ∧
    (MD5_UpdateByte_traced psInst bValue n).1 = MD5_UpdateByte psInst bValue n ∧
    (∀ r ∈ (MD5_UpdateByte_traced psInst bValue n).2, r.dst + r.size ≤ 64) ∧
    ((MD5_UpdateByte_traced psInst bValue n).2.map (fun r => r.size)).sum = n := by
  have hm : n % 65536 = n := by omega
  obtain ⟨h1, h2⟩ := MD5_Update_traced_snd psInst pbData n ho
  obtain ⟨h3, h4⟩ := MD5_UpdateByte_traced_snd psInst bValue n ho
  rw [hm] at h2 h4
  exact ⟨MD5_Update_traced_fst psInst pbData n, h1, h2,
    MD5_UpdateByte_traced_fst psInst bValue n, h3, h4⟩

theorem C35_copies_stay_in_the_buffer_witness :
    MD5_exampleInst.iBlockOffset ≤ 64 ∧ (100 : Nat) ≤ 65535 ∧
    ((MD5_Update_traced MD5_exampleInst (List.replicate 100 7) 100).1
        = MD5_Update MD5_exampleInst (List.replicate 100 7) 100 ∧
     (∀ r ∈ (MD5_Update_traced MD5_exampleInst (List.replicate 100 7) 100).2,
        r.dst + r.size ≤ 64) ∧
     (MD5_Update_traced MD5_exampleInst (List.replicate 100 7) 100).2.flatMap
        (fun r => List.range' r.src r.size) = List.range 100 ∧
     (MD5_UpdateByte_traced MD5_exampleInst 7 100).1 = MD5_UpdateByte MD5_exampleInst 7 100 ∧
     (∀ r ∈ (MD5_UpdateByte_traced MD5_exampleInst 7 100).2, r.dst + r.size ≤ 64) ∧
     ((MD5_UpdateByte_traced MD5_exampleInst 7 100).2.map (fun r => r.size)).sum = 100) :=
  ⟨by decide, by decide,
    C35_copies_stay_in_the_buffer MD5_exampleInst (List.replicate 100 7) 7 100 (by decide)
      (by decide)⟩

/-! ## Indices and lengths stay in range -/

/-- C36: the block compression is total: the two nested loops perform 64 operations, in
each of which the table index `bLutIndex = bOperation + 16 * bRound` lies in `0 .. 63`,
within the 64 entries of `MD5_adwTableT`, `MD5_abTableS` and `MD5_abTableK`, the
message-word index lies in `0 .. 15` and the rotation count passed to `MD5_RotateLeft`
lies in `1 .. 31`; these are the indices `MD5_Operation` uses. -/
theorem C36_MD5_ProcessBlock_indices_in_range :
    MD5_Rounds_indices.length = 64 ∧
    MD5_adwTableT.length = 64 ∧ MD5_abTableS.length = 64 ∧ MD5_abTableK.length = 64 ∧
    MD5_Rounds_indices.map (fun t => t.1) = List.range 64 ∧
    (∀ t ∈ MD5_Rounds_indices, t.1 < 64 ∧ t.2.1 < 16 ∧ 1 ≤ t.2.2 ∧ t.2.2 ≤ 31) ∧
    (∀ (bRound : Fin 4) (bOperation : Fin 16),
      MD5_Operation_indices bRound.val bOperation.val ∈ MD5_Rounds_indices ∧
      (MD5_Operation_indices bRound.val bOperation.val).1
        = bOperation.val + 16 * bRound.val) ∧
    (∀ (ab : List Nat) (bRound bOperation : Nat) (r : MD5_Regs),
      MD5_Operation ab bRound bOperation r
        = { A := r.D, D := r.C, C := r.B,
            B := (r.B + MD5_RotateLeft
                    ((r.A + MD5_pnAuxFuncs bRound r
                        + MD5_GetValueT (MD5_Operation_indices bRound bOperation).1
                        + MD5_BlockBuf_adw ab (MD5_Operation_indices bRound bOperation).2.1)
                      % 4294967296)
                    (MD5_Operation_indices bRound bOperation).2.2) % 4294967296 }) := by
  refine ⟨by decide, by decide, by decide, by decide, by decide, by decide, by decide, ?_⟩
  intro ab bRound bOperation r
  rfl

theorem MD5_Final_beforeZeroPad_offset (s : MD5_InstType) (ho : s.iBlockOffset ≤ 64) :
    (MD5_Final_beforeZeroPad s).iBlockOffset ≤ 56 := by
  have h1 := MD5_UpdateByte_offset s 0x80 1 ho
  have h1le : (MD5_UpdateByte s 0x80 1).iBlockOffset ≤ 64 := by omega
  unfold MD5_Final_beforeZeroPad
  simp only [MD5_BLOCK_SIZE]
  split
  · rename_i hlt
    rw [MD5_UpdateByte_offset _ _ _ h1le]
    omega
  · rename_i hge
    omega

/-- C37: in `MD5_Final` the 8-bit subtraction `bZeroPadLength = bBytesLeftInBlock - 8`
never underflows: from a state with `iBlockOffset ≤ 64` at entry, `bBytesLeftInBlock` lies
in `8 .. 64` at that point, so that the zero-pad count of the last `MD5_UpdateByte` call is
`bBytesLeftInBlock - 8` and lies in `0 .. 56`, and the final 8-byte `MD5_Update` starts at
offset 56 and exactly completes the block. -/
theorem C37_MD5_Final_bZeroPadLength_no_underflow (psInst : MD5_InstType)
    (ho : psInst.iBlockOffset ≤ 64) :
    8 ≤ MD5_Final_bBytesLeftInBlock psInst ∧ MD5_Final_bBytesLeftInBlock psInst ≤ 64 ∧
    (MD5_Final_bZeroPadLength psInst : Int) = (MD5_Final_bBytesLeftInBlock psInst : Int) - 8 ∧
    MD5_Final_bZeroPadLength psInst ≤ 56 ∧
    (MD5_Final_beforeLength psInst).iBlockOffset + 8 = 64 ∧
    MD5_Final psInst
      = MD5_Update (MD5_Final_beforeLength psInst)
          (MD5_bytesOfUINT64 ((psInst.lTotalByteSize * 8) % 18446744073709551616)) 8 ∧
    (MD5_Final psInst).iBlockOffset = 0 := by
  have h2 := MD5_Final_beforeZeroPad_offset psInst ho
  have hl : MD5_Final_bBytesLeftInBlock psInst
      = 64 - (MD5_Final_beforeZeroPad psInst).iBlockOffset := by
    unfold MD5_Final_bBytesLeftInBlock
    simp only [MD5_BLOCK_SIZE]
    omega
  have hz : MD5_Final_bZeroPadLength psInst
      = 56 - (MD5_Final_beforeZeroPad psInst).iBlockOffset := by
    unfold MD5_Final_bZeroPadLength
    rw [hl]
    omega
  have h3 : (MD5_Final_beforeLength psInst).iBlockOffset = 56 := by
    unfold MD5_Final_beforeLength
    split
    · rw [MD5_UpdateByte_offset _ _ _ (by omega), hz]
      omega
    · rename_i hnz
      omega
  refine ⟨by omega, by omega, by omega, by omega, by omega, rfl, ?_⟩
  rw [MD5_Final_eq_beforeLength, MD5_Update_offset _ _ _ (by omega), h3]

theorem C37_MD5_Final_bZeroPadLength_no_underflow_witness :
    MD5_exampleFullInst.iBlockOffset ≤ 64 ∧
    (8 ≤ MD5_Final_bBytesLeftInBlock MD5_exampleFullInst ∧
     MD5_Final_bBytesLeftInBlock MD5_exampleFullInst ≤ 64 ∧
     (MD5_Final_bZeroPadLength MD5_exampleFullInst : Int)
        = (MD5_Final_bBytesLeftInBlock MD5_exampleFullInst : Int) - 8 ∧
     MD5_Final_bZeroPadLength MD5_exampleFullInst ≤ 56 ∧
     (MD5_Final_beforeLength MD5_exampleFullInst).iBlockOffset + 8 = 64 ∧
     MD5_Final MD5_exampleFullInst
       = MD5_Update (MD5_Final_beforeLength MD5_exampleFullInst)
           (MD5_bytesOfUINT64
             ((MD5_exampleFullInst.lTotalByteSize * 8) % 18446744073709551616)) 8 ∧
     (MD5_Final MD5_exampleFullInst).iBlockOffset = 0) :=
  ⟨by decide, C37_MD5_Final_bZeroPadLength_no_underflow MD5_exampleFullInst (by decide)⟩

/-! ## The octet copy of the porting layer -/

theorem MD5_PORT_and_FF (x : Nat) : 255 &&& x = x % 256 := by
  rw [Nat.and_comm]
  exact Nat.and_pow_two_sub_one_eq_mod x 8

theorem MD5_PORT_and_FF00 (x : Nat) : 65280 &&& x = 256 * ((x / 256) % 256) := by
  apply Nat.eq_of_testBit_eq
  intro i
  have h1 : (65280 : Nat) = 2 ^ 8 * (2 ^ 8 - 1) := by norm_num
  have h2 : (256 : Nat) = 2 ^ 8 := by norm_num
  rw [Nat.testBit_and, h1, h2, Nat.testBit_mul_pow_two, Nat.testBit_mul_pow_two,
    Nat.testBit_two_pow_sub_one, Nat.testBit_mod_two_pow, ← Nat.shiftRight_eq_div_pow,
    Nat.testBit_shiftRight]
  by_cases h8 : 8 ≤ i
  · have : 8 + (i - 8) = i := by omega
    simp [h8, this, Bool.and_assoc]
  · simp [h8]

theorem MD5_PORT_GetLowAddrOct_eq (w : Nat) : MD5_PORT_GetLowAddrOct w = w % 256 := by
  unfold MD5_PORT_GetLowAddrOct
  exact Nat.and_pow_two_sub_one_eq_mod w 8

theorem MD5_PORT_GetHighAddrOct_eq (w : Nat) : MD5_PORT_GetHighAddrOct w = (w / 256) % 256 := by
  unfold MD5_PORT_GetHighAddrOct
  rw [Nat.shiftRight_eq_div_pow]
  exact Nat.and_pow_two_sub_one_eq_mod _ 8

theorem MD5_PORT_SetHighAddrOct_eq (a v : Nat) :
    MD5_PORT_SetHighAddrOct a v = 256 * (v % 256) + a % 256 := by
  unfold MD5_PORT_SetHighAddrOct
  rw [MD5_PORT_and_FF, MD5_PORT_and_FF00, Nat.shiftLeft_eq, Nat.lor_comm]
  have h1 : v % 65536 * 2 ^ 8 / 256 % 256 = v % 256 := by omega
  have h2 : a % 65536 % 256 = a % 256 := by omega
  have h3 : a % 256 < 2 ^ 8 := by omega
  rw [h1, h2]
  exact (Nat.mul_add_lt_is_or h3 (v % 256)).symm

theorem MD5_PORT_SetLowAddrOct_eq (a v : Nat) :
    MD5_PORT_SetLowAddrOct a v = 256 * ((a / 256) % 256) + v % 256 := by
  unfold MD5_PORT_SetLowAddrOct
  rw [MD5_PORT_and_FF, MD5_PORT_and_FF00]
  have h1 : a % 65536 / 256 % 256 = a / 256 % 256 := by omega
  have h2 : v % 65536 % 256 = v % 256 := by omega
  have h3 : v % 256 < 2 ^ 8 := by omega
  rw [h1, h2]
  exact (Nat.mul_add_lt_is_or h3 (a / 256 % 256)).symm

theorem MD5_PORT_getD_set (l : List Nat) (i j a : Nat) :
    (l.set i a).getD j 0 = if i = j ∧ i < l.length then a else l.getD j 0 := by
  rw [List.getD_eq_getElem?_getD, List.getD_eq_getElem?_getD, List.getElem?_set]
  by_cases hij : i = j
  · subst hij
    by_cases hl : i < l.length
    · simp [hl]
    · simp [hl, List.getElem?_eq_none (by omega : l.length ≤ i)]
  · simp [hij]

theorem MD5_PORT_octet_set_low (l : List Nat) (p v m : Nat) (hp : p < l.length) :
    MD5_PORT_octet (l.set p (256 * ((l.getD p 0 / 256) % 256) + v % 256)) m
      = if m = 2 * p then v % 256 else MD5_PORT_octet l m := by
  unfold MD5_PORT_octet
  rw [MD5_PORT_getD_set]
  by_cases hm : p = m / 2
  · have hm1 : m / 2 = p := hm.symm
    by_cases h2 : m % 2 = 0
    · have hmeq : m = 2 * p := by omega
      have e1 : 2 * p % 2 = 0 := by omega
      have e2 : 2 * p / 2 = p := by omega
      subst hmeq
      simp only [e1, e2, hp, and_self, if_true]
      omega
    · have : m ≠ 2 * p := by omega
      simp only [hm1, hp, and_self, if_true, h2, this, if_false]
      omega
  · have : m ≠ 2 * p := by omega
    simp only [hm, false_and, if_false, this]

theorem MD5_PORT_octet_set_high (l : List Nat) (p v m : Nat) (hp : p < l.length) :
    MD5_PORT_octet (l.set p (256 * (v % 256) + l.getD p 0 % 256)) m
      = if m = 2 * p + 1 then v % 256 else MD5_PORT_octet l m := by
  unfold MD5_PORT_octet
  rw [MD5_PORT_getD_set]
  by_cases hm : p = m / 2
  · have hm1 : m / 2 = p := hm.symm
    by_cases h2 : m % 2 = 0
    · have : m ≠ 2 * p + 1 := by omega
      simp only [hm1, hp, and_self, if_true, h2, this, if_false]
      omega
    · have hmeq : m = 2 * p + 1 := by omega
      have e1 : (2 * p + 1) % 2 ≠ 0 := by omega
      have e2 : (2 * p + 1) / 2 = p := by omega
      subst hmeq
      simp only [e1, e2, hp, and_self, if_true, if_false]
      omega
  · have : m ≠ 2 * p + 1 := by omega
    simp only [hm, false_and, if_false, this]

theorem MD5_PORT_octet_even (l : List Nat) (p : Nat) :
    MD5_PORT_octet l (2 * p) = l.getD p 0 % 256 := by
  unfold MD5_PORT_octet
  have e1 : 2 * p % 2 = 0 := by omega
  have e2 : 2 * p / 2 = p := by omega
  simp only [e1, e2, if_true]

theorem MD5_PORT_octet_odd (l : List Nat) (p : Nat) :
    MD5_PORT_octet l (2 * p + 1) = (l.getD p 0 / 256) % 256 := by
  unfold MD5_PORT_octet
  have e1 : (2 * p + 1) % 2 ≠ 0 := by omega
  have e2 : (2 * p + 1) / 2 = p := by omega
  simp only [e1, e2, if_false]

theorem MD5_PORT_body_spec (pxSrc : List Nat) (st : MD5_PORT_CopyState)
    (hfd : st.fOddDestOctet ≤ 1) (hfs : st.fOddSrcOctet ≤ 1)
    (hb : st.piDest < st.axDest.length) :
    (MD5_PORT_CopyOctets_body pxSrc st).axDest.length = st.axDest.length ∧
    (MD5_PORT_CopyOctets_body pxSrc st).fOddDestOctet ≤ 1 ∧
    (MD5_PORT_CopyOctets_body pxSrc st).fOddSrcOctet ≤ 1 ∧
    2 * (MD5_PORT_CopyOctets_body pxSrc st).piDest
        + (MD5_PORT_CopyOctets_body pxSrc st).fOddDestOctet
      = 2 * st.piDest + st.fOddDestOctet + 1 ∧
    2 * (MD5_PORT_CopyOctets_body pxSrc st).piSrc
        + (MD5_PORT_CopyOctets_body pxSrc st).fOddSrcOctet
      = 2 * st.piSrc + st.fOddSrcOctet + 1 ∧
    MD5_PORT_octet (MD5_PORT_CopyOctets_body pxSrc st).axDest
        (2 * st.piDest + st.fOddDestOctet)
      = MD5_PORT_octet pxSrc (2 * st.piSrc + st.fOddSrcOctet) ∧
    (∀ m, m ≠ 2 * st.piDest + st.fOddDestOctet →
      MD5_PORT_octet (MD5_PORT_CopyOctets_body pxSrc st).axDest m
        = MD5_PORT_octet st.axDest m) := by
  have hx0 : (0 : Nat) ^^^ 1 = 1 := by decide
  have hx1 : (1 : Nat) ^^^ 1 = 0 := by decide
  have hd : st.fOddDestOctet = 0 ∨ st.fOddDestOctet = 1 := by omega
  have hs : st.fOddSrcOctet = 0 ∨ st.fOddSrcOctet = 1 := by omega
  have hdata : (if st.fOddSrcOctet ≠ 0 then MD5_PORT_GetHighAddrOct (pxSrc.getD st.piSrc 0)
        else MD5_PORT_GetLowAddrOct (pxSrc.getD st.piSrc 0)) % 256
      = MD5_PORT_octet pxSrc (2 * st.piSrc + st.fOddSrcOctet) := by
    rcases hs with hs | hs
    · rw [hs, Nat.add_zero, MD5_PORT_octet_even, if_neg (by decide),
        MD5_PORT_GetLowAddrOct_eq]
      omega
    · rw [hs, MD5_PORT_octet_odd, if_pos (by decide), MD5_PORT_GetHighAddrOct_eq]
      omega
  generalize hv : (if st.fOddSrcOctet ≠ 0 then MD5_PORT_GetHighAddrOct (pxSrc.getD st.piSrc 0)
        else MD5_PORT_GetLowAddrOct (pxSrc.getD st.piSrc 0)) = v at hdata
  have hsrc : 2 * (if st.fOddSrcOctet ≠ 0 then st.piSrc + 1 else st.piSrc)
        + (st.fOddSrcOctet ^^^ 1) = 2 * st.piSrc + st.fOddSrcOctet + 1 ∧
      (st.fOddSrcOctet ^^^ 1) ≤ 1 := by
    rcases hs with hs | hs
    · rw [hs, hx0, if_neg (by decide)]; omega
    · rw [hs, hx1, if_pos (by decide)]; omega
  have hdst : 2 * (if st.fOddDestOctet ≠ 0 then st.piDest + 1 else st.piDest)
        + (st.fOddDestOctet ^^^ 1) = 2 * st.piDest + st.fOddDestOctet + 1 ∧
      (st.fOddDestOctet ^^^ 1) ≤ 1 := by
    rcases hd with hd | hd
    · rw [hd, hx0, if_neg (by decide)]; omega
    · rw [hd, hx1, if_pos (by decide)]; omega
  have hbody : MD5_PORT_CopyOctets_body pxSrc st
      = { axDest :=
            if st.fOddDestOctet ≠ 0 then
              st.axDest.set st.piDest
                (MD5_PORT_SetHighAddrOct (st.axDest.getD st.piDest 0) v)
            else
              st.axDest.set st.piDest
                (MD5_PORT_SetLowAddrOct (st.axDest.getD st.piDest 0) v),
          piDest := if st.fOddDestOctet ≠ 0 then st.piDest + 1 else st.piDest,
          piSrc := if st.fOddSrcOctet ≠ 0 then st.piSrc + 1 else st.piSrc,
          fOddDestOctet := st.fOddDestOctet ^^^ 1,
          fOddSrcOctet := st.fOddSrcOctet ^^^ 1 } := by
    rw [← hv]; rfl
  rw [hbody]
  simp only
  refine ⟨?_, hdst.2, hsrc.2, hdst.1, hsrc.1, ?_, ?_⟩
  · split <;> rw [List.length_set]
  · rw [← hdata]
    rcases hd with hd | hd
    · rw [hd, if_neg (by decide), MD5_PORT_SetLowAddrOct_eq, MD5_PORT_octet_set_low _ _ _ _ hb,
        Nat.add_zero, if_pos rfl]
    · rw [hd, if_pos (by decide), MD5_PORT_SetHighAddrOct_eq,
        MD5_PORT_octet_set_high _ _ _ _ hb, if_pos rfl]
  · intro m hm
    rcases hd with hd | hd
    · rw [hd, Nat.add_zero] at hm
      rw [hd, if_neg (by decide), MD5_PORT_SetLowAddrOct_eq, MD5_PORT_octet_set_low _ _ _ _ hb,
        if_neg hm]
    · rw [hd] at hm
      rw [hd, if_pos (by decide), MD5_PORT_SetHighAddrOct_eq,
        MD5_PORT_octet_set_high _ _ _ _ hb, if_neg hm]

theorem MD5_PORT_loop_spec (pxSrc : List Nat) (k : Nat) (st : MD5_PORT_CopyState)
    (hfd : st.fOddDestOctet ≤ 1) (hfs : st.fOddSrcOctet ≤ 1)
    (hb : 2 * st.piDest + st.fOddDestOctet + k ≤ 2 * st.axDest.length) :
    (MD5_PORT_CopyOctets_loop pxSrc k st).axDest.length = st.axDest.length ∧
    (∀ j, j < k →
      MD5_PORT_octet (MD5_PORT_CopyOctets_loop pxSrc k st).axDest
          (2 * st.piDest + st.fOddDestOctet + j)
        = MD5_PORT_octet pxSrc (2 * st.piSrc + st.fOddSrcOctet + j)) ∧
    (∀ m, m < 2 * st.piDest + st.fOddDestOctet ∨ 2 * st.piDest + st.fOddDestOctet + k ≤ m →
      MD5_PORT_octet (MD5_PORT_CopyOctets_loop pxSrc k st).axDest m
        = MD5_PORT_octet st.axDest m) := by
  induction k generalizing st with
  | zero =>
    refine ⟨rfl, ?_, ?_⟩
    · intro j hj; omega
    · intro m _; rfl
  | succ k ih =>
    obtain ⟨b1, b2, b3, b4, b5, b6, b7⟩ := MD5_PORT_body_spec pxSrc st hfd hfs (by omega)
    obtain ⟨i1, i2, i3⟩ := ih (MD5_PORT_CopyOctets_body pxSrc st) b2 b3 (by rw [b1, b4]; omega)
    rw [b4] at i2 i3
    rw [b5] at i2
    show (MD5_PORT_CopyOctets_loop pxSrc k (MD5_PORT_CopyOctets_body pxSrc st)).axDest.length
          = st.axDest.length ∧ _ ∧ _
    refine ⟨by rw [i1, b1], ?_, ?_⟩
    · intro j hj
      show MD5_PORT_octet
          (MD5_PORT_CopyOctets_loop pxSrc k (MD5_PORT_CopyOctets_body pxSrc st)).axDest _ = _
      cases j with
      | zero =>
        rw [Nat.add_zero, Nat.add_zero, i3 _ (Or.inl (by omega)), b6]
      | succ j =>
        have := i2 j (by omega)
        rw [Nat.add_assoc _ 1 j, Nat.add_comm 1 j, Nat.add_assoc _ 1 j, Nat.add_comm 1 j] at this
        exact this
    · intro m hm
      show MD5_PORT_octet
          (MD5_PORT_CopyOctets_loop pxSrc k (MD5_PORT_CopyOctets_body pxSrc st)).axDest _ = _
      rw [i3 m (by omega), b7 m (by omega)]

/-- C38: for the 16-bit-char porting layer: for every packed destination and source word
array, all octet offsets `d`, `s` and every count `n` (16-bit values, with the octets
`d .. d+n-1` inside the destination array), `MD5_PORT_CopyOctetsImpl` makes destination
octet `d + j` equal to source octet `s + j` for every `j < n`, and leaves every
destination octet outside `d .. d+n-1` unchanged, as well as the number of words. -/
theorem C38_MD5_PORT_CopyOctetsImpl_copies_octets (pxDest pxSrc : List Nat) (d s n : Nat)
    (hd : d ≤ 65535) (hs : s ≤ 65535) (hn : n ≤ 65535)
    (hDest : d + n ≤ 2 * pxDest.length) :
    (MD5_PORT_CopyOctetsImpl pxDest d pxSrc s n).length = pxDest.length ∧
    (∀ j, j < n →
      MD5_PORT_octet (MD5_PORT_CopyOctetsImpl pxDest d pxSrc s n) (d + j)
        = MD5_PORT_octet pxSrc (s + j)) ∧
    (∀ m, m < d ∨ d + n ≤ m →
      MD5_PORT_octet (MD5_PORT_CopyOctetsImpl pxDest d pxSrc s n) m
        = MD5_PORT_octet pxDest m) := by
  have hd1 : d % 65536 = d := by omega
  have hs1 : s % 65536 = s := by omega
  have hn1 : n % 65536 = n := by omega
  have ed : 2 * (d >>> 1) + (d &&& 1) = d := by
    rw [Nat.shiftRight_eq_div_pow, Nat.and_one_is_mod]; omega
  have es : 2 * (s >>> 1) + (s &&& 1) = s := by
    rw [Nat.shiftRight_eq_div_pow, Nat.and_one_is_mod]; omega
  have hfd : d &&& 1 ≤ 1 := by rw [Nat.and_one_is_mod]; omega
  have hfs : s &&& 1 ≤ 1 := by rw [Nat.and_one_is_mod]; omega
  unfold MD5_PORT_CopyOctetsImpl
  simp only [hd1, hs1, hn1]
  have h := MD5_PORT_loop_spec pxSrc n
    { axDest := pxDest, piDest := d >>> 1, piSrc := s >>> 1,
      fOddDestOctet := d &&& 1, fOddSrcOctet := s &&& 1 } hfd hfs
    (by show 2 * (d >>> 1) + (d &&& 1) + n ≤ 2 * pxDest.length; rw [ed]; exact hDest)
  simp only [ed, es] at h
  exact h

theorem C38_MD5_PORT_CopyOctetsImpl_copies_octets_witness :
    (3 : Nat) ≤ 65535 ∧ (1 : Nat) ≤ 65535 ∧ (4 : Nat) ≤ 65535 ∧
    3 + 4 ≤ 2 * [0x1111, 0x2222, 0x3333, 0x4444].length ∧
    ((MD5_PORT_CopyOctetsImpl [0x1111, 0x2222, 0x3333, 0x4444] 3 [0xBBAA, 0xDDCC, 0xFFEE] 1
        4).length = [0x1111, 0x2222, 0x3333, 0x4444].length ∧
     (∀ j, j < 4 →
        MD5_PORT_octet
            (MD5_PORT_CopyOctetsImpl [0x1111, 0x2222, 0x3333, 0x4444] 3
              [0xBBAA, 0xDDCC, 0xFFEE] 1 4) (3 + j)
          = MD5_PORT_octet [0xBBAA, 0xDDCC, 0xFFEE] (1 + j)) ∧
     (∀ m, m < 3 ∨ 3 + 4 ≤ m →
        MD5_PORT_octet
            (MD5_PORT_CopyOctetsImpl [0x1111, 0x2222, 0x3333, 0x4444] 3
              [0xBBAA, 0xDDCC, 0xFFEE] 1 4) m
          = MD5_PORT_octet [0x1111, 0x2222, 0x3333, 0x4444] m)) :=
  ⟨by decide, by decide, by decide, by decide,
    C38_MD5_PORT_CopyOctetsImpl_copies_octets [0x1111, 0x2222, 0x3333, 0x4444]
      [0xBBAA, 0xDDCC, 0xFFEE] 3 1 4 (by decide) (by decide) (by decide) (by decide)⟩
